import Mathlib

/-!
Verification development for the tabular analysis plan engine of
src/streamlit_app.py: column resolution (_resolve_column), type coercion
(_smart_coerce_dataframe) and the sequential plan executor
(_execute_analysis_plan).  Python dynamic values are embedded as `PyVal`,
pandas DataFrames as `Table` (row-major list of rows over typed columns),
Python exceptions as `Except String`.  Library calls (pandas / difflib) are
modelled by executable Lean functions that follow the library semantics the
source relies on; each model carries a comment naming the call it embeds.
-/

set_option maxRecDepth 40000
set_option maxHeartbeats 1600000
set_option allowUnsafeReducibility true
attribute [local semireducible] Rat.add Rat.mul Rat.sub Rat.inv Rat.ofScientific

namespace PlanEngine

/-- A single quote character, used when rendering Python repr of strings. -/
def sq : String := (Char.ofNat 39).toString

/-- Left brace as a string (Python dict repr). -/
def lbrace : String := (Char.ofNat 123).toString

/-- Right brace as a string (Python dict repr). -/
def rbrace : String := (Char.ofNat 125).toString

/-- Lowercasing over the character list (str.lower(); the position-based
String.toLower does not evaluate under kernel reduction). -/
def pyLower (s : String) : String := String.mk (s.data.map Char.toLower)

/-- Whitespace strip over the character list (str.strip()). -/
def pyTrim (s : String) : String :=
  String.mk (((s.data.dropWhile Char.isWhitespace).reverse.dropWhile
    Char.isWhitespace).reverse)

/-- str.split("-"), empty segments preserved. -/
def splitDash (s : String) : List String :=
  (s.data.foldr
    (fun c acc =>
      match acc with
      | cur :: rest =>
          if c = Char.ofNat 45 then [] :: cur :: rest else (c :: cur) :: rest
      | [] => [[c]])
    [[]]).map String.mk

/-- Dynamic Python values as they appear in an LLM-authored JSON plan:
None, bool, int, float (modelled as a rational), str, list, dict. -/
inductive PyVal where
  | none
  | bool (b : Bool)
  | int (n : Int)
  | float (q : Rat)
  | str (s : String)
  | list (xs : List PyVal)
  | dict (kvs : List (String × PyVal))
deriving Inhabited

/-- Python truthiness (`if x:`). -/
def pyTruthy : PyVal → Bool
  | .none => false
  | .bool b => b
  | .int n => n ≠ 0
  | .float q => q ≠ 0
  | .str s => s ≠ ""
  | .list xs => ¬ xs.isEmpty
  | .dict kvs => ¬ kvs.isEmpty

/-- Decimal rendering of a rational whose denominator divides a power of 10,
used to model Python float str()/repr(); falls back to num/den text for
denominators a float cannot have. -/
def decRepr (q : Rat) : String :=
  let sign := if q.num < 0 then "-" else ""
  let n := q.num.natAbs
  let d := q.den
  match (List.range 31).find? (fun k => (10 ^ k * n) % d = 0) with
  | some k =>
      let m := 10 ^ k * n / d
      let intPart := toString (m / 10 ^ k)
      let fracNat := m % 10 ^ k
      let fracRaw := toString fracNat
      let padded := String.mk (List.replicate (k - fracRaw.length) (Char.ofNat 48)) ++ fracRaw
      let trimmed := String.mk (padded.data.reverse.dropWhile (fun c => c = Char.ofNat 48)).reverse
      let frac := if trimmed = "" then "0" else trimmed
      sign ++ intPart ++ "." ++ frac
  | Option.none => sign ++ toString n ++ "/" ++ toString d

/-- Python str() of a float (e.g. str(5.0) = "5.0"). -/
def floatStr (q : Rat) : String := decRepr q

mutual
/-- Python repr() of a plan value (used by f-string interpolation of lists
and dicts in the executor log lines). -/
def pyRepr : PyVal → String
  | .none => "None"
  | .bool b => if b then "True" else "False"
  | .int n => toString n
  | .float q => floatStr q
  | .str s => sq ++ s ++ sq
  | .list xs => "[" ++ String.intercalate ", " (pyReprList xs) ++ "]"
  | .dict kvs => lbrace ++ String.intercalate ", " (pyReprKVs kvs) ++ rbrace

def pyReprList : List PyVal → List String
  | [] => []
  | x :: xs => pyRepr x :: pyReprList xs

def pyReprKVs : List (String × PyVal) → List String
  | [] => []
  | (k, v) :: kvs => (sq ++ k ++ sq ++ ": " ++ pyRepr v) :: pyReprKVs kvs
end

/-- Python str() of a plan value (repr for containers, plain text for str). -/
def pyStr : PyVal → String
  | .str s => s
  | v => pyRepr v

/-- Models dict.get(k) on a step object: None when the key is absent,
AttributeError when the receiver is not a dict (propagates, matching the
unguarded `.get` calls in the source). -/
def pyGet (v : PyVal) (k : String) : Except String PyVal :=
  match v with
  | .dict kvs =>
      match kvs.find? (fun p => p.1 = k) with
      | some p => .ok p.2
      | Option.none => .ok .none
  | _ => .error "AttributeError"

/-- Models dict.get(k, default). -/
def pyGetD (v : PyVal) (k : String) (d : PyVal) : Except String PyVal :=
  match v with
  | .dict kvs =>
      match kvs.find? (fun p => p.1 = k) with
      | some p => .ok p.2
      | Option.none => .ok d
  | _ => .error "AttributeError"

/-- Models Python iteration / list(x): lists iterate their elements, strings
their characters, dicts their keys; scalars raise TypeError. -/
def pyIter : PyVal → Except String (List PyVal)
  | .list xs => .ok xs
  | .str s => .ok (s.data.map (fun c => .str c.toString))
  | .dict kvs => .ok (kvs.map (fun p => .str p.1))
  | _ => .error "TypeError"

/-- Parses a Python int literal (optional sign, nonempty digits), as used by
int(str). -/
def pyIntParse (s : String) : Option Int :=
  let t := (pyTrim s)
  let core := fun (ds : List Char) (neg : Bool) =>
    if ds ≠ [] ∧ ds.all Char.isDigit then
      let n : Nat := ds.foldl (fun acc c => acc * 10 + (c.toNat - 48)) 0
      some (if neg then -(n : Int) else (n : Int))
    else Option.none
  match t.data with
  | [] => Option.none
  | c :: rest =>
      if c = Char.ofNat 45 then core rest true
      else if c = Char.ofNat 43 then core rest false
      else core (c :: rest) false

/-- Digits to a natural number. -/
def digitsToNat (ds : List Char) : Nat :=
  ds.foldl (fun acc c => acc * 10 + (c.toNat - 48)) 0

/-- Parses a Python float literal: optional sign, digits with optional
decimal point, optional exponent; requires at least one mantissa digit.
Rejects inf/nan spellings (modelled as unparseable; no claim exercises
infinities). -/
def pyFloatParse (s : String) : Option Rat :=
  let t := (pyTrim s)
  let parseExp : List Char → Option Int := fun cs =>
    match cs with
    | [] => Option.none
    | c :: rest =>
        let (neg, ds) :=
          if c = Char.ofNat 45 then (true, rest)
          else if c = Char.ofNat 43 then (false, rest)
          else (false, c :: rest)
        if ds ≠ [] ∧ ds.all Char.isDigit then
          some (if neg then -(digitsToNat ds : Int) else (digitsToNat ds : Int))
        else Option.none
  let parseMant : List Char → Option (Rat × List Char) := fun cs =>
    let intDs := cs.takeWhile Char.isDigit
    let rest1 := cs.dropWhile Char.isDigit
    match rest1 with
    | c :: rest2 =>
        if c = Char.ofNat 46 then
          let fracDs := rest2.takeWhile Char.isDigit
          let rest3 := rest2.dropWhile Char.isDigit
          if intDs = [] ∧ fracDs = [] then Option.none
          else some (((digitsToNat intDs : Rat) +
            (digitsToNat fracDs : Rat) / ((10 : Rat) ^ fracDs.length), rest3))
        else if intDs = [] then Option.none
        else some ((digitsToNat intDs : Rat), rest1)
    | [] => if intDs = [] then Option.none else some ((digitsToNat intDs : Rat), [])
  let withSign : List Char → Option Rat := fun cs =>
    match parseMant cs with
    | some (m, rest) =>
        match rest with
        | [] => some m
        | e :: erest =>
            if e = Char.ofNat 101 ∨ e = Char.ofNat 69 then
              match parseExp erest with
              | some ex => some (m * (10 : Rat) ^ ex)
              | Option.none => Option.none
            else Option.none
    | Option.none => Option.none
  match t.data with
  | [] => Option.none
  | c :: rest =>
      if c = Char.ofNat 45 then (withSign rest).map (fun q => -q)
      else if c = Char.ofNat 43 then withSign rest
      else withSign (c :: rest)

/-- Embeds _as_number (src/streamlit_app.py): ints/floats/bools pass through
(bool is an int subclass in Python), otherwise parse str(value) as
bool/int/float text, returning the original value when parsing fails. -/
def as_number (v : PyVal) : PyVal :=
  match v with
  | .bool _ => v
  | .int _ => v
  | .float _ => v
  | _ =>
    let text := (pyTrim (pyStr v))
    if (pyLower text) = "true" then .bool true
    else if (pyLower text) = "false" then .bool false
    else if text = "" then v
    else if text.data.contains (Char.ofNat 46) ∨ ((pyLower text)).data.contains (Char.ofNat 101) then
      match pyFloatParse text with
      | some q => .float q
      | Option.none => v
    else
      match pyIntParse text with
      | some n => .int n
      | Option.none => v

/-- Models Python int(x): ints pass, bools become 0/1, floats truncate toward
zero, strings parse as int literals or raise ValueError, anything else raises
TypeError.  This is the unguarded conversion used by the limit/topk/
pct_change/value_counts branches. -/
def pyInt (v : PyVal) : Except String Int :=
  match v with
  | .int n => .ok n
  | .bool b => .ok (if b then 1 else 0)
  | .float q => .ok (Int.tdiv q.num q.den)
  | .str s =>
      match pyIntParse s with
      | some n => .ok n
      | Option.none => .error "ValueError"
  | _ => .error "TypeError"

/-- Python float(x) for fillna-style scalar use. -/
def pyFloat (v : PyVal) : Except String Rat :=
  match v with
  | .int n => .ok (n : Rat)
  | .bool b => .ok (if b then 1 else 0)
  | .float q => .ok q
  | .str s =>
      match pyFloatParse s with
      | some q => .ok q
      | Option.none => .error "ValueError"
  | _ => .error "TypeError"

/-! ### difflib model (fuzzy column matching) -/

/-- Ascending positions of a character in b; models SequenceMatcher.b2j.
isjunk is None and the strings are far below the 200-character autojunk
threshold, so no position is dropped. -/
def charPositions (b : List Char) (c : Char) : List Nat :=
  (b.enum.filter (fun p => p.2 = c)).map (fun p => p.1)

/-- Lookup in the j -> run-length map used by find_longest_match. -/
def lookupJ (m : List (Nat × Nat)) (j : Nat) : Nat :=
  match m.find? (fun p => p.1 = j) with
  | some p => p.2
  | Option.none => 0

/-- Models difflib.SequenceMatcher.find_longest_match over the full ranges:
the classic j2len dynamic program; returns (i, j, size).  The trailing
junk-extension loops of the CPython source are no-ops here (empty junk set). -/
def findLongestMatch (a b : List Char) : Nat × Nat × Nat :=
  let rowStep := fun (st : List (Nat × Nat) × (Nat × Nat × Nat)) (p : Nat × Char) =>
    let j2len := st.1
    let (i, ai) := p
    let inner := (charPositions b ai).foldl
      (fun (st2 : List (Nat × Nat) × (Nat × Nat × Nat)) j =>
        let (newj2len, best) := st2
        let k := (if j = 0 then 0 else lookupJ j2len (j - 1)) + 1
        let best2 := if k > best.2.2 then (i + 1 - k, j + 1 - k, k) else best
        ((j, k) :: newj2len, best2))
      ([], st.2)
    inner
  (a.enum.foldl rowStep ([], (0, 0, 0))).2

/-- Total size of all matching blocks (the M of difflib's ratio): recursion
of get_matching_blocks on the sub-ranges left and right of the longest
match.  Fuel a.length + b.length + 1 suffices since each recursive call
strictly shrinks the combined length. -/
def matchTotalF : Nat → List Char → List Char → Nat
  | 0, _, _ => 0
  | fuel + 1, a, b =>
    let (i, j, k) := findLongestMatch a b
    if k = 0 then 0
    else
      matchTotalF fuel (a.take i) (b.take j) + k +
      matchTotalF fuel (a.drop (i + k)) (b.drop (j + k))

/-- Total matching size between two character lists. -/
def matchTotal (a b : List Char) : Nat := matchTotalF (a.length + b.length + 1) a b

/-- difflib's ratio(): 2*M/(|a|+|b|), and 1.0 when both are empty
(_calculate_ratio). -/
def seqRatio (a b : String) : Rat :=
  if a.length + b.length = 0 then 1
  else (2 * (matchTotal a.data b.data : Rat)) / ((a.length : Rat) + (b.length : Rat))

/-- Python string > (code-point lexicographic), the tie-break of
heapq.nlargest on (ratio, string) pairs. -/
def strGtPy (x y : String) : Bool :=
  let rec go : List Char → List Char → Bool
    | _, [] => false
    | [], _ :: _ => false
    | c :: cs, d :: ds => if c = d then go cs ds else decide (d < c)
  match x.data, y.data with
  | _, [] => x.data ≠ []
  | [], _ :: _ => false
  | c :: cs, d :: ds => if c = d then go cs ds else decide (d < c)

/-- Models difflib.get_close_matches(word, possibilities, n=1, cutoff):
keep candidates whose ratio is at least the cutoff (quick_ratio and
real_quick_ratio are upper bounds of ratio, so they do not change the
surviving set) and return the one maximising the pair (ratio, string) in
tuple order, as heapq.nlargest does. -/
def getCloseMatches1 (word : String) (possibilities : List String) (cutoff : Rat) :
    Option String :=
  let result := possibilities.filter (fun x => cutoff ≤ seqRatio word x)
  result.foldl
    (fun best x =>
      match best with
      | some b =>
          if seqRatio word x > seqRatio word b ∨
             (seqRatio word x = seqRatio word b ∧ strGtPy x b) then some x else some b
      | Option.none => some x)
    Option.none

/-! ### Table model -/

/-- A pandas cell value: NaN/NaT/None are conflated as `na` (their str() is
modelled as "nan"); timestamps are modelled at day granularity (days since
1970-01-01), which is the granularity the source manipulates. -/
inductive Cell where
  | na
  | int (n : Int)
  | float (q : Rat)
  | str (s : String)
  | bool (b : Bool)
  | time (d : Int)
deriving Repr, DecidableEq, Inhabited

/-- Column dtypes the engine distinguishes. -/
inductive Dtype where
  | obj
  | int64
  | float64
  | boolean
  | datetime
deriving Repr, DecidableEq, Inhabited

/-- A DataFrame: named, typed columns and row-major cells.  Well-formed
tables have every row of header length; the operations preserve this. -/
structure Table where
  header : List (String × Dtype)
  rows : List (List Cell)
deriving Repr, DecidableEq, Inhabited

/-- Column labels in order. -/
def colNames (t : Table) : List String := t.header.map (fun p => p.1)

/-- Cells of column i, top to bottom. -/
def colCells (t : Table) (i : Nat) : List Cell := t.rows.map (fun r => r.getD i .na)

/-- Dtype of column i. -/
def colDtype (t : Table) (i : Nat) : Dtype := (t.header.getD i ("", .obj)).2

/-- Overwrite column i with a dtype and cells (working[col] = series). -/
def setCol (t : Table) (i : Nat) (dt : Dtype) (cells : List Cell) : Table :=
  { header := t.header.set i ((t.header.getD i ("", .obj)).1, dt),
    rows := (t.rows.zip cells).map (fun p => p.1.set i p.2) }

/-- Index of the first occurrence of x (the list.index(x) of the source;
only ever called when x is present). -/
def firstIdx : List String → String → Nat
  | [], _ => 0
  | y :: ys, x => if y = x then 0 else firstIdx ys x + 1

/-- Substring test (models Python `in` on str and re.search of a literal
alternation). -/
def strContains (hay sub : String) : Bool :=
  (List.range (hay.length + 1)).any
    (fun k => (hay.data.drop k).take sub.length = sub.data)

/-! ### Column resolution -/

/-- Python dict insertion: later duplicate keys overwrite in place (the dict
comprehension of _resolve_column). -/
def dictUpsert (m : List (String × String)) (k v : String) : List (String × String) :=
  if m.any (fun p => p.1 = k) then m.map (fun p => if p.1 = k then (k, v) else p)
  else m ++ [(k, v)]

/-- The fuzzy tier of _resolve_column: difflib.get_close_matches with n=1,
cutoff=0.8 over lowercased candidates, mapped back through list.index. -/
def fuzzyResolve (t : Table) (name : String) : Option String :=
  let candidates := colNames t
  let loweredCandidates := candidates.map pyLower
  match getCloseMatches1 (pyLower name) loweredCandidates (4 / 5) with
  | some m => candidates.get? (firstIdx loweredCandidates m)
  | Option.none => Option.none

/-- Embeds _resolve_column (src/streamlit_app.py): exact match, then the
case-insensitive dict lookup guarded by Python truthiness (`if ci:`), then
the fuzzy tier. -/
def resolve_column (t : Table) (name : String) : Option String :=
  if name ∈ colNames t then some name
  else
    let lowered := (colNames t).foldl (fun m c => dictUpsert m (pyLower c) c) []
    match (lowered.find? (fun p => p.1 = (pyLower name))).map (fun p => p.2) with
    | some ci => if ci ≠ "" then some ci else fuzzyResolve t name
    | Option.none => fuzzyResolve t name

/-! ### Calendar helpers (timestamp model) -/

/-- Civil date from days since 1970-01-01 (standard era-based algorithm). -/
def civilFromDays (z0 : Int) : Int × Int × Int :=
  let z := z0 + 719468
  let era := Int.fdiv z 146097
  let doe := z - era * 146097
  let yoe := Int.fdiv (doe - Int.fdiv doe 1460 + Int.fdiv doe 36524 - Int.fdiv doe 146096) 365
  let y := yoe + era * 400
  let doy := doe - (365 * yoe + Int.fdiv yoe 4 - Int.fdiv yoe 100)
  let mp := Int.fdiv (5 * doy + 2) 153
  let d := doy - Int.fdiv (153 * mp + 2) 5 + 1
  let m := mp + (if mp < 10 then 3 else -9)
  (y + (if m ≤ 2 then 1 else 0), m, d)

/-- Days since 1970-01-01 from a civil date. -/
def daysFromCivil (y0 m d : Int) : Int :=
  let y := y0 - (if m ≤ 2 then 1 else 0)
  let era := Int.fdiv y 400
  let yoe := y - era * 400
  let doy := Int.fdiv (153 * (m + (if m > 2 then -3 else 9)) + 2) 5 + d - 1
  let doe := yoe * 365 + Int.fdiv yoe 4 - Int.fdiv yoe 100 + doy
  era * 146097 + doe - 719468

/-- Parses "YYYY-MM-DD" into days since epoch; anything else is
unparseable.  Models the date formats the uploaded tables use; pandas
accepts more spellings, none of which a claim exercises. -/
def parseDateText (s : String) : Option Int :=
  match splitDash (pyTrim s) with
  | [ys, ms, ds] =>
      if ys.data.all Char.isDigit ∧ ys.data.length = 4 ∧
         ms.data.all Char.isDigit ∧ (ms.data.length = 2 ∨ ms.data.length = 1) ∧
         ds.data.all Char.isDigit ∧ (ds.data.length = 2 ∨ ds.data.length = 1) ∧
         1 ≤ digitsToNat ms.data ∧ digitsToNat ms.data ≤ 12 ∧
         1 ≤ digitsToNat ds.data ∧ digitsToNat ds.data ≤ 31 then
        some (daysFromCivil (digitsToNat ys.data) (digitsToNat ms.data) (digitsToNat ds.data))
      else Option.none
  | _ => Option.none

/-- Fixed-width decimal rendering of a nonnegative integer. -/
def padNum (width : Nat) (n : Int) : String :=
  let raw := toString n.natAbs
  String.mk (List.replicate (width - raw.length) (Char.ofNat 48)) ++ raw

/-- str() of a day-granularity timestamp, pandas style. -/
def timeStr (d : Int) : String :=
  let (y, m, dd) := civilFromDays d
  toString y ++ "-" ++ padNum 2 m ++ "-" ++ padNum 2 dd ++ " 00:00:00"

/-- Python str() of a cell, the elementwise effect of series.astype(str);
NaN renders as "nan". -/
def pyStrCell : Cell → String
  | .na => "nan"
  | .int n => toString n
  | .float q => floatStr q
  | .str s => s
  | .bool b => if b then "True" else "False"
  | .time d => timeStr d

/-- Elementwise pd.to_datetime(x, errors="coerce"): date-like text parses,
numbers are epoch instants (nanoseconds, floored to the day of this model),
everything else becomes NaT. -/
def cellToDatetime : Cell → Cell
  | .na => .na
  | .time d => .time d
  | .str s =>
      match parseDateText s with
      | some d => .time d
      | Option.none => .na
  | .int n => .time (Int.fdiv n 86400000000000)
  | .float q => .time (Rat.floor (q / 86400000000000))
  | .bool _ => .na

/-! ### Type coercion (_smart_coerce_dataframe) -/

/-- Deletes every comma and dollar sign then every percent sign: the
str.replace(r"[,$]", "")/str.replace("%", "") chain of the source. -/
def cleanNumericText (s : String) : String :=
  let step1 := s.data.filter (fun c => ¬ (c = Char.ofNat 44 ∨ c = Char.ofNat 36))
  String.mk (step1.filter (fun c => c ≠ Char.ofNat 37))

/-- Elementwise pd.to_numeric(x, errors="coerce") on cleaned text: numeric
literals parse, everything else (including the "nan" spelling of missing
values) becomes NaN. -/
def toNumericText (s : String) : Option Rat := pyFloatParse s

/-- The cleaned text of a column's cells (astype(str) then the regex
replacements). -/
def cleanedOf (series : List Cell) : List String :=
  series.map (fun c => cleanNumericText (pyStrCell c))

/-- Fraction of cells that parse as numbers after cleaning
(coerced.notna().mean(), 0.0 for an empty column). -/
def nonNaRatioOf (series : List Cell) : Rat :=
  let coerced := (cleanedOf series).map toNumericText
  if coerced.length = 0 then 0
  else ((coerced.filter Option.isSome).length : Rat) / (coerced.length : Rat)

/-- The numeric column that replaces a text column above the threshold:
int64 when every cleaned value is an int literal, float64 (missing where the
parse failed) otherwise. -/
def numericReplacement (series : List Cell) : Dtype × List Cell :=
  let cleaned := cleanedOf series
  if cleaned.all (fun s => (pyIntParse s).isSome) then
    (.int64, cleaned.map (fun s => .int ((pyIntParse s).getD 0)))
  else
    (.float64, (cleaned.map toNumericText).map
      (fun o => match o with | some q => Cell.float q | Option.none => Cell.na))

/-- re.search(r"date|time|timestamp", name, re.I). -/
def dateNameMatch (name : String) : Bool :=
  strContains (pyLower name) "date" ∨ strContains (pyLower name) "time" ∨
  strContains (pyLower name) "timestamp"

/-- One iteration of the coercion loop, acting on column i of the working
frame.  Object columns are cleaned and numeric-parsed; above the 0.6
parse-success ratio the numeric column replaces the original and date
parsing is skipped (`continue`); below it, a column whose name
re.search-matches date|time|timestamp (case-insensitive) is parsed with
pd.to_datetime(series, errors="coerce"). -/
def coerceStep (working : Table) (i : Nat) : Table :=
  let dt := colDtype working i
  let name := (working.header.getD i ("", .obj)).1
  if dt = .obj then
    let series := colCells working i
    if nonNaRatioOf series > 3 / 5 then
      setCol working i (numericReplacement series).1 (numericReplacement series).2
    else
      if dateNameMatch name then
        setCol working i .datetime (series.map cellToDatetime)
      else working
  else working

/-- Embeds _smart_coerce_dataframe (src/streamlit_app.py): copy the frame,
then run the coercion loop over every column in order. -/
def smart_coerce_dataframe (t : Table) : Table :=
  (List.range t.header.length).foldl coerceStep t

/-! ### Series-level pandas models -/

/-- Python `x or d`. -/
def orDefault (v d : PyVal) : PyVal := if pyTruthy v then v else d

/-- The str-to-singleton-list wrapping of partition_by/by fields. -/
def wrapStr (v : PyVal) : PyVal :=
  match v with
  | .str s => .list [.str s]
  | _ => v

/-- Truthiness of an Optional[str] (the `if col:` / `if left_col:` checks on
a resolution result: None and "" are falsy). -/
def optTruthy : Option String → Bool
  | some c => c ≠ ""
  | Option.none => false

/-- str() of an Optional[str] as an f-string renders it. -/
def optStr : Option String → String
  | some c => c
  | Option.none => "None"

/-- Numeric view of a cell (Python bools are ints). -/
def cellNum? : Cell → Option Rat
  | .int n => some (n : Rat)
  | .float q => some q
  | .bool b => some (if b then 1 else 0)
  | _ => Option.none

/-- Numeric view of a plan scalar. -/
def pyNum? : PyVal → Option Rat
  | .int n => some (n : Rat)
  | .float q => some q
  | .bool b => some (if b then 1 else 0)
  | _ => Option.none

/-- Python string < (code-point lexicographic). -/
def strLtPy (x y : String) : Bool := strGtPy y x

/-- The six comparison operators of the filter branch. -/
def isCmpSix (optr : String) : Bool :=
  optr = "==" ∨ optr = "!=" ∨ optr = ">" ∨ optr = ">=" ∨ optr = "<" ∨ optr = "<="

/-- Comparison operators of the filter branch. -/
def isOrdOp (optr : String) : Bool :=
  optr = ">" ∨ optr = ">=" ∨ optr = "<" ∨ optr = "<="

/-- Rational comparison dispatch for the six operators. -/
def ratCmp (optr : String) (a b : Rat) : Bool :=
  if optr = "==" then a = b
  else if optr = "!=" then a ≠ b
  else if optr = ">" then a > b
  else if optr = ">=" then a ≥ b
  else if optr = "<" then a < b
  else decide (a ≤ b)

/-- String comparison dispatch for the six operators (Python str order). -/
def strCmp (optr : String) (a b : String) : Bool :=
  if optr = "==" then a = b
  else if optr = "!=" then a ≠ b
  else if optr = ">" then strGtPy a b
  else if optr = ">=" then a = b ∨ strGtPy a b
  else if optr = "<" then strLtPy a b
  else a = b ∨ strLtPy a b

/-- The right operand of a series comparison when it is a Python list
(pandas then compares positionally instead of broadcasting). -/
def listOperand : PyVal → Option (List PyVal)
  | .list xs => some xs
  | _ => Option.none

/-- Unhashable Python values (list, dict): Series.isin raises TypeError on
them. -/
def isUnhashable : PyVal → Bool
  | .list _ => true
  | .dict _ => true
  | _ => false

/-- The regex metacharacters of Python's re module:
. ^ $ * + ? braces brackets backslash pipe parens. -/
def regexMetaChars : List Char :=
  [Char.ofNat 46, Char.ofNat 94, Char.ofNat 36, Char.ofNat 42, Char.ofNat 43,
   Char.ofNat 63, Char.ofNat 123, Char.ofNat 125, Char.ofNat 91, Char.ofNat 93,
   Char.ofNat 92, Char.ofNat 124, Char.ofNat 40, Char.ofNat 41]

/-- A pattern with no regex metacharacter: re compiles it to the literal
substring test (and cannot raise re.error on it). -/
def regexMetaFree (s : String) : Bool :=
  s.data.all (fun c => ¬ regexMetaChars.contains c)

/-- One elementwise Python comparison between a cell and a scalar right
operand (the already _as_number-normalised value; a list right operand is
intercepted at the series level, where pandas compares positionally): bool
result or TypeError.  NaN compares False under every operator except !=;
equality across incompatible types is False (never an error); ordering
across incompatible types raises. -/
def cmpCellPy (optr : String) (x : Cell) (r : PyVal) : Except String Bool :=
  match x with
  | .na => .ok (optr = "!=")
  | .int _ | .float _ | .bool _ =>
      match pyNum? r with
      | some b => .ok (ratCmp optr ((cellNum? x).getD 0) b)
      | Option.none =>
          if isOrdOp optr then .error "TypeError" else .ok (optr = "!=")
  | .str s =>
      match r with
      | .str rs => .ok (strCmp optr s rs)
      | _ => if isOrdOp optr then .error "TypeError" else .ok (optr = "!=")
  | .time d =>
      match r with
      | .str rs =>
          match parseDateText rs with
          | some rd => .ok (ratCmp optr (d : Rat) (rd : Rat))
          | Option.none =>
              if isOrdOp optr then .error "TypeError" else .ok (optr = "!=")
      | _ => if isOrdOp optr then .error "TypeError" else .ok (optr = "!=")

/-- Whether the right operand orders against a datetime column. -/
def dateComparableR : PyVal → Bool
  | .str rs => (parseDateText rs).isSome
  | _ => false

/-- Column-level comparison, models getattr(series, "__gt__")(right) etc.
A list right operand is compared positionally, raising ValueError when the
lengths differ (pandas "Lengths must match to compare").  For scalars,
numeric and datetime dtypes reject an incomparable right operand at array
level (even for empty columns); object columns evaluate elementwise and
raise if any element comparison raises. -/
def seriesCompare (dt : Dtype) (cells : List Cell) (optr : String) (r : PyVal) :
    Except String (List Bool) :=
  match listOperand r with
  | some xs =>
      if xs.length = cells.length then
        (cells.zip xs).mapM (fun p => cmpCellPy optr p.1 p.2)
      else .error "ValueError"
  | Option.none =>
      if (dt = .int64 ∨ dt = .float64 ∨ dt = .boolean) ∧ isOrdOp optr ∧ (pyNum? r).isNone then
        .error "TypeError"
      else if dt = .datetime ∧ isOrdOp optr ∧ ¬ dateComparableR r then
        .error "TypeError"
      else
        cells.mapM (fun x => cmpCellPy optr x r)

/-- pandas Series.isin elementwise equality: numeric values match across
int/float/bool, NaN matches a None entry, everything else by exact value. -/
def cellEqPy (x : Cell) (v : PyVal) : Bool :=
  match x, v with
  | .na, .none => true
  | .str s, .str vs => s = vs
  | .time d, .str vs => (parseDateText vs).any (fun rd => rd = d)
  | _, _ =>
      match cellNum? x, pyNum? v with
      | some a, some b => a = b
      | _, _ => false

/-- Case-respecting substring test of series.astype(str).str.contains
(case=not ci, na=False) on a metacharacter-free pattern, where regex=True
compilation is the literal substring test (condExprMask guards this with
regexMetaFree before calling here). -/
def containsCase (hay needle : String) (ci : Bool) : Bool :=
  if ci then strContains (pyLower hay) (pyLower needle) else strContains hay needle

/-- Kind tag used to decide whether a column is uniformly comparable. -/
def cellKind : Cell → Nat
  | .na => 0
  | .int _ => 1
  | .float _ => 1
  | .bool _ => 1
  | .str _ => 2
  | .time _ => 3

/-- Non-missing cells. -/
def nonNa (cells : List Cell) : List Cell := cells.filter (fun c => c ≠ .na)

/-- A column sorts/ranks without error when its non-missing cells share one
kind (numbers, strings, or timestamps); mixed kinds raise TypeError in
pandas. -/
def uniformKind (cells : List Cell) : Bool :=
  match (nonNa cells).map cellKind with
  | [] => true
  | k :: ks => ks.all (fun x => x = k)

/-- Strict order on same-kind cells (numbers numerically, strings by code
points, timestamps by instant). -/
def cellLt (x y : Cell) : Bool :=
  match x, y with
  | .str a, .str b => strLtPy a b
  | .time a, .time b => a < b
  | _, _ =>
      match cellNum? x, cellNum? y with
      | some a, some b => a < b
      | _, _ => false

/-- Stable insertion into a sorted list: the inserted element precedes any
element it does not strictly follow (keeps original order on ties). -/
def insertStable (lt : α → α → Bool) (x : α) : List α → List α
  | [] => [x]
  | y :: ys => if lt y x then y :: insertStable lt x ys else x :: y :: ys

/-- Stable sort (the element order pandas' stable kinds produce). -/
def stableSort (lt : α → α → Bool) : List α → List α
  | [] => []
  | x :: xs => insertStable lt x (stableSort lt xs)

/-! ### Table access helpers -/

/-- Index of a named column (callers only pass resolved names). -/
def colIdxOf (t : Table) (c : String) : Nat := firstIdx (colNames t) c

/-- Cells of a named column. -/
def colByName (t : Table) (c : String) : List Cell := colCells t (colIdxOf t c)

/-- Dtype of a named column. -/
def dtypeByName (t : Table) (c : String) : Dtype := colDtype t (colIdxOf t c)

/-- pd.api.types.is_numeric_dtype. -/
def isNumericDtype : Dtype → Bool
  | .int64 => true
  | .float64 => true
  | .boolean => true
  | _ => false

/-- df[mask]: keep the rows whose mask entry is True. -/
def filterRows (t : Table) (mask : List Bool) : Table :=
  { header := t.header,
    rows := ((t.rows.zip mask).filter (fun p => p.2)).map (fun p => p.1) }

/-- df.head(n) (negative n drops the last |n| rows). -/
def pyHead (n : Int) (rows : List α) : List α :=
  if 0 ≤ n then rows.take n.toNat else rows.take (rows.length - n.natAbs)

/-- Table-level head. -/
def headTable (t : Table) (n : Int) : Table :=
  { header := t.header, rows := pyHead n t.rows }

/-- df.loc[:, names] for resolved names (column labels are unique in the
tables this engine receives). -/
def selectCols (t : Table) (names : List String) : Table :=
  { header := names.map (fun n => t.header.getD (colIdxOf t n) (n, .obj)),
    rows := t.rows.map (fun r => names.map (fun n => r.getD (colIdxOf t n) .na)) }

/-- working[name] = series: overwrite an existing column or append a new
one. -/
def setColByName (t : Table) (name : String) (dt : Dtype) (cells : List Cell) : Table :=
  if (colNames t).contains name then setCol t (colIdxOf t name) dt cells
  else
    { header := t.header ++ [(name, dt)],
      rows := (t.rows.zip cells).map (fun p => p.1 ++ [p.2]) }

/-! ### filter branch -/

/-- The per-condition mask of the filter branch: Except is a raised Python
exception (propagating: the branch's try wraps only the six-comparison
call), `none` inside is the `else: continue` arm for an unrecognised
operator.  Comparison operators try the native pandas comparison and fall
back to (case-insensitive) string equality when it raises, negating for
!=.  str.contains compiles its pattern with regex=True and is unguarded: a
metacharacter-free pattern is the literal substring test; a pattern with
metacharacters leaves this model's literal scope (re may raise re.error or
match by regex semantics) and is modelled as raising, which the claims
never exercise.  Series.isin is unguarded and raises TypeError on an
unhashable (list or dict) member. -/
def condExprMask (dt : Dtype) (series : List Cell) (optr : String)
    (val : PyVal) (valuesV : PyVal) (ci : Bool) : Except String (Option (List Bool)) :=
  if isCmpSix optr then
    let right := as_number val
    match seriesCompare dt series optr right with
    | .ok m => .ok (some m)
    | .error _ =>
        let m0 :=
          if ci then series.map (fun x => (pyLower (pyStrCell x)) == (pyLower (pyStr val)))
          else series.map (fun x => pyStrCell x == pyStr val)
        .ok (some (if optr = "!=" then m0.map (fun b => !b) else m0))
  else if optr = "contains" then
    if regexMetaFree (pyStr val) then
      .ok (some (series.map (fun x => containsCase (pyStrCell x) (pyStr val) ci)))
    else .error "re.error"
  else if optr = "in" ∨ optr = "not_in" then
    let vals := (match valuesV with | .list xs => xs | _ => [val]).map as_number
    if vals.any isUnhashable then .error "TypeError"
    else
      let m := series.map (fun x => vals.any (cellEqPy x))
      .ok (some (if optr = "not_in" then m.map (fun b => !b) else m))
  else if optr = "between" then
    let arr := match valuesV with | .list xs => xs | _ => [.none, .none]
    match arr.get? 0, arr.get? 1 with
    | some a0, some a1 =>
        let left := as_number a0
        let right := as_number a1
        match seriesCompare dt series ">=" left with
        | .error e => .error e
        | .ok ge =>
            match seriesCompare dt series "<=" right with
            | .error e => .error e
            | .ok le => .ok (some (List.zipWith (fun a b => a && b) ge le))
    | _, _ => .error "IndexError"
  else
    .ok Option.none

/-- One conditions-loop iteration of the filter branch: resolve the
condition's column, build its mask, AND it in; unresolvable columns and
unrecognised operators leave the mask alone (continue). -/
def filterCondFold (working : Table) (mask : List Bool) (cond : PyVal) :
    Except String (List Bool) := do
  let colRaw ← pyGet cond "column"
  let optrV ← pyGetD cond "operator" (.str "==")
  let optr := (pyLower (pyStr optrV))
  let val ← pyGet cond "value"
  let valuesV ← pyGet cond "values"
  let ciV ← pyGetD cond "case_insensitive" (.bool true)
  let ci := pyTruthy ciV
  let col := resolve_column working (pyStr colRaw)
  if ¬ (optTruthy col ∧ (colNames working).contains (col.getD "")) then
    pure mask
  else
    let c := col.getD ""
    let series := colByName working c
    let dt := dtypeByName working c
    match ← condExprMask dt series optr val valuesV ci with
    | some m => pure (List.zipWith (fun a b => a && b) mask m)
    | Option.none => pure mask

/-- Embeds the filter branch of _execute_analysis_plan: AND of per-condition
masks, then df[mask] and one log line.  The masks carry no missing values
(NaN comparisons are already False), so .fillna(False) is the identity
here. -/
def applyFilter (working : Table) (step : PyVal) : Except String (Table × List String) := do
  let conditionsV ← pyGet step "conditions"
  let conds ← pyIter (orDefault conditionsV (.list []))
  let mask0 : List Bool := working.rows.map (fun _ => true)
  let mask ← conds.foldlM (filterCondFold working) mask0
  let filtered := filterRows working mask
  pure (filtered, ["filter rows -> " ++ toString filtered.rows.length ++ " rows"])

/-! ### select branch -/

/-- Embeds the select branch: project to the resolvable columns, in order,
logging only when at least one column resolved. -/
def applySelect (working : Table) (step : PyVal) : Except String (Table × List String) := do
  let colsV ← pyGet step "columns"
  let colsList ← pyIter (orDefault colsV (.list []))
  let columns := colsList.filter (fun c => optTruthy (resolve_column working (pyStr c)))
  let resolved := (columns.map (fun c => resolve_column working (pyStr c))).filterMap id
  if ¬ resolved.isEmpty then
    pure (selectCols working resolved,
      ["select columns -> " ++ pyRepr (.list (resolved.map PyVal.str))])
  else
    pure (working, [])

/-! ### compute branch -/

/-- Elementwise Python/pandas arithmetic on cells: NaN propagates, numbers
combine numerically (int results stay ints except for division), strings
concatenate under add; anything else raises.  Division by zero is modelled
as missing (pandas produces an infinity no other operation here consumes);
string repetition is modelled as a failure (no plan multiplies strings). -/
def cellArith (operation : String) (x y : Cell) : Except String Cell :=
  match x, y with
  | .na, _ => .ok .na
  | _, .na => .ok .na
  | .str a, .str b => if operation = "add" then .ok (.str (a ++ b)) else .error "TypeError"
  | _, _ =>
      match cellNum? x, cellNum? y with
      | some a, some b =>
          let intish := fun (c : Cell) => match c with | .int _ => true | .bool _ => true | _ => false
          if operation = "divide" then
            if b = 0 then .ok .na else .ok (.float (a / b))
          else
            let r := if operation = "add" then a + b
                     else if operation = "subtract" then a - b
                     else a * b
          if intish x && intish y then .ok (.int r.num) else .ok (.float r)
      | _, _ => .error "TypeError"

/-- A compute operand: a column of the working frame or a scalar from the
plan. -/
inductive Operand where
  | series (dt : Dtype) (cells : List Cell)
  | scalar (v : PyVal)

/-- Scalar plan value as a broadcast cell; None and containers raise. -/
def scalarToCell : PyVal → Except String Cell
  | .int n => .ok (.int n)
  | .float q => .ok (.float q)
  | .bool b => .ok (.bool b)
  | .str s => .ok (.str s)
  | _ => .error "TypeError"

/-- Result dtype of an arithmetic column. -/
def arithDtype (cells : List Cell) : Dtype :=
  if cells.all (fun c => match c with | .int _ => true | _ => false) then .int64
  else if cells.all (fun c => match c with | .int _ => true | .float _ => true | .na => true | _ => false) then .float64
  else .obj

/-- left op right over operands, broadcasting scalars over nRows rows
(scalar-scalar arithmetic happens in Python first and then broadcasts;
Python divides by zero with ZeroDivisionError, unlike pandas). -/
def operandArith (operation : String) (l r : Operand) (nRows : Nat) :
    Except String (Dtype × List Cell) := do
  match l, r with
  | .series _ a, .series _ b =>
      let cells ← (a.zip b).mapM (fun p => cellArith operation p.1 p.2)
      pure (arithDtype cells, cells)
  | .series _ a, .scalar v =>
      let c ← scalarToCell v
      let cells ← a.mapM (fun x => cellArith operation x c)
      pure (arithDtype cells, cells)
  | .scalar v, .series _ b =>
      let c ← scalarToCell v
      let cells ← b.mapM (fun y => cellArith operation c y)
      pure (arithDtype cells, cells)
  | .scalar v, .scalar w =>
      let c ← scalarToCell v
      let d ← scalarToCell w
      if operation = "divide" ∧ cellNum? d = some 0 then .error "ZeroDivisionError"
      else
        let cell ← cellArith operation c d
        pure (arithDtype [cell], List.replicate nRows cell)

/-- Embeds the compute branch: resolve each operand to a column (falling
back to _as_number of the literal value), apply the binary operation inside
the try block, and log; an unrecognised operation assigns nothing but still
logs; a raised arithmetic error is swallowed without logging. -/
def applyCompute (working : Table) (step : PyVal) : Except String (Table × List String) := do
  let ncV ← pyGet step "new_column"
  let new_col := pyStr (orDefault ncV (.str "new"))
  let opV ← pyGet step "operation"
  let operation := (pyLower (pyStr (orDefault opV (.str "add"))))
  let lsV ← pyGet step "left"
  let left_spec := orDefault lsV (.dict [])
  let rsV ← pyGet step "right"
  let right_spec := orDefault rsV (.dict [])
  let lcV ← pyGet left_spec "column"
  let left_col := if pyTruthy lcV then resolve_column working (pyStr lcV) else Option.none
  let rcV ← pyGet right_spec "column"
  let right_col := if pyTruthy rcV then resolve_column working (pyStr rcV) else Option.none
  let lvV ← pyGet left_spec "value"
  let rvV ← pyGet right_spec "value"
  let left_val : Operand :=
    if optTruthy left_col then
      .series (dtypeByName working (left_col.getD "")) (colByName working (left_col.getD ""))
    else .scalar (as_number lvV)
  let right_val : Operand :=
    if optTruthy right_col then
      .series (dtypeByName working (right_col.getD "")) (colByName working (right_col.getD ""))
    else .scalar (as_number rvV)
  let body : Except String Table :=
    if operation = "add" ∨ operation = "subtract" ∨ operation = "multiply" ∨
       operation = "divide" then
      match operandArith operation left_val right_val working.rows.length with
      | .ok (dt, cells) => .ok (setColByName working new_col dt cells)
      | .error e => .error e
    else .ok working
  match body with
  | .ok w2 => pure (w2, ["compute " ++ new_col ++ " = " ++ operation ++ "(...)"])
  | .error _ => pure (working, [])

/-! ### groupby_agg branch -/

/-- agg_map.setdefault(col, []).append(func). -/
def appendAgg (m : List (String × List String)) (c f : String) :
    List (String × List String) :=
  if m.any (fun p => p.1 = c) then
    m.map (fun p => if p.1 = c then (p.1, p.2 ++ [f]) else p)
  else m ++ [(c, [f])]

/-- "_".join(parts).strip("_") used to flatten compound column labels. -/
def stripUnderscores (s : String) : String :=
  let us := Char.ofNat 95
  String.mk (((s.data.dropWhile (fun c => c = us)).reverse.dropWhile (fun c => c = us)).reverse)

/-- One aggregation function over a group's cells; mean and median demand
numbers, min/max a uniformly comparable column, sum concatenates uniform
strings; violations raise (and propagate: the groupby call is outside any
try in the source). -/
def aggFun (f : String) (cells : List Cell) : Except String Cell :=
  let nn := nonNa cells
  if f = "count" then .ok (.int nn.length)
  else if f = "sum" then
    if nn.all (fun c => (cellNum? c).isSome) then
      if nn.all (fun c => match c with | .int _ => true | .bool _ => true | _ => false) then
        .ok (.int ((nn.filterMap (fun c => (cellNum? c).map Rat.num)).foldl (fun a b => a + b) 0))
      else .ok (.float ((nn.filterMap cellNum?).foldl (fun a b => a + b) 0))
    else if nn.all (fun c => match c with | .str _ => true | _ => false) then
      .ok (.str ((nn.filterMap (fun c => match c with | .str s => some s | _ => Option.none)).foldl (fun a b => a ++ b) ""))
    else .error "TypeError"
  else if f = "mean" then
    if nn.all (fun c => (cellNum? c).isSome) then
      if nn.length = 0 then .ok .na
      else .ok (.float (((nn.filterMap cellNum?).foldl (fun a b => a + b) 0) / (nn.length : Rat)))
    else .error "TypeError"
  else if f = "min" ∨ f = "max" then
    if uniformKind cells then
      match nn with
      | [] => .ok .na
      | x :: xs => .ok (xs.foldl (fun acc c =>
          if (if f = "min" then cellLt c acc else cellLt acc c) then c else acc) x)
    else .error "TypeError"
  else
    -- median
    if nn.all (fun c => (cellNum? c).isSome) then
      match nn with
      | [] => .ok .na
      | _ =>
        let qs := stableSort (fun a b => a < b) (nn.filterMap cellNum?)
        let len := qs.length
        if len % 2 = 1 then .ok (.float (qs.getD (len / 2) 0))
        else .ok (.float ((qs.getD (len / 2 - 1) 0 + qs.getD (len / 2) 0) / 2))
    else .error "TypeError"

/-- Output dtype of an aggregate column. -/
def aggDtype (f : String) (dt : Dtype) : Dtype :=
  if f = "count" then .int64
  else if f = "mean" ∨ f = "median" then .float64
  else if f = "sum" then (if dt = .int64 ∨ dt = .boolean then .int64 else if dt = .float64 then .float64 else .obj)
  else dt

/-- First occurrences, in encounter order. -/
def dedupKeys : List (List Cell) → List (List Cell)
  | [] => []
  | k :: ks => k :: (dedupKeys ks).filter (fun x => x ≠ k)

/-- Group-key order: non-missing before missing, then the cell order. -/
def keyCellLt (x y : Cell) : Bool :=
  match x, y with
  | .na, _ => false
  | _, .na => true
  | _, _ => cellLt x y

/-- Lexicographic order on key tuples. -/
def keyTupleLt : List Cell → List Cell → Bool
  | [], _ => false
  | _, [] => false
  | x :: xs, y :: ys =>
      if keyCellLt x y then true
      else if keyCellLt y x then false
      else keyTupleLt xs ys

/-- Models working.groupby(by, dropna=False).agg(agg_map) followed by the
column flattening and reset_index of the source: group keys sort ascending
(missing last) when uniformly comparable and keep encounter order otherwise
(pandas safe_sort); aggregation errors propagate.  Result columns are the
key columns then one flattened column per (column, function) pair. -/
def groupbyAgg (t : Table) (keys : List String) (aggMap : List (String × List String)) :
    Except String Table := do
  let keyIdx := keys.map (colIdxOf t)
  let keyOf := fun (r : List Cell) => keyIdx.map (fun i => r.getD i .na)
  let groupKeys := dedupKeys (t.rows.map keyOf)
  let sortable := (List.range keys.length).all
    (fun j => uniformKind (groupKeys.map (fun k => k.getD j .na)))
  let orderedKeys := if sortable then stableSort keyTupleLt groupKeys else groupKeys
  let aggCols := aggMap.flatMap (fun p => p.2.map (fun f => (p.1, f)))
  let outRows ← orderedKeys.mapM (fun gk => do
    let grpRows := t.rows.filter (fun r => keyOf r = gk)
    let aggVals ← aggCols.mapM (fun p =>
      aggFun p.2 (grpRows.map (fun r => r.getD (colIdxOf t p.1) .na)))
    pure (gk ++ aggVals))
  pure { header :=
           keys.map (fun k => t.header.getD (colIdxOf t k) (k, .obj)) ++
           aggCols.map (fun p =>
             (stripUnderscores (p.1 ++ "_" ++ p.2), aggDtype p.2 (dtypeByName t p.1))),
         rows := outRows }

/-- Python dict repr of the agg_map (f-string in the groupby log line). -/
def reprAggMap (m : List (String × List String)) : String :=
  lbrace ++ String.intercalate ", "
    (m.map (fun p => sq ++ p.1 ++ sq ++ ": " ++ pyRepr (.list (p.2.map PyVal.str)))) ++ rbrace

/-- One aggregations-loop iteration of the groupby branch: a resolvable
column paired with a recognised function joins the agg map. -/
def aggConfFold (working : Table) (m : List (String × List String)) (a : PyVal) :
    Except String (List (String × List String)) := do
  let colV ← pyGet a "column"
  let col := resolve_column working (pyStr colV)
  let aggV ← pyGetD a "agg" (.str "sum")
  let func := (pyLower (pyStr aggV))
  if optTruthy col ∧ (func = "sum" ∨ func = "mean" ∨ func = "count" ∨
     func = "min" ∨ func = "max" ∨ func = "median") then
    pure (appendAgg m (col.getD "") func)
  else pure m

/-- Embeds the groupby_agg branch: resolve keys and aggregation targets,
and when both are nonempty run the (unguarded) aggregation and log. -/
def applyGroupby (working : Table) (step : PyVal) : Except String (Table × List String) := do
  let byV ← pyGet step "by"
  let byList ← pyIter (orDefault byV (.list []))
  let byKept := byList.filter (fun c => optTruthy (resolve_column working (pyStr c)))
  let by_resolved := (byKept.map (fun c => resolve_column working (pyStr c))).filterMap id
  let aggsV ← pyGet step "aggregations"
  let aggs ← pyIter (orDefault aggsV (.list []))
  let agg_map ← aggs.foldlM (aggConfFold working) []
  if ¬ by_resolved.isEmpty ∧ ¬ agg_map.isEmpty then
    let grouped ← groupbyAgg working by_resolved agg_map
    pure (grouped, ["groupby " ++ pyRepr (.list (by_resolved.map PyVal.str)) ++
      " agg " ++ reprAggMap agg_map])
  else pure (working, [])

/-! ### sort branch -/

/-- The ascending argument of sort_values: a bool (or int) applies to every
key, a list must match the key count; anything else raises ValueError. -/
def ascendingList (keys : List String) (ascending : PyVal) : Except String (List Bool) :=
  match ascending with
  | .bool b => .ok (keys.map (fun _ => b))
  | .int n => .ok (keys.map (fun _ => n ≠ 0))
  | .list xs =>
      if xs.length = keys.length then
        xs.mapM (fun x => match x with
          | .bool b => .ok b
          | .int n => .ok (decide (n ≠ 0))
          | _ => .error "ValueError")
      else .error "ValueError"
  | _ => .error "ValueError"

/-- Row order for sort_values: lexicographic over the keys, missing values
last in every key regardless of direction (na_position="last"). -/
def rowLtSort (t : Table) (keyIdx : List (Nat × Bool)) (r1 r2 : List Cell) : Bool :=
  match keyIdx with
  | [] => false
  | (i, asc) :: rest =>
      let a := r1.getD i .na
      let b := r2.getD i .na
      if a = .na ∧ b = .na then rowLtSort t rest r1 r2
      else if a = .na then false
      else if b = .na then true
      else if (if asc then cellLt a b else cellLt b a) then true
      else if (if asc then cellLt b a else cellLt a b) then false
      else rowLtSort t rest r1 r2

/-- Models working.sort_values(by=keys, ascending=...): raises for missing
keys, a malformed ascending argument, or a key column of mixed kinds;
otherwise a stable sort (pandas' stable kinds; the default quicksort may
permute ties, which no claim relies on). -/
def sortValues (t : Table) (keys : List String) (ascending : PyVal) : Except String Table := do
  if ¬ keys.all (fun k => (colNames t).contains k) then .error "KeyError"
  else do
    let ascs ← ascendingList keys ascending
    if ¬ keys.all (fun k => uniformKind (colByName t k)) then .error "TypeError"
    else
      let keyIdx := (keys.map (colIdxOf t)).zip ascs
      pure { header := t.header, rows := stableSort (rowLtSort t keyIdx) t.rows }

/-- Embeds the sort branch: resolvable keys (all columns when none
resolve), guarded by the try/except that swallows sort failures. -/
def applySort (working : Table) (step : PyVal) : Except String (Table × List String) := do
  let byV ← pyGet step "by"
  let byList ← pyIter (orDefault byV (.list []))
  let byKept := byList.filter (fun c => optTruthy (resolve_column working (pyStr c)))
  let by_resolved := (byKept.map (fun c => resolve_column working (pyStr c))).filterMap id
  let ascending ← pyGetD step "ascending" (.bool false)
  let keys := if by_resolved.isEmpty then colNames working else by_resolved
  match sortValues working keys ascending with
  | .ok sorted =>
      pure (sorted, ["sort by " ++ pyRepr (.list (keys.map PyVal.str)) ++
        " asc=" ++ pyStr ascending])
  | .error _ => pure (working, [])

/-! ### topk branch -/

/-- Models df.nlargest(k, by) for a numeric column: rows ordered by the key
descending (stable, keep="first"), missing keys dropped, first k kept. -/
def nlargestRows (t : Table) (k : Int) (c : String) : Table :=
  let i := colIdxOf t c
  let valid := t.rows.filter (fun r => r.getD i .na ≠ .na)
  let sorted := stableSort (fun r1 r2 => cellLt (r2.getD i .na) (r1.getD i .na)) valid
  { header := t.header, rows := sorted.take k.toNat }

/-- Embeds the topk branch: int(k) is unguarded; inside the try, a numeric
resolved key selects nlargest, anything else head(k).  The except arm
(head(k) with a fallback log line) is unreachable in this model because
nlargest and head are total here. -/
def applyTopk (working : Table) (step : PyVal) : Except String (Table × List String) := do
  let kV ← pyGetD step "k" (.int 5)
  let k ← pyInt kV
  let byV ← pyGet step "by"
  let byOpt := if pyTruthy byV then resolve_column working (pyStr byV) else Option.none
  let w2 :=
    if optTruthy byOpt ∧ isNumericDtype (dtypeByName working (byOpt.getD "")) then
      nlargestRows working k (byOpt.getD "")
    else headTable working k
  pure (w2, ["topk " ++ toString k ++ " by " ++
    (if optTruthy byOpt then byOpt.getD "" else "head")])

/-! ### rename branch -/

/-- Models dict.items(): AttributeError on a non-dict receiver (the
unguarded mapping.items() of the rename branch). -/
def pyItems : PyVal → Except String (List (String × PyVal))
  | .dict kvs => .ok kvs
  | _ => .error "AttributeError"

/-- Python dict insert with overwrite for Option keys. -/
def dictUpsertO (m : List (Option String × String)) (k : Option String) (v : String) :
    List (Option String × String) :=
  if m.any (fun p => p.1 = k) then m.map (fun p => if p.1 = k then (k, v) else p)
  else m ++ [(k, v)]

/-- Embeds the rename branch: build safe_map (existing name, else resolved
name, dropping falsy keys), and rename when nonempty. -/
def applyRename (working : Table) (step : PyVal) : Except String (Table × List String) := do
  let mapV ← pyGet step "mapping"
  let mapping := orDefault mapV (.dict [])
  let items ← pyItems mapping
  let raw := items.foldl
    (fun (m : List (Option String × String)) p =>
      let key := if (colNames working).contains p.1 then some p.1
                 else resolve_column working p.1
      dictUpsertO m key (pyStr p.2))
    []
  let safe_map := raw.filter (fun p => optTruthy p.1)
  if ¬ safe_map.isEmpty then
    let renamed : Table :=
      { header := working.header.map (fun h =>
          match safe_map.find? (fun p => p.1 = some h.1) with
          | some p => (p.2, h.2)
          | Option.none => h),
        rows := working.rows }
    pure (renamed, ["rename columns " ++ lbrace ++ String.intercalate ", "
      (safe_map.map (fun p => sq ++ optStr p.1 ++ sq ++ ": " ++ sq ++ p.2 ++ sq)) ++ rbrace])
  else pure (working, [])

/-! ### pivot branch -/

/-- Models pd.pivot_table for the shape the plans use (single string index,
columns and values fields, an aggfunc from the supported set); any other
shape, a missing column name, or an aggregation failure raises, which the
branch's try/except swallows.  The column-key values spread into columns in
sorted order when comparable (encounter order otherwise); missing cells take
fill_value (missing when None). -/
def pivotModel (t : Table) (indexV columnsV valuesV aggfuncV fillV : PyVal) :
    Except String Table := do
  let idxName ← match indexV with | .str s => Except.ok s | _ => Except.error "ValueError"
  let colName ← match columnsV with | .str s => Except.ok s | _ => Except.error "ValueError"
  let valName ← match valuesV with | .str s => Except.ok s | _ => Except.error "ValueError"
  let aggf := pyStr aggfuncV
  if ¬ (aggf = "sum" ∨ aggf = "mean" ∨ aggf = "count" ∨ aggf = "min" ∨
        aggf = "max" ∨ aggf = "median") then .error "ValueError"
  else if ¬ ((colNames t).contains idxName ∧ (colNames t).contains colName ∧
             (colNames t).contains valName) then .error "KeyError"
  else do
    let ii := colIdxOf t idxName
    let ci := colIdxOf t colName
    let vi := colIdxOf t valName
    let idxKeys := dedupKeys (t.rows.map (fun r => [r.getD ii .na]))
    let colKeysRaw := dedupKeys (t.rows.map (fun r => [r.getD ci .na]))
    let colKeys := if uniformKind (colKeysRaw.map (fun k => k.getD 0 .na))
      then stableSort keyTupleLt colKeysRaw else colKeysRaw
    let fill : Cell := match scalarToCell fillV with | .ok c => c | .error _ => .na
    let outRows ← idxKeys.mapM (fun ik => do
      let vals ← colKeys.mapM (fun ck => do
        let cellsHere := (t.rows.filter
          (fun r => [r.getD ii .na] = ik ∧ [r.getD ci .na] = ck)).map (fun r => r.getD vi .na)
        if cellsHere.isEmpty then pure fill
        else aggFun aggf cellsHere)
      pure (ik ++ vals))
    pure { header := [(idxName, dtypeByName t idxName)] ++
             colKeys.map (fun ck => (pyStrCell (ck.getD 0 .na), aggDtype aggf (dtypeByName t valName))),
           rows := outRows }

/-- Embeds the pivot branch: the whole pivot_table call sits in a try, the
column flattening applies to MultiIndex outputs (single-value pivots come
back with plain columns in this model), and only success logs. -/
def applyPivot (working : Table) (step : PyVal) : Except String (Table × List String) := do
  let indexV ← pyGet step "index"
  let valuesV ← pyGet step "values"
  let columnsV ← pyGet step "columns"
  let aggfuncV ← pyGetD step "aggfunc" (.str "sum")
  let fillV ← pyGet step "fill_value"
  match pivotModel working indexV columnsV valuesV aggfuncV fillV with
  | .ok pivoted => pure (pivoted, ["pivot table"])
  | .error _ => pure (working, [])

/-! ### limit branch -/

/-- Embeds the limit branch: int(n) is unguarded (a malformed n raises out
of the executor); head never fails. -/
def applyLimit (working : Table) (step : PyVal) : Except String (Table × List String) := do
  let nV ← pyGetD step "n" (.int 10)
  let n ← pyInt nV
  pure (headTable working n, ["limit " ++ toString n])

/-! ### dropna branch -/

/-- Models df.dropna(subset=..., how=...): subset must name existing
columns (a str is a single name, None means all), how must be "any" or
"all"; failures raise into the branch's try/except. -/
def dropnaModel (t : Table) (subsetV howV : PyVal) : Except String Table := do
  let names ← match subsetV with
    | .none => Except.ok (colNames t)
    | .str s => Except.ok [s]
    | .list xs => Except.ok (xs.map pyStr)
    | _ => Except.error "TypeError"
  if ¬ names.all (fun nm => (colNames t).contains nm) then .error "KeyError"
  else do
    let how ← match howV with
      | .str s => if s = "any" ∨ s = "all" then Except.ok s else Except.error "ValueError"
      | _ => Except.error "ValueError"
    let idxs := names.map (colIdxOf t)
    let keep := fun (r : List Cell) =>
      if how = "any" then idxs.all (fun i => r.getD i .na ≠ .na)
      else idxs.any (fun i => r.getD i .na ≠ .na)
    pure { header := t.header, rows := t.rows.filter keep }

/-- Embeds the dropna branch (guarded; only success logs). -/
def applyDropna (working : Table) (step : PyVal) : Except String (Table × List String) := do
  let subsetV ← pyGet step "subset"
  let howV ← pyGetD step "how" (.str "any")
  match dropnaModel working subsetV howV with
  | .ok w2 => pure (w2, ["dropna subset=" ++ pyStr subsetV ++ " how=" ++ pyStr howV])
  | .error _ => pure (working, [])

/-! ### fillna branch -/

/-- Models df.fillna: a dict fills per named column (unknown names
ignored), a scalar fills everywhere; None raises ValueError ("must specify
a fill method or value"), containers raise TypeError.  Dtype upcasting of
a filled column is not modelled (no claim reads a filled column's dtype). -/
def fillnaModel (t : Table) (value : PyVal) : Except String Table := do
  match value with
  | .none => .error "ValueError"
  | .dict kvs => do
      let pairs ← kvs.mapM (fun p => do
        let c ← scalarToCell p.2
        pure (p.1, c))
      pure { header := t.header,
             rows := t.rows.map (fun r =>
               (colNames t).enum.foldl (fun r2 p =>
                 match pairs.find? (fun q => q.1 = p.2) with
                 | some q => if r2.getD p.1 .na = .na then r2.set p.1 q.2 else r2
                 | Option.none => r2) r) }
  | _ => do
      let c ← scalarToCell value
      pure { header := t.header,
             rows := t.rows.map (fun r => r.map (fun x => if x = .na then c else x)) }

/-- Embeds the fillna branch (both arms of the source's isinstance(value,
dict) conditional call df.fillna(value); guarded, only success logs). -/
def applyFillna (working : Table) (step : PyVal) : Except String (Table × List String) := do
  let value ← pyGet step "value"
  match fillnaModel working value with
  | .ok w2 => pure (w2, ["fillna applied"])
  | .error _ => pure (working, [])

/-! ### cast branch -/

/-- Embeds _parse_dtype (src/streamlit_app.py): canonical dtype strings or
None. -/
def parse_dtype (name : PyVal) : Option String :=
  let t := (pyLower (pyStr name))
  if t = "int" ∨ t = "int64" ∨ t = "integer" then some "int64"
  else if t = "float" ∨ t = "float64" ∨ t = "double" then some "float64"
  else if t = "str" ∨ t = "string" ∨ t = "text" then some "string"
  else if t = "bool" ∨ t = "boolean" then some "boolean"
  else if t = "datetime" ∨ t = "timestamp" ∨ t = "date" then some "datetime64[ns]"
  else Option.none

/-- One cell under astype(target); failure of any cell fails the column
(errors="ignore" then keeps the original column). -/
def castCell (target : String) (x : Cell) : Option Cell :=
  if target = "int64" then
    match x with
    | .int n => some (.int n)
    | .bool b => some (.int (if b then 1 else 0))
    | .float q => some (.int (Int.tdiv q.num q.den))
    | .str s => (pyIntParse s).map (fun n => Cell.int n)
    | _ => Option.none
  else if target = "float64" then
    match x with
    | .na => some .na
    | .int n => some (.float n)
    | .bool b => some (.float (if b then 1 else 0))
    | .float q => some (.float q)
    | .str s => (pyFloatParse s).map (fun q => Cell.float q)
    | _ => Option.none
  else if target = "string" then
    match x with
    | .na => some .na
    | _ => some (.str (pyStrCell x))
  else
    -- boolean
    match x with
    | .na => some .na
    | .bool b => some (.bool b)
    | .int n => some (.bool (n ≠ 0))
    | .float q => some (.bool (q ≠ 0))
    | _ => Option.none

/-- astype(target, errors="ignore") on a column: all cells convert or the
column is returned unchanged. -/
def astypeIgnore (target : String) (dt : Dtype) (cells : List Cell) : Dtype × List Cell :=
  match cells.mapM (castCell target) with
  | some out =>
      (if target = "int64" then .int64 else if target = "float64" then .float64
       else if target = "string" then .obj else .boolean, out)
  | Option.none => (dt, cells)

/-- Embeds the cast branch: the whole loop and log sit in one try; each
resolvable column is converted via _parse_dtype (datetime through
pd.to_datetime(errors="coerce"), the rest through astype(errors="ignore")),
and the log fires even when nothing converted.  A non-dict truthy types
field raises inside the try and is swallowed (no log). -/
def applyCast (working : Table) (step : PyVal) : Except String (Table × List String) := do
  let typesV ← pyGet step "types"
  let types := orDefault typesV (.dict [])
  match types with
  | .dict kvs =>
      let w2 := kvs.foldl
        (fun (w : Table) p =>
          match resolve_column w p.1 with
          | Option.none => w
          | some col =>
              if col = "" then w
              else
                match parse_dtype p.2 with
                | some "datetime64[ns]" =>
                    setCol w (colIdxOf w col) .datetime ((colByName w col).map cellToDatetime)
                | some target =>
                    let (dt, cells) := astypeIgnore target (dtypeByName w col) (colByName w col)
                    setCol w (colIdxOf w col) dt cells
                | Option.none => w)
        working
      pure (w2, ["cast columns " ++ pyRepr types])
  | _ => pure (working, [])

/-! ### date_parse branch -/

/-- Embeds the date_parse branch: iteration over the columns field is
unguarded (a non-iterable truthy value raises out of the executor); each
resolvable column runs through pd.to_datetime(errors="coerce"); the log
line fires unconditionally once the loop finishes. -/
def applyDateParse (working : Table) (step : PyVal) : Except String (Table × List String) := do
  let colsV ← pyGet step "columns"
  let columns := orDefault colsV (.list [])
  let colsList ← pyIter columns
  let w2 := colsList.foldl
    (fun (w : Table) c =>
      match resolve_column w (pyStr c) with
      | some col =>
          if col = "" then w
          else setCol w (colIdxOf w col) .datetime ((colByName w col).map cellToDatetime)
      | Option.none => w)
    working
  pure (w2, ["date_parse " ++ pyStr columns])

/-! ### date_trunc branch -/

/-- ISO weekday index with Monday 0, from epoch days. -/
def weekdayOf (d : Int) : Int := Int.emod (d + 3) 7

/-- Embeds _date_trunc (src/streamlit_app.py) at day granularity: parse to
timestamps, then floor to the granularity; an unrecognised freq returns the
original series (the function falls through its try and returns series). -/
def date_trunc_series (cells : List Cell) (freq : String) : List Cell :=
  let f := (pyLower freq)
  let s := cells.map cellToDatetime
  let floorTo : Int → Int := fun d =>
    if f = "week" then d - weekdayOf d
    else if f = "month" then
      let (y, m, _) := civilFromDays d
      daysFromCivil y m 1
    else if f = "quarter" then
      let (y, m, _) := civilFromDays d
      daysFromCivil y (1 + 3 * (Int.fdiv (m - 1) 3)) 1
    else if f = "year" then
      let (y, _, _) := civilFromDays d
      daysFromCivil y 1 1
    else d
  if f = "day" ∨ f = "week" ∨ f = "month" ∨ f = "quarter" ∨ f = "year" then
    s.map (fun c => match c with | .time d => .time (floorTo d) | _ => .na)
  else cells

/-- Embeds the date_trunc branch: a resolved, present column is replaced in
place by the truncated series and logged. -/
def applyDateTrunc (working : Table) (step : PyVal) : Except String (Table × List String) := do
  let colV ← pyGet step "column"
  let columnOpt := if pyTruthy colV then resolve_column working (pyStr colV) else Option.none
  let freqV ← pyGetD step "freq" (.str "month")
  if optTruthy columnOpt ∧ (colNames working).contains (columnOpt.getD "") then
    let col := columnOpt.getD ""
    let w2 := setCol working (colIdxOf working col) .datetime
      (date_trunc_series (colByName working col) (pyStr freqV))
    pure (w2, ["date_trunc " ++ col ++ " freq=" ++ pyStr freqV])
  else pure (working, [])

/-! ### window_rank branch -/

/-- First occurrences of cells, in encounter order. -/
def dedupCells : List Cell → List Cell
  | [] => []
  | c :: cs => c :: (dedupCells cs).filter (fun x => x ≠ c)

/-- Series.rank(method="dense"): 1 + number of distinct values strictly
before it in the chosen direction; missing stays missing; mixed kinds
raise. pandas ranks are float64. -/
def denseRank (cells : List Cell) (ascending : Bool) : Except String (List Cell) :=
  if ¬ uniformKind cells then .error "TypeError"
  else
    let distinct := dedupCells (nonNa cells)
    .ok (cells.map (fun x =>
      if x = .na then .na
      else .float (1 + ((distinct.filter
        (fun v => if ascending then cellLt v x else cellLt x v)).length : Rat))))

/-- Embeds the window_rank branch: resolve the rank key and partition
columns; inside the try, dense-rank the key column (per partition group
when one resolves — the sort_values/groupby/rank/index-alignment dance of
the source reduces to exactly the per-group dense rank); assign to
rank_column and log.  The per-group error behaviour is modelled by the
whole-column kind check. -/
def applyWindowRank (working : Table) (step : PyVal) : Except String (Table × List String) := do
  let byV ← pyGet step "by"
  let byOpt := if pyTruthy byV then resolve_column working (pyStr byV) else Option.none
  let pbV ← pyGet step "partition_by"
  let partition_by := wrapStr pbV
  let pbList ← pyIter (orDefault partition_by (.list []))
  let kept := pbList.filter (fun c => optTruthy (resolve_column working (pyStr c)))
  let partition_resolved := ((kept.map (fun c => resolve_column working (pyStr c))).filterMap id).filter
    (fun c => c ≠ "")
  let rcV ← pyGet step "rank_column"
  let rank_col := pyStr (orDefault rcV (.str "rank"))
  let ascV ← pyGetD step "ascending" (.bool false)
  let ascending := pyTruthy ascV
  if optTruthy byOpt ∧ (colNames working).contains (byOpt.getD "") then
    let c := byOpt.getD ""
    let i := colIdxOf working c
    let pIdx := partition_resolved.map (colIdxOf working)
    let body : Except String (List Cell) :=
      if ¬ partition_resolved.isEmpty then
        if ¬ uniformKind (colByName working c) then .error "TypeError"
        else .ok (working.rows.map (fun r =>
          let key := pIdx.map (fun j => r.getD j .na)
          let grpCells := (working.rows.filter
            (fun r2 => pIdx.map (fun j => r2.getD j .na) = key)).map (fun r2 => r2.getD i .na)
          let x := r.getD i .na
          if x = .na then .na
          else .float (1 + ((dedupCells (nonNa grpCells)).filter
            (fun v => if ascending then cellLt v x else cellLt x v)).length)))
      else denseRank (colByName working c) ascending
    match body with
    | .ok ranks =>
        pure (setColByName working rank_col .float64 ranks,
          ["window_rank on " ++ c ++ " partition_by=" ++
            pyRepr (.list (partition_resolved.map PyVal.str))])
    | .error _ => pure (working, [])
  else pure (working, [])

/-! ### cumsum branch -/

/-- Series.cumsum over numbers: running sum skipping missing entries
(missing stays missing); all-int columns stay int.  Object columns are
modelled as failing (a claim-free corner: pandas concatenates uniform
strings). -/
def cumsumCells (cells : List Cell) : Except String (List Cell) :=
  if ¬ cells.all (fun c => c = .na ∨ (cellNum? c).isSome) then .error "TypeError"
  else
    let intish := cells.all (fun c => match c with | .int _ => true | .bool _ => true | .na => true | _ => false)
    .ok ((cells.foldl (fun (st : Rat × List Cell) c =>
      match cellNum? c with
      | some v => (st.1 + v, st.2 ++ [if intish then Cell.int (st.1 + v).num else Cell.float (st.1 + v)])
      | Option.none => (st.1, st.2 ++ [Cell.na])) (0, [])).2)

/-- Per-group cumsum aligned to the original row order. -/
def cumsumPartitioned (rows : List (List Cell)) (pIdx : List Nat) (ci : Nat) :
    Except String (List Cell) :=
  let cells := rows.map (fun r => r.getD ci .na)
  if ¬ cells.all (fun c => c = .na ∨ (cellNum? c).isSome) then .error "TypeError"
  else
    let intish := cells.all (fun c => match c with | .int _ => true | .bool _ => true | .na => true | _ => false)
    .ok ((rows.foldl (fun (st : List (List Cell × Rat) × List Cell) r =>
      let key := pIdx.map (fun j => r.getD j .na)
      let acc := match st.1.find? (fun p => p.1 = key) with
        | some p => p.2
        | Option.none => 0
      match cellNum? (r.getD ci .na) with
      | some v =>
          let acc2 := acc + v
          (dictUpsertK st.1 key acc2,
           st.2 ++ [if intish then Cell.int acc2.num else Cell.float acc2])
      | Option.none => (st.1, st.2 ++ [Cell.na])) ([], [])).2)
  where
    dictUpsertK (m : List (List Cell × Rat)) (k : List Cell) (v : Rat) : List (List Cell × Rat) :=
      if m.any (fun p => p.1 = k) then m.map (fun p => if p.1 = k then (k, v) else p)
      else m ++ [(k, v)]

/-- Embeds the cumsum branch: resolve the column and optional group keys;
inside the try, assign the (partitioned) running sum and log — the log
fires even when the column did not resolve and nothing was assigned. -/
def applyCumsum (working : Table) (step : PyVal) : Except String (Table × List String) := do
  let colV ← pyGet step "column"
  let columnOpt := if pyTruthy colV then resolve_column working (pyStr colV) else Option.none
  let ncV ← pyGet step "new_column"
  let new_col := pyStr (orDefault ncV (.str (optStr columnOpt ++ "_cumsum")))
  let byV0 ← pyGet step "by"
  let byV := wrapStr byV0
  let byList ← pyIter (orDefault byV (.list []))
  let by_resolved := ((byList.map (fun c => resolve_column working (pyStr c))).filterMap id).filter
    (fun c => c ≠ "")
  let body : Except String Table :=
    if optTruthy columnOpt ∧ ¬ by_resolved.isEmpty then
      match cumsumPartitioned working.rows (by_resolved.map (colIdxOf working))
          (colIdxOf working (columnOpt.getD "")) with
      | .ok cells => .ok (setColByName working new_col
          (arithDtype cells) cells)
      | .error e => .error e
    else if optTruthy columnOpt then
      match cumsumCells (colByName working (columnOpt.getD "")) with
      | .ok cells => .ok (setColByName working new_col (arithDtype cells) cells)
      | .error e => .error e
    else .ok working
  match body with
  | .ok w2 => pure (w2, ["cumsum for " ++ optStr columnOpt ++ " by=" ++
      pyRepr (.list (by_resolved.map PyVal.str))])
  | .error _ => pure (working, [])

/-! ### pct_change branch -/

/-- Series.pct_change(periods): x_i / x_(i-p) - 1, missing outside the
window or at missing operands; a zero base is modelled as missing (pandas
produces an infinity no other operation here consumes); non-numbers raise. -/
def pctChangeCells (cells : List Cell) (p : Int) : Except String (List Cell) :=
  if ¬ cells.all (fun c => c = .na ∨ (cellNum? c).isSome) then .error "TypeError"
  else
    .ok ((List.range cells.length).map (fun (i : Nat) =>
      let j : Int := (i : Int) - p
      if 0 ≤ j ∧ j < (cells.length : Int) then
        match cellNum? (cells.getD i .na), cellNum? (cells.getD j.toNat .na) with
        | some a, some b => if b = 0 then .na else .float (a / b - 1)
        | _, _ => .na
      else .na))

/-- Per-group pct_change aligned to the original row order. -/
def pctChangePartitioned (rows : List (List Cell)) (pIdx : List Nat) (ci : Nat) (p : Int) :
    Except String (List Cell) :=
  let cells := rows.map (fun r => r.getD ci .na)
  if ¬ cells.all (fun c => c = .na ∨ (cellNum? c).isSome) then .error "TypeError"
  else
    let keyAt := fun (i : Nat) => pIdx.map (fun j => (rows.getD i []).getD j .na)
    .ok ((List.range rows.length).map (fun (i : Nat) =>
      let key := keyAt i
      let grpIdxs := (List.range rows.length).filter (fun i2 => keyAt i2 = key)
      let pos := grpIdxs.indexOf i
      let j : Int := (pos : Int) - p
      if 0 ≤ j ∧ j < (grpIdxs.length : Int) then
        match cellNum? (cells.getD i .na), cellNum? (cells.getD (grpIdxs.getD j.toNat 0) .na) with
        | some a, some b => if b = 0 then .na else .float (a / b - 1)
        | _, _ => .na
      else .na))

/-- Embeds the pct_change branch: int(periods) is unguarded; the rest of
the branch mirrors cumsum (log fires even with an unresolved column). -/
def applyPctChange (working : Table) (step : PyVal) : Except String (Table × List String) := do
  let colV ← pyGet step "column"
  let columnOpt := if pyTruthy colV then resolve_column working (pyStr colV) else Option.none
  let ncV ← pyGet step "new_column"
  let new_col := pyStr (orDefault ncV (.str (optStr columnOpt ++ "_pct_change")))
  let pV ← pyGetD step "periods" (.int 1)
  let periods ← pyInt pV
  let byV0 ← pyGet step "by"
  let byV := wrapStr byV0
  let byList ← pyIter (orDefault byV (.list []))
  let by_resolved := ((byList.map (fun c => resolve_column working (pyStr c))).filterMap id).filter
    (fun c => c ≠ "")
  let body : Except String Table :=
    if optTruthy columnOpt ∧ ¬ by_resolved.isEmpty then
      match pctChangePartitioned working.rows (by_resolved.map (colIdxOf working))
          (colIdxOf working (columnOpt.getD "")) periods with
      | .ok cells => .ok (setColByName working new_col .float64 cells)
      | .error e => .error e
    else if optTruthy columnOpt then
      match pctChangeCells (colByName working (columnOpt.getD "")) periods with
      | .ok cells => .ok (setColByName working new_col .float64 cells)
      | .error e => .error e
    else .ok working
  match body with
  | .ok w2 => pure (w2, ["pct_change for " ++ optStr columnOpt ++ " by=" ++
      pyRepr (.list (by_resolved.map PyVal.str)) ++ " periods=" ++ toString periods])
  | .error _ => pure (working, [])

/-! ### value_counts branch -/

/-- Embeds the value_counts branch: int(k) is unguarded; frequency table of
the resolved column's non-missing values, descending by count (stable, ties
in encounter order), optionally normalised, head(top); the reset_index/
rename of the source yields the [column, "count"] header (pandas 1.x column
naming, which this code was written against). -/
def applyValueCounts (working : Table) (step : PyVal) : Except String (Table × List String) := do
  let colV ← pyGet step "column"
  let columnOpt := if pyTruthy colV then resolve_column working (pyStr colV) else Option.none
  let normV ← pyGetD step "normalize" (.bool false)
  let normalize := pyTruthy normV
  let kV ← pyGetD step "k" (.int 20)
  let top ← pyInt kV
  if optTruthy columnOpt ∧ (colNames working).contains (columnOpt.getD "") then
    let c := columnOpt.getD ""
    let cells := colByName working c
    let total := (nonNa cells).length
    let counts := (dedupCells (nonNa cells)).map
      (fun v => (v, (cells.filter (fun x => decide (x = v))).length))
    let sorted := stableSort (fun a b => b.2 < a.2) counts
    let taken := pyHead top sorted
    let w2 : Table :=
      { header := [(c, dtypeByName working c),
                   ("count", if normalize then Dtype.float64 else Dtype.int64)],
        rows := taken.map (fun p =>
          [p.1, if normalize then Cell.float ((p.2 : Rat) / (total : Rat)) else Cell.int p.2]) }
    pure (w2, ["value_counts " ++ c ++ " normalize=" ++ (if normalize then "True" else "False") ++
      " top=" ++ toString top])
  else pure (working, [])

/-! ### dedupe branch -/

/-- Models df.drop_duplicates(subset, keep): subset names must exist, keep
must be "first" or "last"; kept rows stay in original order. -/
def dedupeModel (t : Table) (subsetV keepV : PyVal) : Except String Table := do
  let names ← match subsetV with
    | .none => Except.ok (colNames t)
    | .str s => Except.ok [s]
    | .list xs => Except.ok (xs.map pyStr)
    | _ => Except.error "TypeError"
  if ¬ names.all (fun nm => (colNames t).contains nm) then .error "KeyError"
  else do
    let keep ← match keepV with
      | .str s => if s = "first" ∨ s = "last" then Except.ok s else Except.error "ValueError"
      | _ => Except.error "ValueError"
    let idxs := names.map (colIdxOf t)
    let keyOf := fun (r : List Cell) => idxs.map (fun i => r.getD i .na)
    let n := t.rows.length
    let keepRow := fun (i : Nat) =>
      if keep = "first" then
        ((List.range i).filter (fun j => keyOf (t.rows.getD j []) = keyOf (t.rows.getD i []))).isEmpty
      else
        (((List.range n).filter (fun j => i < j)).filter
          (fun j => keyOf (t.rows.getD j []) = keyOf (t.rows.getD i []))).isEmpty
    pure { header := t.header,
           rows := ((List.range n).filter keepRow).map (fun i => t.rows.getD i []) }

/-- Embeds the dedupe branch (guarded; only success logs). -/
def applyDedupe (working : Table) (step : PyVal) : Except String (Table × List String) := do
  let subsetV ← pyGet step "subset"
  let keepV ← pyGetD step "keep" (.str "first")
  match dedupeModel working subsetV keepV with
  | .ok w2 => pure (w2, ["dedupe subset=" ++ pyStr subsetV ++ " keep=" ++ pyStr keepV])
  | .error _ => pure (working, [])

/-! ### sample branch -/

/-- Python round (ties to even), used by pandas for frac sampling. -/
def pyRound (q : Rat) : Int :=
  let f := Rat.floor q
  let r := q - (f : Rat)
  if r < 1 / 2 then f
  else if r > 1 / 2 then f + 1
  else if Int.emod f 2 = 0 then f else f + 1

/-- Embeds the sample branch: df.sample(n=...) raises when n is negative or
exceeds the row count, df.sample(frac=...) when frac is outside [0, 1]
(replace=False); the drawn subset is pseudorandom in pandas and modelled
here as the leading rows — no claim depends on which rows are drawn.  With
both n and frac absent, nothing is sampled but the log line still fires. -/
def applySample (working : Table) (step : PyVal) : Except String (Table × List String) := do
  let nV ← pyGet step "n"
  let fracV ← pyGet step "frac"
  let _rsV ← pyGet step "random_state"
  let body : Except String Table :=
    match nV with
    | .none =>
        match fracV with
        | .none => .ok working
        | _ =>
            match pyFloat fracV with
            | .error e => .error e
            | .ok fv =>
                if fv < 0 ∨ fv > 1 then .error "ValueError"
                else .ok { header := working.header,
                           rows := working.rows.take (pyRound (fv * (working.rows.length : Rat))).toNat }
    | _ =>
        match pyInt nV with
        | .error e => .error e
        | .ok nv =>
            if nv < 0 ∨ nv > (working.rows.length : Int) then .error "ValueError"
            else .ok { header := working.header, rows := working.rows.take nv.toNat }
  match body with
  | .ok w2 => pure (w2, ["sample n=" ++ pyStr nV ++ " frac=" ++ pyStr fracV])
  | .error _ => pure (working, [])

/-! ### Dispatcher and plan runner -/

/-- Dispatch of one step of _execute_analysis_plan on an already extracted
lowercased `op` tag, in the order of the source's elif chain; an
unrecognised tag is a no-op with no log (`else: continue`). -/
def applyStepTag (working : Table) (step : PyVal) (op : String) :
    Except String (Table × List String) :=
  if op = "filter" then applyFilter working step
  else if op = "select" then applySelect working step
  else if op = "compute" then applyCompute working step
  else if op = "groupby_agg" then applyGroupby working step
  else if op = "sort" then applySort working step
  else if op = "topk" then applyTopk working step
  else if op = "rename" then applyRename working step
  else if op = "pivot" then applyPivot working step
  else if op = "limit" then applyLimit working step
  else if op = "dropna" then applyDropna working step
  else if op = "fillna" then applyFillna working step
  else if op = "cast" then applyCast working step
  else if op = "date_parse" then applyDateParse working step
  else if op = "date_trunc" then applyDateTrunc working step
  else if op = "window_rank" then applyWindowRank working step
  else if op = "cumsum" then applyCumsum working step
  else if op = "pct_change" then applyPctChange working step
  else if op = "value_counts" then applyValueCounts working step
  else if op = "dedupe" then applyDedupe working step
  else if op = "sample" then applySample working step
  else pure (working, [])

/-- One plan step of _execute_analysis_plan: extract the `op` field
(`step.get("op", "")` with the AttributeError of a non-dict step), lowercase
its string form and dispatch. -/
def applyStep (working : Table) (step : PyVal) : Except String (Table × List String) := do
  let opV ← pyGetD step "op" (.str "")
  applyStepTag working step (pyLower (pyStr opV))

/-- The finalize log line. -/
def trimMsg : String := "trim columns to first 50 for display"

/-- working.iloc[:, :50]. -/
def truncCols (t : Table) : Table :=
  { header := t.header.take 50, rows := t.rows.map (fun r => r.take 50) }

/-- The steps loop of _execute_analysis_plan: fold applyStep, accumulating
the log. -/
def stepFold (st : Table × List String) (step : PyVal) :
    Except String (Table × List String) := do
  let (t2, ls) ← applyStep st.1 step
  pure (t2, st.2 ++ ls)

def runSteps (start : Table) (steps : List PyVal) : Except String (Table × List String) :=
  steps.foldlM stepFold (start, ([] : List String))

/-- Embeds _execute_analysis_plan (src/streamlit_app.py): coerce a copy of
the input, run the steps in order, then cap the result at 50 columns with a
trim log line. -/
def execute_analysis_plan (df : Table) (plan : PyVal) :
    Except String (Table × List String) := do
  let working := smart_coerce_dataframe df
  let stepsV ← pyGetD plan "steps" (.list [])
  let steps ← pyIter stepsV
  match runSteps working steps with
  | .error e => .error e
  | .ok (w, logs) =>
      if w.header.length > 50 then pure (truncCols w, logs ++ [trimMsg])
      else pure (w, logs)

/-! ### Heap-level executor (aliasing structure) -/

/-- Python references: tables live on a heap, a frame variable is an index
into it.  This level records which statements of the source write through
a reference (working[col] = ...) and which rebind the name working,
letting the development state that the caller's df binding is never
written. -/
structure Heap where
  cells : List Table

/-- Dereference. -/
def heapGet (h : Heap) (r : Nat) : Table := h.cells.getD r default

/-- Write through a reference. -/
def heapSet (h : Heap) (r : Nat) (t : Table) : Heap := ⟨h.cells.set r t⟩

/-- Allocate a fresh object and return its reference. -/
def heapAlloc (h : Heap) (t : Table) : Heap × Nat := (⟨h.cells ++ [t]⟩, h.cells.length)

/-- Branches of the source that assign columns of working in place; every
other branch rebinds the variable working to a freshly built frame. -/
def stepMutatesInPlace (step : PyVal) : Bool :=
  let op := match pyGetD step "op" (.str "") with
    | .ok v => (pyLower (pyStr v))
    | .error _ => ""
  op = "compute" ∨ op = "cast" ∨ op = "date_parse" ∨ op = "date_trunc" ∨
  op = "window_rank" ∨ op = "cumsum" ∨ op = "pct_change"

/-- Heap-level steps loop: each step's value effect is applyStep; its store
effect is a write through working (in-place branches) or a rebind to a
fresh allocation.  A raised step error propagates with the heap as it
stands. -/
def runStepsHeap (h : Heap) (w : Nat) (logs : List String) :
    List PyVal → Heap × Nat × Except String (List String)
  | [] => (h, w, .ok logs)
  | s :: rest =>
      match applyStep (heapGet h w) s with
      | .error e => (h, w, .error e)
      | .ok (t2, ls) =>
          if stepMutatesInPlace s then runStepsHeap (heapSet h w t2) w (logs ++ ls) rest
          else
            let p := heapAlloc h t2
            runStepsHeap p.1 p.2 (logs ++ ls) rest

/-- Heap-level finalize: the 50-column cap rebinds working to a freshly
built truncation. -/
def finalizeHeap (h : Heap) (w : Nat) (logs : List String) :
    Heap × Nat × Except String (List String) :=
  if (heapGet h w).header.length > 50 then
    let p4 := heapAlloc h (truncCols (heapGet h w))
    (p4.1, p4.2, .ok (logs ++ [trimMsg]))
  else (h, w, .ok logs)

/-- Steps loop followed by finalize (errors carry the heap out as is). -/
def runHeapTail (h : Heap) (w : Nat) (steps : List PyVal) :
    Heap × Nat × Except String (List String) :=
  match runStepsHeap h w [] steps with
  | (h3, w3, .error e) => (h3, w3, .error e)
  | (h3, w3, .ok logs) => finalizeHeap h3 w3 logs

/-- Heap-level _execute_analysis_plan: the caller's df is heap cell 0;
_smart_coerce_dataframe allocates working = df.copy() and coerces in place
there; each step then writes or rebinds per its branch; finalize rebinds
when truncating. -/
def execute_analysis_plan_heap (df : Table) (plan : PyVal) :
    Heap × Nat × Except String (List String) :=
  let h0 : Heap := ⟨[df]⟩
  let p1 := heapAlloc h0 (heapGet h0 0)
  let h2 := heapSet p1.1 p1.2 (smart_coerce_dataframe (heapGet p1.1 p1.2))
  match pyGetD plan "steps" (.list []) with
  | .error e => (h2, p1.2, .error e)
  | .ok stepsV =>
      match pyIter stepsV with
      | .error e => (h2, p1.2, .error e)
      | .ok steps => runHeapTail h2 p1.2 steps

/-! ### Claim-support definitions -/

/-- Pure field lookup on a dict-shaped plan value (None when absent or when
the value is not a dict; the executor itself raises there, via pyGet). -/
def fieldOfD (v : PyVal) (k : String) (d : PyVal) : PyVal :=
  match v with
  | .dict kvs =>
      match kvs.find? (fun p => p.1 = k) with
      | some p => p.2
      | Option.none => d
  | _ => d

/-- Field lookup defaulting to None (dict.get). -/
def fieldOf (v : PyVal) (k : String) : PyVal := fieldOfD v k .none

/-- The lowercased op tag of a step. -/
def stepTag (step : PyVal) : String := (pyLower (pyStr (fieldOfD step "op" (.str ""))))

/-- The op tags with a handler in the executor's elif chain. -/
def recognizedOp (op : String) : Bool :=
  op = "filter" ∨ op = "select" ∨ op = "compute" ∨ op = "groupby_agg" ∨
  op = "sort" ∨ op = "topk" ∨ op = "rename" ∨ op = "pivot" ∨ op = "limit" ∨
  op = "dropna" ∨ op = "fillna" ∨ op = "cast" ∨ op = "date_parse" ∨
  op = "date_trunc" ∨ op = "window_rank" ∨ op = "cumsum" ∨ op = "pct_change" ∨
  op = "value_counts" ∨ op = "dedupe" ∨ op = "sample"

/-- A field that the source iterates without a guard: safe when it is falsy
(replaced by []) or iterates into harmless values (a list, a string, a
dict). -/
def iterSafeField (v : PyVal) : Bool :=
  match orDefault v (.list []) with
  | .list _ => true
  | .str _ => true
  | .dict _ => true
  | _ => false

/-- Whether int(v) succeeds. -/
def intConvertible (v : PyVal) : Bool :=
  match pyInt v with
  | .ok _ => true
  | .error _ => false

/-- A field read with .get(...) after an `or {}`: safe when falsy or a
dict. -/
def dictOrFalsy (v : PyVal) : Bool :=
  match orDefault v (.dict []) with
  | .dict _ => true
  | _ => false

/-- Shape-safety of one filter condition: a dict whose operator avoids the
unguarded raising arms — not `between` (unguarded bounds indexing and
comparison), a metacharacter-free pattern for `contains` (str.contains
compiles the pattern with regex=True outside any try), and hashable
members for `in`/`not_in` (Series.isin raises TypeError on a list or dict
member, outside any try). -/
def condShapeSafe (c : PyVal) : Bool :=
  match c with
  | .dict _ =>
      let optr := (pyLower (pyStr (fieldOfD c "operator" (.str "=="))))
      (optr ≠ "between" : Bool) &&
      (if optr = "contains" then regexMetaFree (pyStr (fieldOf c "value")) else true) &&
      (if optr = "in" ∨ optr = "not_in" then
        ((match fieldOf c "values" with
          | .list xs => xs
          | _ => [fieldOf c "value"]).map as_number).all (fun v => !isUnhashable v)
       else true)
  | _ => false

/-- Shape-safety of one step: the step is a dict and every value the branch
handles outside its try block cannot raise — integer-convertible n/k/periods
fields, list/dict-shaped iterated fields, dict-shaped operand objects,
shape-safe filter conditions (no `between`, literal `contains` patterns,
hashable `in` members) and no groupby_agg (its aggregation call is
unguarded and data-dependent). -/
def stepSafe (step : PyVal) : Bool :=
  match step with
  | .dict _ =>
      let op := stepTag step
      if op = "filter" then
        match orDefault (fieldOf step "conditions") (.list []) with
        | .list cs => cs.all condShapeSafe
        | _ => false
      else if op = "select" then iterSafeField (fieldOf step "columns")
      else if op = "compute" then
        dictOrFalsy (fieldOf step "left") && dictOrFalsy (fieldOf step "right")
      else if op = "groupby_agg" then false
      else if op = "sort" then iterSafeField (fieldOf step "by")
      else if op = "topk" then intConvertible (fieldOfD step "k" (.int 5))
      else if op = "rename" then dictOrFalsy (fieldOf step "mapping")
      else if op = "limit" then intConvertible (fieldOfD step "n" (.int 10))
      else if op = "date_parse" then iterSafeField (fieldOf step "columns")
      else if op = "window_rank" then iterSafeField (wrapStr (fieldOf step "partition_by"))
      else if op = "cumsum" then iterSafeField (wrapStr (fieldOf step "by"))
      else if op = "pct_change" then
        intConvertible (fieldOfD step "periods" (.int 1)) &&
        iterSafeField (wrapStr (fieldOf step "by"))
      else if op = "value_counts" then intConvertible (fieldOfD step "k" (.int 20))
      else true
  | _ => false

/-- For a filter condition: the mask it computes is a pointwise function
of each row's cell.  For the six comparisons this demands a scalar
(non-list) right operand — a list is compared positionally by pandas, so
the mask depends on row position — and that the native comparison does not
raise on this table (so the string-equality fallback is not taken).  For
between it demands scalar bounds, for the same positional reason.
Conditions that are skipped, or with other operators, impose nothing. -/
def condNativeOk (working : Table) (c : PyVal) : Bool :=
  match c with
  | .dict _ =>
      let optr := (pyLower (pyStr (fieldOfD c "operator" (.str "=="))))
      let colOpt := resolve_column working (pyStr (fieldOf c "column"))
      if ¬ (optTruthy colOpt ∧ (colNames working).contains (colOpt.getD "")) then true
      else if isCmpSix optr then
        (listOperand (as_number (fieldOf c "value"))).isNone &&
        (match seriesCompare (dtypeByName working (colOpt.getD ""))
            (colByName working (colOpt.getD "")) optr (as_number (fieldOf c "value")) with
        | .ok _ => true
        | .error _ => false)
      else if optr = "between" then
        (match fieldOf c "values" with
          | .list xs => xs
          | _ => [PyVal.none, PyVal.none]).all
          (fun a => (listOperand (as_number a)).isNone)
      else true
  | _ => true

/-- The per-cell predicate a filter condition computes on resolvable
columns when no comparison raises (the mask rows are this predicate of the
cell, so filtering is pointwise). -/
def cellPred (optr : String) (val valuesV : PyVal) (ci : Bool) (x : Cell) : Bool :=
  if isCmpSix optr then
    match cmpCellPy optr x (as_number val) with
    | .ok b => b
    | .error _ => false
  else if optr = "contains" then containsCase (pyStrCell x) (pyStr val) ci
  else if optr = "in" ∨ optr = "not_in" then
    let vals := (match valuesV with | .list xs => xs | _ => [val]).map as_number
    if optr = "not_in" then !(vals.any (cellEqPy x)) else vals.any (cellEqPy x)
  else if optr = "between" then
    let arr := match valuesV with | .list xs => xs | _ => [.none, .none]
    match arr.get? 0, arr.get? 1 with
    | some a0, some a1 =>
        (match cmpCellPy ">=" x (as_number a0) with | .ok b => b | .error _ => false) &&
        (match cmpCellPy "<=" x (as_number a1) with | .ok b => b | .error _ => false)
    | _, _ => false
  else true

/-- The observable content of column i: name, dtype, cells. -/
def colTriple (t : Table) (i : Nat) : String × Dtype × List Cell :=
  ((t.header.getD i ("", .obj)).1, colDtype t i, colCells t i)

/-- Every row has header width (the Table well-formedness invariant). -/
def rowsWF (t : Table) : Bool :=
  t.rows.all (fun r => r.length = t.header.length)

/-- The step or condition object is a dict. -/
def isDictV : PyVal → Bool
  | .dict _ => true
  | _ => false

/-- A filter condition whose column fails to resolve against the table
(the branch's `if not col or col not in working.columns: continue`
fires). -/
def condUnresolvable (working : Table) (c : PyVal) : Bool :=
  !(optTruthy (resolve_column working (pyStr (fieldOf c "column"))) &&
    (colNames working).contains
      ((resolve_column working (pyStr (fieldOf c "column"))).getD ""))

/-- The case-insensitive tier's dict lookup of _resolve_column, on its
own. -/
def ciLookup (t : Table) (name : String) : Option String :=
  (((colNames t).foldl (fun m c => dictUpsert m (pyLower c) c) []).find?
      (fun p => p.1 = (pyLower name))).map (fun p => p.2)

/-- The per-column contract of the coercion pass, stated on one column's
observable content (name, dtype, cells) following the spec's wording: only
text-like (object) columns change; above the 0.6 cleaned-numeric-parse
ratio the parsed numeric column wins and date parsing is skipped; otherwise
exactly the date/time/timestamp-named columns are parsed as timestamps. -/
def coerceSpec : String × Dtype × List Cell → String × Dtype × List Cell
  | (name, dt, series) =>
      if dt = .obj then
        if nonNaRatioOf series > 3 / 5 then
          (name, (numericReplacement series).1, (numericReplacement series).2)
        else if dateNameMatch name then
          (name, .datetime, series.map cellToDatetime)
        else (name, dt, series)
      else (name, dt, series)

/-! ### Concrete fixtures used by scenario and counterexample theorems -/

/-- A one-column integer table. -/
def exNum : Table := ⟨[("c", .int64)], [[.int 1], [.int 2]]⟩

/-- A one-column object table with a string above an int (a dirty column as
uploaded data produces). -/
def exMixed : Table := ⟨[("c", .obj)], [[.str "a"], [.int 3]]⟩

/-- A table with a Revenue column. -/
def exRevenue : Table := ⟨[("Revenue", .obj)], [[.str "100"]]⟩

/-- A table with only a Region column. -/
def exRegion : Table := ⟨[("Region", .obj)], [[.str "A"]]⟩

/-- A limit step whose n is not int-convertible. -/
def badLimitStep : PyVal := .dict [("op", .str "limit"), ("n", .str "x")]

/-- A sort step whose only key does not resolve. -/
def sortMissStep : PyVal := .dict [("op", .str "sort"), ("by", .list [.str "zzz"])]

/-- A date_parse step whose only column does not resolve. -/
def dateParseMissStep : PyVal :=
  .dict [("op", .str "date_parse"), ("columns", .list [.str "zzz"])]

/-- A filter whose > comparison raises on exMixed (mixed column vs str)
and therefore falls back to string equality. -/
def mixedGtStep : PyVal :=
  .dict [("op", .str "filter"), ("conditions", .list
    [.dict [("column", .str "c"), ("operator", .str ">"), ("value", .str "a")]])]

/-- A plan with the given steps. -/
def planOf (steps : List PyVal) : PyVal := .dict [("steps", .list steps)]

/-! ## Theorems -/

/-- Reading a field of a dict step never raises and yields the pure
lookup. -/
theorem pyGetD_dict (kvs : List (String × PyVal)) (k : String) (d : PyVal) :
    pyGetD (.dict kvs) k d = .ok (fieldOfD (.dict kvs) k d) := by
  simp only [pyGetD, fieldOfD]
  cases h : kvs.find? (fun p => p.1 = k) <;> simp [h]

/-- Reading with dict.get (default None). -/
theorem pyGet_dict (kvs : List (String × PyVal)) (k : String) :
    pyGet (.dict kvs) k = .ok (fieldOf (.dict kvs) k) := by
  simp only [pyGet, fieldOf, fieldOfD]
  cases h : kvs.find? (fun p => p.1 = k) <;> simp [h]

/-- Setting one list position leaves the others readable unchanged. -/
theorem getD_set_ne {α : Type} (l : List α) (i j : Nat) (a d : α) (h : i ≠ j) :
    (l.set i a).getD j d = l.getD j d := by
  induction l generalizing i j with
  | nil => rfl
  | cons x xs ih =>
      cases i with
      | zero => cases j with
          | zero => exact absurd rfl h
          | succ j2 => rfl
      | succ i2 => cases j with
          | zero => rfl
          | succ j2 => exact ih i2 j2 (by omega)

/-- Reading position 0 of an extended list. -/
theorem getD_append_zero {α : Type} (l : List α) (t d : α) (h : 0 < l.length) :
    (l ++ [t]).getD 0 d = l.getD 0 d := by
  cases l with
  | nil => simp at h
  | cons x xs => rfl

/-- The heap-level steps loop never writes through a reference other than
working's, so cell 0 survives every step (and the heap never shrinks). -/
theorem runStepsHeap_frame (steps : List PyVal) :
    ∀ (h : Heap) (w : Nat) (logs : List String), w ≠ 0 → 0 < h.cells.length →
      (runStepsHeap h w logs steps).1.cells.getD 0 default = h.cells.getD 0 default ∧
      0 < (runStepsHeap h w logs steps).1.cells.length := by
  induction steps with
  | nil => intro h w logs hw hlen; exact ⟨rfl, hlen⟩
  | cons s rest ih =>
      intro h w logs hw hlen
      unfold runStepsHeap
      cases happ : applyStep (heapGet h w) s with
      | error e => exact ⟨rfl, hlen⟩
      | ok p =>
          by_cases hm : stepMutatesInPlace s
          · simp only [hm, if_pos]
            have hlen2 : 0 < (heapSet h w p.1).cells.length := by
              simpa [heapSet] using hlen
            have := ih (heapSet h w p.1) w (logs ++ p.2) hw hlen2
            refine ⟨?_, this.2⟩
            rw [this.1]
            exact getD_set_ne h.cells w 0 p.1 default hw
          · simp only [hm, Bool.false_eq_true, if_false]
            have hw2 : (heapAlloc h p.1).2 ≠ 0 := by
              simp only [heapAlloc]
              omega
            have hlen2 : 0 < (heapAlloc h p.1).1.cells.length := by
              simp only [heapAlloc, List.length_append]
              omega
            have := ih (heapAlloc h p.1).1 (heapAlloc h p.1).2 (logs ++ p.2) hw2 hlen2
            refine ⟨?_, this.2⟩
            rw [this.1]
            simp only [heapAlloc]
            exact getD_append_zero h.cells p.1 default hlen

/-- Finalize allocates at most; cell 0 survives. -/
theorem runHeapTail_frame (h : Heap) (w : Nat) (steps : List PyVal)
    (hw : w ≠ 0) (hlen : 0 < h.cells.length) :
    (runHeapTail h w steps).1.cells.getD 0 default = h.cells.getD 0 default := by
  unfold runHeapTail
  have hf := runStepsHeap_frame steps h w [] hw hlen
  cases hr : runStepsHeap h w [] steps with
  | mk h3 rest =>
      rw [hr] at hf
      cases rest with
      | mk w3 res =>
          cases res with
          | error e => exact hf.1
          | ok logs =>
              unfold finalizeHeap
              by_cases hwide : (heapGet h3 w3).header.length > 50
              · simp only [hwide, if_pos, heapAlloc]
                rw [getD_append_zero _ _ _ hf.2]
                exact hf.1
              · simp only [hwide, if_neg]
                exact hf.1

/-- C8.  Executing a plan does not mutate the caller's table: on the heap
model of _execute_analysis_plan (where _smart_coerce_dataframe copies df
into a fresh working cell and every branch either rebinds working or writes
through it), the caller's binding still holds the original table after the
call, whether or not the run raised. -/
theorem C8_no_caller_mutation (df : Table) (plan : PyVal) :
    heapGet (execute_analysis_plan_heap df plan).1 0 = df := by
  unfold execute_analysis_plan_heap
  cases hs : pyGetD plan "steps" (.list []) with
  | error e => rfl
  | ok stepsV =>
      dsimp only []
      cases hi : pyIter stepsV with
      | error e => rfl
      | ok steps =>
          dsimp only []
          have := runHeapTail_frame
            (heapSet (heapAlloc ⟨[df]⟩ (heapGet ⟨[df]⟩ 0)).1
              (heapAlloc ⟨[df]⟩ (heapGet ⟨[df]⟩ 0)).2
              (smart_coerce_dataframe (heapGet (heapAlloc ⟨[df]⟩ (heapGet ⟨[df]⟩ 0)).1
                (heapAlloc ⟨[df]⟩ (heapGet ⟨[df]⟩ 0)).2)))
            (heapAlloc ⟨[df]⟩ (heapGet ⟨[df]⟩ 0)).2 steps
            (by simp [heapAlloc]) (by simp [heapAlloc, heapSet])
          show heapGet (runHeapTail _ _ steps).1 0 = df
          simp only [heapGet] at this ⊢
          rw [this]
          rfl

/-- The plan runner reduces to coercion, the steps fold, and the width
cap. -/
theorem execute_eq_runSteps (df : Table) (steps : List PyVal) :
    execute_analysis_plan df (planOf steps) =
      (match runSteps (smart_coerce_dataframe df) steps with
       | .error e => .error e
       | .ok (w, logs) =>
           if w.header.length > 50 then pure (truncCols w, logs ++ [trimMsg])
           else pure (w, logs)) := rfl

/-- C10.  The coercion pass is unconditional: executing a plan with an
empty steps list returns the type-coerced table (within the 50-column cap)
and an empty log. -/
theorem C10_empty_steps_coerces (df : Table)
    (h : (smart_coerce_dataframe df).header.length ≤ 50) :
    execute_analysis_plan df (planOf []) =
      .ok (smart_coerce_dataframe df, ([] : List String)) := by
  rw [execute_eq_runSteps]
  show (if (smart_coerce_dataframe df).header.length > 50 then _ else _) = _
  rw [if_neg (by omega)]
  rfl

/-- Witness for C10 on a concrete dirty table. -/
theorem C10_empty_steps_coerces_witness :
    execute_analysis_plan exMixed (planOf []) =
      .ok (smart_coerce_dataframe exMixed, ([] : List String)) :=
  C10_empty_steps_coerces exMixed (by decide)

/-- A step whose lowercased op tag has no handler is skipped: table
unchanged, nothing logged. -/
theorem applyStep_unknown_noop (t : Table) (kvs : List (String × PyVal))
    (h : recognizedOp (stepTag (.dict kvs)) = false) :
    applyStep t (.dict kvs) = .ok (t, []) := by
  unfold applyStep
  rw [pyGetD_dict]
  show applyStepTag t (.dict kvs) (pyLower (pyStr (fieldOfD (.dict kvs) "op" (.str "")))) = _
  unfold applyStepTag
  simp only [recognizedOp] at h
  rw [decide_eq_false_iff_not] at h
  push_neg at h
  simp only [stepTag] at h
  obtain ⟨h1, h2, h3, h4, h5, h6, h7, h8, h9, h10, h11, h12, h13, h14, h15, h16, h17, h18,
    h19, h20⟩ := h
  rw [if_neg h1, if_neg h2, if_neg h3, if_neg h4, if_neg h5, if_neg h6, if_neg h7, if_neg h8,
    if_neg h9, if_neg h10, if_neg h11, if_neg h12, if_neg h13, if_neg h14, if_neg h15,
    if_neg h16, if_neg h17, if_neg h18, if_neg h19, if_neg h20]
  rfl

/-- C4.  An operation spec with an unrecognised op tag is a no-op (table
unchanged, nothing logged), and a plan of one recognised and one
unrecognised operation returns exactly what the plan with only the
recognised operation returns. -/
theorem C4_unknown_op_noop :
    (∀ (t : Table) (kvs : List (String × PyVal)),
        recognizedOp (stepTag (.dict kvs)) = false →
        applyStep t (.dict kvs) = .ok (t, [])) ∧
    (∀ (df : Table) (s1 : PyVal) (kvs : List (String × PyVal)),
        recognizedOp (stepTag (.dict kvs)) = false →
        execute_analysis_plan df (planOf [s1, .dict kvs]) =
          execute_analysis_plan df (planOf [s1])) := by
  constructor
  · exact applyStep_unknown_noop
  · intro df s1 kvs h
    rw [execute_eq_runSteps, execute_eq_runSteps]
    have hstep : ∀ p : Table × List String, stepFold p (.dict kvs) = .ok p := by
      intro p
      unfold stepFold
      rw [applyStep_unknown_noop p.1 kvs h]
      show Except.ok (p.1, p.2 ++ []) = _
      rw [List.append_nil]
    have hrun : runSteps (smart_coerce_dataframe df) [s1, .dict kvs] =
        runSteps (smart_coerce_dataframe df) [s1] := by
      unfold runSteps
      simp only [List.foldlM_cons, List.foldlM_nil]
      cases happ : stepFold (smart_coerce_dataframe df, ([] : List String)) s1 with
      | error e => rfl
      | ok p => simp only [hstep]; rfl
    rw [hrun]

/-- Witness for C4 at a concrete table, a concrete limit step and a
concrete unrecognised step. -/
theorem C4_unknown_op_noop_witness :
    applyStep exNum (.dict [("op", .str "frobnicate")]) = .ok (exNum, []) ∧
    execute_analysis_plan exNum (planOf
        [.dict [("op", .str "limit"), ("n", .int 1)], .dict [("op", .str "frobnicate")]]) =
      execute_analysis_plan exNum (planOf [.dict [("op", .str "limit"), ("n", .int 1)]]) :=
  ⟨C4_unknown_op_noop.1 exNum [("op", .str "frobnicate")] (by decide),
   C4_unknown_op_noop.2 exNum (.dict [("op", .str "limit"), ("n", .int 1)])
     [("op", .str "frobnicate")] (by decide)⟩

/-- C1 counterexample.  A plan content error does propagate: a limit step
whose n field is the string "x" raises ValueError out of
_execute_analysis_plan instead of returning a (table, log) pair (int(n) is
evaluated outside every try block). -/
theorem C1_counterexample :
    execute_analysis_plan exNum (planOf [badLimitStep]) = .error "ValueError" := rfl

/-- C6 counterexample.  A sort whose only key column fails to resolve does
not leave the row order unchanged: by_resolved is empty, so the source
sorts by every column of the table with the default ascending=False, here
reversing the rows. -/
theorem C6_counterexample :
    execute_analysis_plan exNum (planOf [sortMissStep]) =
      .ok (⟨[("c", .int64)], [[.int 2], [.int 1]]⟩,
        ["sort by [" ++ sq ++ "c" ++ sq ++ "] asc=False"]) ∧
    ([[Cell.int 2], [Cell.int 1]] : List (List Cell)) ≠ [[.int 1], [.int 2]] := by
  constructor
  · rfl
  · decide

/-- C7 counterexample.  An operation that does nothing can still log: a
date_parse step whose only column fails to resolve leaves the table
unchanged yet appends its log line. -/
theorem C7_counterexample :
    execute_analysis_plan exNum (planOf [dateParseMissStep]) =
      .ok (exNum, ["date_parse [" ++ sq ++ "zzz" ++ sq ++ "]"]) ∧
    ("date_parse [" ++ sq ++ "zzz" ++ sq ++ "]") ≠ "" := by
  constructor
  · rfl
  · decide

/-- C9 counterexample.  Filter is not idempotent: on a mixed object column
the > comparison raises and falls back to string equality, keeping the row
"a"; on the filtered table the native comparison succeeds and drops it, so
two applications yield a different table than one. -/
theorem C9_counterexample :
    execute_analysis_plan exMixed (planOf [mixedGtStep]) =
      .ok (⟨[("c", .obj)], [[.str "a"]]⟩, ["filter rows -> 1 rows"]) ∧
    execute_analysis_plan exMixed (planOf [mixedGtStep, mixedGtStep]) =
      .ok (⟨[("c", .obj)], []⟩, ["filter rows -> 1 rows", "filter rows -> 0 rows"]) ∧
    ([[Cell.str "a"]] : List (List Cell)) ≠ [] := by
  refine ⟨rfl, rfl, by decide⟩

/-! ### Monadic and string reasoning helpers -/

/-- Bind on a raised Python exception. -/
@[simp] theorem exc_bind_error {α β : Type} (e : String) (f : α → Except String β) :
    (Except.error e >>= f) = (.error e : Except String β) := rfl

/-- Bind on a successful step. -/
@[simp] theorem exc_bind_ok {α β : Type} (a : α) (f : α → Except String β) :
    (Except.ok a >>= f) = f a := rfl

/-- Pure is ok. -/
@[simp] theorem exc_pure_eq_ok {α : Type} (a : α) :
    (pure a : Except String α) = .ok a := rfl

/-- The character data of an appended string. -/
theorem data_append (a b : String) : (a ++ b).data = a.data ++ b.data := by
  cases a
  cases b
  rfl

/-- A five-character window survives appends past a long enough head. -/
theorem take5_append (p s : String) (h : 5 ≤ p.data.length) :
    (p ++ s).data.take 5 = p.data.take 5 := by
  rw [data_append]
  exact List.take_append_of_le_length h

/-- A string whose first five characters differ from the trim line's is not
the trim line. -/
theorem ne_trim_take5 (m : String) (h : m.data.take 5 ≠ trimMsg.data.take 5) :
    m ≠ trimMsg := by
  intro he
  exact h (by rw [he])

/-- Appending keeps a five-character head long and unchanged. -/
theorem take5_len_append (p s : String) (h : 5 ≤ p.data.length) :
    5 ≤ (p ++ s).data.length ∧ (p ++ s).data.take 5 = p.data.take 5 := by
  constructor
  · rw [data_append, List.length_append]
    omega
  · exact take5_append p s h

/-- A log line of shape prefix ++ tail is not the trim line. -/
theorem ne_trim1 (p a : String) (h5 : 5 ≤ p.data.length)
    (hp : p.data.take 5 ≠ trimMsg.data.take 5) : p ++ a ≠ trimMsg := by
  apply ne_trim_take5
  rw [(take5_len_append p a h5).2]
  exact hp

/-- Two appended tails. -/
theorem ne_trim2 (p a b : String) (h5 : 5 ≤ p.data.length)
    (hp : p.data.take 5 ≠ trimMsg.data.take 5) : (p ++ a) ++ b ≠ trimMsg :=
  ne_trim1 (p ++ a) b (take5_len_append p a h5).1
    (by rw [(take5_len_append p a h5).2]; exact hp)

/-- Three appended tails. -/
theorem ne_trim3 (p a b c : String) (h5 : 5 ≤ p.data.length)
    (hp : p.data.take 5 ≠ trimMsg.data.take 5) : ((p ++ a) ++ b) ++ c ≠ trimMsg :=
  ne_trim2 (p ++ a) b c (take5_len_append p a h5).1
    (by rw [(take5_len_append p a h5).2]; exact hp)

/-- Four appended tails. -/
theorem ne_trim4 (p a b c d : String) (h5 : 5 ≤ p.data.length)
    (hp : p.data.take 5 ≠ trimMsg.data.take 5) :
    (((p ++ a) ++ b) ++ c) ++ d ≠ trimMsg :=
  ne_trim3 (p ++ a) b c d (take5_len_append p a h5).1
    (by rw [(take5_len_append p a h5).2]; exact hp)

/-- Five appended tails. -/
theorem ne_trim5 (p a b c d e : String) (h5 : 5 ≤ p.data.length)
    (hp : p.data.take 5 ≠ trimMsg.data.take 5) :
    ((((p ++ a) ++ b) ++ c) ++ d) ++ e ≠ trimMsg :=
  ne_trim4 (p ++ a) b c d e (take5_len_append p a h5).1
    (by rw [(take5_len_append p a h5).2]; exact hp)

/-- A successful terminal pure pins the returned log. -/
theorem ok_pair_eq {r : Table × List String} {t2 : Table} {ls : List String}
    (h : (pure (t2, ls) : Except String (Table × List String)) = .ok r) : r.2 = ls := by
  injection h with h2
  rw [← h2]

/-- A raised step never equals a success (cheap form, avoiding simp on
large step bodies). -/
theorem errNeOk {α : Type} (e : String) (x : α) :
    (Except.error e : Except String α) ≠ .ok x := fun hh => Except.noConfusion hh

/-! ### Per-branch log-shape lemmas: each operation appends no entry or one
entry, and never the trim line. -/

theorem applyFilter_logs (t : Table) (s : PyVal) (r : Table × List String)
    (h : applyFilter t s = .ok r) :
    r.2 = [] ∨ ∃ m, r.2 = [m] ∧ m ≠ trimMsg := by
  unfold applyFilter at h
  try dsimp only [] at h
  cases h1 : pyGet s "conditions" with
  | error e => rw [h1] at h; exact absurd h (errNeOk _ _)
  | ok cv =>
  rw [h1, exc_bind_ok] at h
  try dsimp only [] at h
  cases h2 : pyIter (orDefault cv (.list [])) with
  | error e => rw [h2] at h; exact absurd h (errNeOk _ _)
  | ok conds =>
  rw [h2, exc_bind_ok] at h
  try dsimp only [] at h
  cases h3 : conds.foldlM (filterCondFold t) (t.rows.map (fun _ => true)) with
  | error e => rw [h3] at h; exact absurd h (errNeOk _ _)
  | ok mask =>
  rw [h3, exc_bind_ok] at h
  repeat split at h
  all_goals first
    | (rw [ok_pair_eq h]; exact Or.inl rfl)
    | (rw [ok_pair_eq h]; exact Or.inr ⟨_, rfl, ne_trim1 _ _ (by decide) (by decide)⟩)
    | (rw [ok_pair_eq h]; exact Or.inr ⟨_, rfl, ne_trim2 _ _ _ (by decide) (by decide)⟩)
    | (rw [ok_pair_eq h]; exact Or.inr ⟨_, rfl, ne_trim3 _ _ _ _ (by decide) (by decide)⟩)
    | (rw [ok_pair_eq h]; exact Or.inr ⟨_, rfl, ne_trim4 _ _ _ _ _ (by decide) (by decide)⟩)
    | (rw [ok_pair_eq h]; exact Or.inr ⟨_, rfl, ne_trim5 _ _ _ _ _ _ (by decide) (by decide)⟩)
    | (rw [ok_pair_eq h]; exact Or.inr ⟨_, rfl, by decide⟩)

theorem applySelect_logs (t : Table) (s : PyVal) (r : Table × List String)
    (h : applySelect t s = .ok r) :
    r.2 = [] ∨ ∃ m, r.2 = [m] ∧ m ≠ trimMsg := by
  unfold applySelect at h
  try dsimp only [] at h
  cases h1 : pyGet s "columns" with
  | error e => rw [h1] at h; exact absurd h (errNeOk _ _)
  | ok cv =>
  rw [h1, exc_bind_ok] at h
  try dsimp only [] at h
  cases h2 : pyIter (orDefault cv (.list [])) with
  | error e => rw [h2] at h; exact absurd h (errNeOk _ _)
  | ok cols =>
  rw [h2, exc_bind_ok] at h
  repeat split at h
  all_goals first
    | (rw [ok_pair_eq h]; exact Or.inl rfl)
    | (rw [ok_pair_eq h]; exact Or.inr ⟨_, rfl, ne_trim1 _ _ (by decide) (by decide)⟩)
    | (rw [ok_pair_eq h]; exact Or.inr ⟨_, rfl, ne_trim2 _ _ _ (by decide) (by decide)⟩)
    | (rw [ok_pair_eq h]; exact Or.inr ⟨_, rfl, ne_trim3 _ _ _ _ (by decide) (by decide)⟩)
    | (rw [ok_pair_eq h]; exact Or.inr ⟨_, rfl, ne_trim4 _ _ _ _ _ (by decide) (by decide)⟩)
    | (rw [ok_pair_eq h]; exact Or.inr ⟨_, rfl, ne_trim5 _ _ _ _ _ _ (by decide) (by decide)⟩)
    | (rw [ok_pair_eq h]; exact Or.inr ⟨_, rfl, by decide⟩)

theorem applyCompute_logs (t : Table) (s : PyVal) (r : Table × List String)
    (h : applyCompute t s = .ok r) :
    r.2 = [] ∨ ∃ m, r.2 = [m] ∧ m ≠ trimMsg := by
  unfold applyCompute at h
  try dsimp only [] at h
  cases h1 : pyGet s "new_column" with
  | error e => rw [h1] at h; exact absurd h (errNeOk _ _)
  | ok v1 =>
  rw [h1, exc_bind_ok] at h
  try dsimp only [] at h
  cases h2 : pyGet s "operation" with
  | error e => rw [h2] at h; exact absurd h (errNeOk _ _)
  | ok v2 =>
  rw [h2, exc_bind_ok] at h
  try dsimp only [] at h
  cases h3 : pyGet s "left" with
  | error e => rw [h3] at h; exact absurd h (errNeOk _ _)
  | ok v3 =>
  rw [h3, exc_bind_ok] at h
  try dsimp only [] at h
  cases h4 : pyGet s "right" with
  | error e => rw [h4] at h; exact absurd h (errNeOk _ _)
  | ok v4 =>
  rw [h4, exc_bind_ok] at h
  try dsimp only [] at h
  cases h5 : pyGet (orDefault v3 (.dict [])) "column" with
  | error e => rw [h5] at h; exact absurd h (errNeOk _ _)
  | ok v5 =>
  rw [h5, exc_bind_ok] at h
  try dsimp only [] at h
  cases h6 : pyGet (orDefault v4 (.dict [])) "column" with
  | error e => rw [h6] at h; exact absurd h (errNeOk _ _)
  | ok v6 =>
  rw [h6, exc_bind_ok] at h
  try dsimp only [] at h
  cases h7 : pyGet (orDefault v3 (.dict [])) "value" with
  | error e => rw [h7] at h; exact absurd h (errNeOk _ _)
  | ok v7 =>
  rw [h7, exc_bind_ok] at h
  try dsimp only [] at h
  cases h8 : pyGet (orDefault v4 (.dict [])) "value" with
  | error e => rw [h8] at h; exact absurd h (errNeOk _ _)
  | ok v8 =>
  rw [h8, exc_bind_ok] at h
  repeat split at h
  all_goals first
    | (rw [ok_pair_eq h]; exact Or.inl rfl)
    | (rw [ok_pair_eq h]; exact Or.inr ⟨_, rfl, ne_trim1 _ _ (by decide) (by decide)⟩)
    | (rw [ok_pair_eq h]; exact Or.inr ⟨_, rfl, ne_trim2 _ _ _ (by decide) (by decide)⟩)
    | (rw [ok_pair_eq h]; exact Or.inr ⟨_, rfl, ne_trim3 _ _ _ _ (by decide) (by decide)⟩)
    | (rw [ok_pair_eq h]; exact Or.inr ⟨_, rfl, ne_trim4 _ _ _ _ _ (by decide) (by decide)⟩)
    | (rw [ok_pair_eq h]; exact Or.inr ⟨_, rfl, ne_trim5 _ _ _ _ _ _ (by decide) (by decide)⟩)
    | (rw [ok_pair_eq h]; exact Or.inr ⟨_, rfl, by decide⟩)

theorem applyGroupby_logs (t : Table) (s : PyVal) (r : Table × List String)
    (h : applyGroupby t s = .ok r) :
    r.2 = [] ∨ ∃ m, r.2 = [m] ∧ m ≠ trimMsg := by
  unfold applyGroupby at h
  try dsimp only [] at h
  cases h1 : pyGet s "by" with
  | error e => rw [h1] at h; exact absurd h (errNeOk _ _)
  | ok v1 =>
  rw [h1, exc_bind_ok] at h
  try dsimp only [] at h
  cases h2 : pyIter (orDefault v1 (.list [])) with
  | error e => rw [h2] at h; exact absurd h (errNeOk _ _)
  | ok byList =>
  rw [h2, exc_bind_ok] at h
  try dsimp only [] at h
  cases h3 : pyGet s "aggregations" with
  | error e => rw [h3] at h; exact absurd h (errNeOk _ _)
  | ok v3 =>
  rw [h3, exc_bind_ok] at h
  try dsimp only [] at h
  cases h4 : pyIter (orDefault v3 (.list [])) with
  | error e => rw [h4] at h; exact absurd h (errNeOk _ _)
  | ok aggs =>
  rw [h4, exc_bind_ok] at h
  try dsimp only [] at h
  cases h5 : aggs.foldlM (aggConfFold t) [] with
  | error e => rw [h5] at h; exact absurd h (errNeOk _ _)
  | ok am =>
  rw [h5, exc_bind_ok] at h
  try dsimp only [] at h
  split at h
  · rename_i hcond
    try dsimp only [] at h
    cases h6 : groupbyAgg t _ am with
    | error e => rw [h6] at h; exact absurd h (errNeOk _ _)
    | ok grouped =>
        rw [h6, exc_bind_ok] at h
        try dsimp only [] at h
        rw [ok_pair_eq h]
        exact Or.inr ⟨_, rfl, ne_trim3 _ _ _ _ (by decide) (by decide)⟩
  · rw [ok_pair_eq h]
    exact Or.inl rfl

theorem applySort_logs (t : Table) (s : PyVal) (r : Table × List String)
    (h : applySort t s = .ok r) :
    r.2 = [] ∨ ∃ m, r.2 = [m] ∧ m ≠ trimMsg := by
  unfold applySort at h
  try dsimp only [] at h
  cases h1 : pyGet s "by" with
  | error e => rw [h1] at h; exact absurd h (errNeOk _ _)
  | ok v1 =>
  rw [h1, exc_bind_ok] at h
  try dsimp only [] at h
  cases h2 : pyIter (orDefault v1 (.list [])) with
  | error e => rw [h2] at h; exact absurd h (errNeOk _ _)
  | ok byList =>
  rw [h2, exc_bind_ok] at h
  try dsimp only [] at h
  cases h3 : pyGetD s "ascending" (.bool false) with
  | error e => rw [h3] at h; exact absurd h (errNeOk _ _)
  | ok asc =>
  rw [h3, exc_bind_ok] at h
  repeat split at h
  all_goals first
    | (rw [ok_pair_eq h]; exact Or.inl rfl)
    | (rw [ok_pair_eq h]; exact Or.inr ⟨_, rfl, ne_trim1 _ _ (by decide) (by decide)⟩)
    | (rw [ok_pair_eq h]; exact Or.inr ⟨_, rfl, ne_trim2 _ _ _ (by decide) (by decide)⟩)
    | (rw [ok_pair_eq h]; exact Or.inr ⟨_, rfl, ne_trim3 _ _ _ _ (by decide) (by decide)⟩)
    | (rw [ok_pair_eq h]; exact Or.inr ⟨_, rfl, ne_trim4 _ _ _ _ _ (by decide) (by decide)⟩)
    | (rw [ok_pair_eq h]; exact Or.inr ⟨_, rfl, ne_trim5 _ _ _ _ _ _ (by decide) (by decide)⟩)
    | (rw [ok_pair_eq h]; exact Or.inr ⟨_, rfl, by decide⟩)

theorem applyTopk_logs (t : Table) (s : PyVal) (r : Table × List String)
    (h : applyTopk t s = .ok r) :
    r.2 = [] ∨ ∃ m, r.2 = [m] ∧ m ≠ trimMsg := by
  unfold applyTopk at h
  try dsimp only [] at h
  cases h1 : pyGetD s "k" (.int 5) with
  | error e => rw [h1] at h; exact absurd h (errNeOk _ _)
  | ok kV =>
  rw [h1, exc_bind_ok] at h
  try dsimp only [] at h
  cases h2 : pyInt kV with
  | error e => rw [h2] at h; exact absurd h (errNeOk _ _)
  | ok k =>
  rw [h2, exc_bind_ok] at h
  try dsimp only [] at h
  cases h3 : pyGet s "by" with
  | error e => rw [h3] at h; exact absurd h (errNeOk _ _)
  | ok v3 =>
  rw [h3, exc_bind_ok] at h
  repeat split at h
  all_goals first
    | (rw [ok_pair_eq h]; exact Or.inl rfl)
    | (rw [ok_pair_eq h]; exact Or.inr ⟨_, rfl, ne_trim1 _ _ (by decide) (by decide)⟩)
    | (rw [ok_pair_eq h]; exact Or.inr ⟨_, rfl, ne_trim2 _ _ _ (by decide) (by decide)⟩)
    | (rw [ok_pair_eq h]; exact Or.inr ⟨_, rfl, ne_trim3 _ _ _ _ (by decide) (by decide)⟩)
    | (rw [ok_pair_eq h]; exact Or.inr ⟨_, rfl, ne_trim4 _ _ _ _ _ (by decide) (by decide)⟩)
    | (rw [ok_pair_eq h]; exact Or.inr ⟨_, rfl, ne_trim5 _ _ _ _ _ _ (by decide) (by decide)⟩)
    | (rw [ok_pair_eq h]; exact Or.inr ⟨_, rfl, by decide⟩)

theorem applyRename_logs (t : Table) (s : PyVal) (r : Table × List String)
    (h : applyRename t s = .ok r) :
    r.2 = [] ∨ ∃ m, r.2 = [m] ∧ m ≠ trimMsg := by
  unfold applyRename at h
  try dsimp only [] at h
  cases h1 : pyGet s "mapping" with
  | error e => rw [h1] at h; exact absurd h (errNeOk _ _)
  | ok v1 =>
  rw [h1, exc_bind_ok] at h
  try dsimp only [] at h
  cases h2 : pyItems (orDefault v1 (.dict [])) with
  | error e => rw [h2] at h; exact absurd h (errNeOk _ _)
  | ok items =>
  rw [h2, exc_bind_ok] at h
  repeat split at h
  all_goals first
    | (rw [ok_pair_eq h]; exact Or.inl rfl)
    | (rw [ok_pair_eq h]; exact Or.inr ⟨_, rfl, ne_trim1 _ _ (by decide) (by decide)⟩)
    | (rw [ok_pair_eq h]; exact Or.inr ⟨_, rfl, ne_trim2 _ _ _ (by decide) (by decide)⟩)
    | (rw [ok_pair_eq h]; exact Or.inr ⟨_, rfl, ne_trim3 _ _ _ _ (by decide) (by decide)⟩)
    | (rw [ok_pair_eq h]; exact Or.inr ⟨_, rfl, ne_trim4 _ _ _ _ _ (by decide) (by decide)⟩)
    | (rw [ok_pair_eq h]; exact Or.inr ⟨_, rfl, ne_trim5 _ _ _ _ _ _ (by decide) (by decide)⟩)
    | (rw [ok_pair_eq h]; exact Or.inr ⟨_, rfl, by decide⟩)

theorem applyPivot_logs (t : Table) (s : PyVal) (r : Table × List String)
    (h : applyPivot t s = .ok r) :
    r.2 = [] ∨ ∃ m, r.2 = [m] ∧ m ≠ trimMsg := by
  unfold applyPivot at h
  try dsimp only [] at h
  cases h1 : pyGet s "index" with
  | error e => rw [h1] at h; exact absurd h (errNeOk _ _)
  | ok v1 =>
  rw [h1, exc_bind_ok] at h
  try dsimp only [] at h
  cases h2 : pyGet s "values" with
  | error e => rw [h2] at h; exact absurd h (errNeOk _ _)
  | ok v2 =>
  rw [h2, exc_bind_ok] at h
  try dsimp only [] at h
  cases h3 : pyGet s "columns" with
  | error e => rw [h3] at h; exact absurd h (errNeOk _ _)
  | ok v3 =>
  rw [h3, exc_bind_ok] at h
  try dsimp only [] at h
  cases h4 : pyGetD s "aggfunc" (.str "sum") with
  | error e => rw [h4] at h; exact absurd h (errNeOk _ _)
  | ok v4 =>
  rw [h4, exc_bind_ok] at h
  try dsimp only [] at h
  cases h5 : pyGet s "fill_value" with
  | error e => rw [h5] at h; exact absurd h (errNeOk _ _)
  | ok v5 =>
  rw [h5, exc_bind_ok] at h
  repeat split at h
  all_goals first
    | (rw [ok_pair_eq h]; exact Or.inl rfl)
    | (rw [ok_pair_eq h]; exact Or.inr ⟨_, rfl, ne_trim1 _ _ (by decide) (by decide)⟩)
    | (rw [ok_pair_eq h]; exact Or.inr ⟨_, rfl, ne_trim2 _ _ _ (by decide) (by decide)⟩)
    | (rw [ok_pair_eq h]; exact Or.inr ⟨_, rfl, ne_trim3 _ _ _ _ (by decide) (by decide)⟩)
    | (rw [ok_pair_eq h]; exact Or.inr ⟨_, rfl, ne_trim4 _ _ _ _ _ (by decide) (by decide)⟩)
    | (rw [ok_pair_eq h]; exact Or.inr ⟨_, rfl, ne_trim5 _ _ _ _ _ _ (by decide) (by decide)⟩)
    | (rw [ok_pair_eq h]; exact Or.inr ⟨_, rfl, by decide⟩)

theorem applyLimit_logs (t : Table) (s : PyVal) (r : Table × List String)
    (h : applyLimit t s = .ok r) :
    r.2 = [] ∨ ∃ m, r.2 = [m] ∧ m ≠ trimMsg := by
  unfold applyLimit at h
  try dsimp only [] at h
  cases h1 : pyGetD s "n" (.int 10) with
  | error e => rw [h1] at h; exact absurd h (errNeOk _ _)
  | ok nV =>
  rw [h1, exc_bind_ok] at h
  try dsimp only [] at h
  cases h2 : pyInt nV with
  | error e => rw [h2] at h; exact absurd h (errNeOk _ _)
  | ok n =>
  rw [h2, exc_bind_ok] at h
  repeat split at h
  all_goals first
    | (rw [ok_pair_eq h]; exact Or.inl rfl)
    | (rw [ok_pair_eq h]; exact Or.inr ⟨_, rfl, ne_trim1 _ _ (by decide) (by decide)⟩)
    | (rw [ok_pair_eq h]; exact Or.inr ⟨_, rfl, ne_trim2 _ _ _ (by decide) (by decide)⟩)
    | (rw [ok_pair_eq h]; exact Or.inr ⟨_, rfl, ne_trim3 _ _ _ _ (by decide) (by decide)⟩)
    | (rw [ok_pair_eq h]; exact Or.inr ⟨_, rfl, ne_trim4 _ _ _ _ _ (by decide) (by decide)⟩)
    | (rw [ok_pair_eq h]; exact Or.inr ⟨_, rfl, ne_trim5 _ _ _ _ _ _ (by decide) (by decide)⟩)
    | (rw [ok_pair_eq h]; exact Or.inr ⟨_, rfl, by decide⟩)

theorem applyDropna_logs (t : Table) (s : PyVal) (r : Table × List String)
    (h : applyDropna t s = .ok r) :
    r.2 = [] ∨ ∃ m, r.2 = [m] ∧ m ≠ trimMsg := by
  unfold applyDropna at h
  try dsimp only [] at h
  cases h1 : pyGet s "subset" with
  | error e => rw [h1] at h; exact absurd h (errNeOk _ _)
  | ok v1 =>
  rw [h1, exc_bind_ok] at h
  try dsimp only [] at h
  cases h2 : pyGetD s "how" (.str "any") with
  | error e => rw [h2] at h; exact absurd h (errNeOk _ _)
  | ok v2 =>
  rw [h2, exc_bind_ok] at h
  repeat split at h
  all_goals first
    | (rw [ok_pair_eq h]; exact Or.inl rfl)
    | (rw [ok_pair_eq h]; exact Or.inr ⟨_, rfl, ne_trim1 _ _ (by decide) (by decide)⟩)
    | (rw [ok_pair_eq h]; exact Or.inr ⟨_, rfl, ne_trim2 _ _ _ (by decide) (by decide)⟩)
    | (rw [ok_pair_eq h]; exact Or.inr ⟨_, rfl, ne_trim3 _ _ _ _ (by decide) (by decide)⟩)
    | (rw [ok_pair_eq h]; exact Or.inr ⟨_, rfl, ne_trim4 _ _ _ _ _ (by decide) (by decide)⟩)
    | (rw [ok_pair_eq h]; exact Or.inr ⟨_, rfl, ne_trim5 _ _ _ _ _ _ (by decide) (by decide)⟩)
    | (rw [ok_pair_eq h]; exact Or.inr ⟨_, rfl, by decide⟩)

theorem applyFillna_logs (t : Table) (s : PyVal) (r : Table × List String)
    (h : applyFillna t s = .ok r) :
    r.2 = [] ∨ ∃ m, r.2 = [m] ∧ m ≠ trimMsg := by
  unfold applyFillna at h
  try dsimp only [] at h
  cases h1 : pyGet s "value" with
  | error e => rw [h1] at h; exact absurd h (errNeOk _ _)
  | ok v1 =>
  rw [h1, exc_bind_ok] at h
  repeat split at h
  all_goals first
    | (rw [ok_pair_eq h]; exact Or.inl rfl)
    | (rw [ok_pair_eq h]; exact Or.inr ⟨_, rfl, ne_trim1 _ _ (by decide) (by decide)⟩)
    | (rw [ok_pair_eq h]; exact Or.inr ⟨_, rfl, ne_trim2 _ _ _ (by decide) (by decide)⟩)
    | (rw [ok_pair_eq h]; exact Or.inr ⟨_, rfl, ne_trim3 _ _ _ _ (by decide) (by decide)⟩)
    | (rw [ok_pair_eq h]; exact Or.inr ⟨_, rfl, ne_trim4 _ _ _ _ _ (by decide) (by decide)⟩)
    | (rw [ok_pair_eq h]; exact Or.inr ⟨_, rfl, ne_trim5 _ _ _ _ _ _ (by decide) (by decide)⟩)
    | (rw [ok_pair_eq h]; exact Or.inr ⟨_, rfl, by decide⟩)

theorem applyCast_logs (t : Table) (s : PyVal) (r : Table × List String)
    (h : applyCast t s = .ok r) :
    r.2 = [] ∨ ∃ m, r.2 = [m] ∧ m ≠ trimMsg := by
  unfold applyCast at h
  try dsimp only [] at h
  cases h1 : pyGet s "types" with
  | error e => rw [h1] at h; exact absurd h (errNeOk _ _)
  | ok v1 =>
  rw [h1, exc_bind_ok] at h
  repeat split at h
  all_goals first
    | (rw [ok_pair_eq h]; exact Or.inl rfl)
    | (rw [ok_pair_eq h]; exact Or.inr ⟨_, rfl, ne_trim1 _ _ (by decide) (by decide)⟩)
    | (rw [ok_pair_eq h]; exact Or.inr ⟨_, rfl, ne_trim2 _ _ _ (by decide) (by decide)⟩)
    | (rw [ok_pair_eq h]; exact Or.inr ⟨_, rfl, ne_trim3 _ _ _ _ (by decide) (by decide)⟩)
    | (rw [ok_pair_eq h]; exact Or.inr ⟨_, rfl, ne_trim4 _ _ _ _ _ (by decide) (by decide)⟩)
    | (rw [ok_pair_eq h]; exact Or.inr ⟨_, rfl, ne_trim5 _ _ _ _ _ _ (by decide) (by decide)⟩)
    | (rw [ok_pair_eq h]; exact Or.inr ⟨_, rfl, by decide⟩)

theorem applyDateParse_logs (t : Table) (s : PyVal) (r : Table × List String)
    (h : applyDateParse t s = .ok r) :
    r.2 = [] ∨ ∃ m, r.2 = [m] ∧ m ≠ trimMsg := by
  unfold applyDateParse at h
  try dsimp only [] at h
  cases h1 : pyGet s "columns" with
  | error e => rw [h1] at h; exact absurd h (errNeOk _ _)
  | ok v1 =>
  rw [h1, exc_bind_ok] at h
  try dsimp only [] at h
  cases h2 : pyIter (orDefault v1 (.list [])) with
  | error e => rw [h2] at h; exact absurd h (errNeOk _ _)
  | ok cols =>
  rw [h2, exc_bind_ok] at h
  repeat split at h
  all_goals first
    | (rw [ok_pair_eq h]; exact Or.inl rfl)
    | (rw [ok_pair_eq h]; exact Or.inr ⟨_, rfl, ne_trim1 _ _ (by decide) (by decide)⟩)
    | (rw [ok_pair_eq h]; exact Or.inr ⟨_, rfl, ne_trim2 _ _ _ (by decide) (by decide)⟩)
    | (rw [ok_pair_eq h]; exact Or.inr ⟨_, rfl, ne_trim3 _ _ _ _ (by decide) (by decide)⟩)
    | (rw [ok_pair_eq h]; exact Or.inr ⟨_, rfl, ne_trim4 _ _ _ _ _ (by decide) (by decide)⟩)
    | (rw [ok_pair_eq h]; exact Or.inr ⟨_, rfl, ne_trim5 _ _ _ _ _ _ (by decide) (by decide)⟩)
    | (rw [ok_pair_eq h]; exact Or.inr ⟨_, rfl, by decide⟩)

theorem applyDateTrunc_logs (t : Table) (s : PyVal) (r : Table × List String)
    (h : applyDateTrunc t s = .ok r) :
    r.2 = [] ∨ ∃ m, r.2 = [m] ∧ m ≠ trimMsg := by
  unfold applyDateTrunc at h
  try dsimp only [] at h
  cases h1 : pyGet s "column" with
  | error e => rw [h1] at h; exact absurd h (errNeOk _ _)
  | ok v1 =>
  rw [h1, exc_bind_ok] at h
  try dsimp only [] at h
  cases h2 : pyGetD s "freq" (.str "month") with
  | error e => rw [h2] at h; exact absurd h (errNeOk _ _)
  | ok v2 =>
  rw [h2, exc_bind_ok] at h
  repeat split at h
  all_goals first
    | (rw [ok_pair_eq h]; exact Or.inl rfl)
    | (rw [ok_pair_eq h]; exact Or.inr ⟨_, rfl, ne_trim1 _ _ (by decide) (by decide)⟩)
    | (rw [ok_pair_eq h]; exact Or.inr ⟨_, rfl, ne_trim2 _ _ _ (by decide) (by decide)⟩)
    | (rw [ok_pair_eq h]; exact Or.inr ⟨_, rfl, ne_trim3 _ _ _ _ (by decide) (by decide)⟩)
    | (rw [ok_pair_eq h]; exact Or.inr ⟨_, rfl, ne_trim4 _ _ _ _ _ (by decide) (by decide)⟩)
    | (rw [ok_pair_eq h]; exact Or.inr ⟨_, rfl, ne_trim5 _ _ _ _ _ _ (by decide) (by decide)⟩)
    | (rw [ok_pair_eq h]; exact Or.inr ⟨_, rfl, by decide⟩)

theorem applyWindowRank_logs (t : Table) (s : PyVal) (r : Table × List String)
    (h : applyWindowRank t s = .ok r) :
    r.2 = [] ∨ ∃ m, r.2 = [m] ∧ m ≠ trimMsg := by
  unfold applyWindowRank at h
  try dsimp only [] at h
  cases h1 : pyGet s "by" with
  | error e => rw [h1] at h; exact absurd h (errNeOk _ _)
  | ok v1 =>
  rw [h1, exc_bind_ok] at h
  try dsimp only [] at h
  cases h2 : pyGet s "partition_by" with
  | error e => rw [h2] at h; exact absurd h (errNeOk _ _)
  | ok v2 =>
  rw [h2, exc_bind_ok] at h
  try dsimp only [] at h
  cases h3 : pyIter (orDefault (wrapStr v2) (.list [])) with
  | error e => rw [h3] at h; exact absurd h (errNeOk _ _)
  | ok pbList =>
  rw [h3, exc_bind_ok] at h
  try dsimp only [] at h
  cases h4 : pyGet s "rank_column" with
  | error e => rw [h4] at h; exact absurd h (errNeOk _ _)
  | ok v4 =>
  rw [h4, exc_bind_ok] at h
  try dsimp only [] at h
  cases h5 : pyGetD s "ascending" (.bool false) with
  | error e => rw [h5] at h; exact absurd h (errNeOk _ _)
  | ok v5 =>
  rw [h5, exc_bind_ok] at h
  repeat split at h
  all_goals first
    | (rw [ok_pair_eq h]; exact Or.inl rfl)
    | (rw [ok_pair_eq h]; exact Or.inr ⟨_, rfl, ne_trim1 _ _ (by decide) (by decide)⟩)
    | (rw [ok_pair_eq h]; exact Or.inr ⟨_, rfl, ne_trim2 _ _ _ (by decide) (by decide)⟩)
    | (rw [ok_pair_eq h]; exact Or.inr ⟨_, rfl, ne_trim3 _ _ _ _ (by decide) (by decide)⟩)
    | (rw [ok_pair_eq h]; exact Or.inr ⟨_, rfl, ne_trim4 _ _ _ _ _ (by decide) (by decide)⟩)
    | (rw [ok_pair_eq h]; exact Or.inr ⟨_, rfl, ne_trim5 _ _ _ _ _ _ (by decide) (by decide)⟩)
    | (rw [ok_pair_eq h]; exact Or.inr ⟨_, rfl, by decide⟩)

theorem applyCumsum_logs (t : Table) (s : PyVal) (r : Table × List String)
    (h : applyCumsum t s = .ok r) :
    r.2 = [] ∨ ∃ m, r.2 = [m] ∧ m ≠ trimMsg := by
  unfold applyCumsum at h
  try dsimp only [] at h
  cases h1 : pyGet s "column" with
  | error e => rw [h1] at h; exact absurd h (errNeOk _ _)
  | ok v1 =>
  rw [h1, exc_bind_ok] at h
  try dsimp only [] at h
  cases h2 : pyGet s "new_column" with
  | error e => rw [h2] at h; exact absurd h (errNeOk _ _)
  | ok v2 =>
  rw [h2, exc_bind_ok] at h
  try dsimp only [] at h
  cases h3 : pyGet s "by" with
  | error e => rw [h3] at h; exact absurd h (errNeOk _ _)
  | ok v3 =>
  rw [h3, exc_bind_ok] at h
  try dsimp only [] at h
  cases h4 : pyIter (orDefault (wrapStr v3) (.list [])) with
  | error e => rw [h4] at h; exact absurd h (errNeOk _ _)
  | ok byList =>
  rw [h4, exc_bind_ok] at h
  repeat split at h
  all_goals first
    | (rw [ok_pair_eq h]; exact Or.inl rfl)
    | (rw [ok_pair_eq h]; exact Or.inr ⟨_, rfl, ne_trim1 _ _ (by decide) (by decide)⟩)
    | (rw [ok_pair_eq h]; exact Or.inr ⟨_, rfl, ne_trim2 _ _ _ (by decide) (by decide)⟩)
    | (rw [ok_pair_eq h]; exact Or.inr ⟨_, rfl, ne_trim3 _ _ _ _ (by decide) (by decide)⟩)
    | (rw [ok_pair_eq h]; exact Or.inr ⟨_, rfl, ne_trim4 _ _ _ _ _ (by decide) (by decide)⟩)
    | (rw [ok_pair_eq h]; exact Or.inr ⟨_, rfl, ne_trim5 _ _ _ _ _ _ (by decide) (by decide)⟩)
    | (rw [ok_pair_eq h]; exact Or.inr ⟨_, rfl, by decide⟩)

theorem applyPctChange_logs (t : Table) (s : PyVal) (r : Table × List String)
    (h : applyPctChange t s = .ok r) :
    r.2 = [] ∨ ∃ m, r.2 = [m] ∧ m ≠ trimMsg := by
  unfold applyPctChange at h
  try dsimp only [] at h
  cases h1 : pyGet s "column" with
  | error e => rw [h1] at h; exact absurd h (errNeOk _ _)
  | ok v1 =>
  rw [h1, exc_bind_ok] at h
  try dsimp only [] at h
  cases h2 : pyGet s "new_column" with
  | error e => rw [h2] at h; exact absurd h (errNeOk _ _)
  | ok v2 =>
  rw [h2, exc_bind_ok] at h
  try dsimp only [] at h
  cases h3 : pyGetD s "periods" (.int 1) with
  | error e => rw [h3] at h; exact absurd h (errNeOk _ _)
  | ok v3 =>
  rw [h3, exc_bind_ok] at h
  try dsimp only [] at h
  cases h4 : pyInt v3 with
  | error e => rw [h4] at h; exact absurd h (errNeOk _ _)
  | ok periods =>
  rw [h4, exc_bind_ok] at h
  try dsimp only [] at h
  cases h5 : pyGet s "by" with
  | error e => rw [h5] at h; exact absurd h (errNeOk _ _)
  | ok v5 =>
  rw [h5, exc_bind_ok] at h
  try dsimp only [] at h
  cases h6 : pyIter (orDefault (wrapStr v5) (.list [])) with
  | error e => rw [h6] at h; exact absurd h (errNeOk _ _)
  | ok byList =>
  rw [h6, exc_bind_ok] at h
  repeat split at h
  all_goals first
    | (rw [ok_pair_eq h]; exact Or.inl rfl)
    | (rw [ok_pair_eq h]; exact Or.inr ⟨_, rfl, ne_trim1 _ _ (by decide) (by decide)⟩)
    | (rw [ok_pair_eq h]; exact Or.inr ⟨_, rfl, ne_trim2 _ _ _ (by decide) (by decide)⟩)
    | (rw [ok_pair_eq h]; exact Or.inr ⟨_, rfl, ne_trim3 _ _ _ _ (by decide) (by decide)⟩)
    | (rw [ok_pair_eq h]; exact Or.inr ⟨_, rfl, ne_trim4 _ _ _ _ _ (by decide) (by decide)⟩)
    | (rw [ok_pair_eq h]; exact Or.inr ⟨_, rfl, ne_trim5 _ _ _ _ _ _ (by decide) (by decide)⟩)
    | (rw [ok_pair_eq h]; exact Or.inr ⟨_, rfl, by decide⟩)

theorem applyValueCounts_logs (t : Table) (s : PyVal) (r : Table × List String)
    (h : applyValueCounts t s = .ok r) :
    r.2 = [] ∨ ∃ m, r.2 = [m] ∧ m ≠ trimMsg := by
  unfold applyValueCounts at h
  try dsimp only [] at h
  cases h1 : pyGet s "column" with
  | error e => rw [h1] at h; exact absurd h (errNeOk _ _)
  | ok v1 =>
  rw [h1, exc_bind_ok] at h
  try dsimp only [] at h
  cases h2 : pyGetD s "normalize" (.bool false) with
  | error e => rw [h2] at h; exact absurd h (errNeOk _ _)
  | ok v2 =>
  rw [h2, exc_bind_ok] at h
  try dsimp only [] at h
  cases h3 : pyGetD s "k" (.int 20) with
  | error e => rw [h3] at h; exact absurd h (errNeOk _ _)
  | ok v3 =>
  rw [h3, exc_bind_ok] at h
  try dsimp only [] at h
  cases h4 : pyInt v3 with
  | error e => rw [h4] at h; exact absurd h (errNeOk _ _)
  | ok top =>
  rw [h4, exc_bind_ok] at h
  repeat split at h
  all_goals first
    | (rw [ok_pair_eq h]; exact Or.inl rfl)
    | (rw [ok_pair_eq h]; exact Or.inr ⟨_, rfl, ne_trim1 _ _ (by decide) (by decide)⟩)
    | (rw [ok_pair_eq h]; exact Or.inr ⟨_, rfl, ne_trim2 _ _ _ (by decide) (by decide)⟩)
    | (rw [ok_pair_eq h]; exact Or.inr ⟨_, rfl, ne_trim3 _ _ _ _ (by decide) (by decide)⟩)
    | (rw [ok_pair_eq h]; exact Or.inr ⟨_, rfl, ne_trim4 _ _ _ _ _ (by decide) (by decide)⟩)
    | (rw [ok_pair_eq h]; exact Or.inr ⟨_, rfl, ne_trim5 _ _ _ _ _ _ (by decide) (by decide)⟩)
    | (rw [ok_pair_eq h]; exact Or.inr ⟨_, rfl, by decide⟩)

theorem applyDedupe_logs (t : Table) (s : PyVal) (r : Table × List String)
    (h : applyDedupe t s = .ok r) :
    r.2 = [] ∨ ∃ m, r.2 = [m] ∧ m ≠ trimMsg := by
  unfold applyDedupe at h
  try dsimp only [] at h
  cases h1 : pyGet s "subset" with
  | error e => rw [h1] at h; exact absurd h (errNeOk _ _)
  | ok v1 =>
  rw [h1, exc_bind_ok] at h
  try dsimp only [] at h
  cases h2 : pyGetD s "keep" (.str "first") with
  | error e => rw [h2] at h; exact absurd h (errNeOk _ _)
  | ok v2 =>
  rw [h2, exc_bind_ok] at h
  repeat split at h
  all_goals first
    | (rw [ok_pair_eq h]; exact Or.inl rfl)
    | (rw [ok_pair_eq h]; exact Or.inr ⟨_, rfl, ne_trim1 _ _ (by decide) (by decide)⟩)
    | (rw [ok_pair_eq h]; exact Or.inr ⟨_, rfl, ne_trim2 _ _ _ (by decide) (by decide)⟩)
    | (rw [ok_pair_eq h]; exact Or.inr ⟨_, rfl, ne_trim3 _ _ _ _ (by decide) (by decide)⟩)
    | (rw [ok_pair_eq h]; exact Or.inr ⟨_, rfl, ne_trim4 _ _ _ _ _ (by decide) (by decide)⟩)
    | (rw [ok_pair_eq h]; exact Or.inr ⟨_, rfl, ne_trim5 _ _ _ _ _ _ (by decide) (by decide)⟩)
    | (rw [ok_pair_eq h]; exact Or.inr ⟨_, rfl, by decide⟩)

theorem applySample_logs (t : Table) (s : PyVal) (r : Table × List String)
    (h : applySample t s = .ok r) :
    r.2 = [] ∨ ∃ m, r.2 = [m] ∧ m ≠ trimMsg := by
  unfold applySample at h
  try dsimp only [] at h
  cases h1 : pyGet s "n" with
  | error e => rw [h1] at h; exact absurd h (errNeOk _ _)
  | ok v1 =>
  rw [h1, exc_bind_ok] at h
  try dsimp only [] at h
  cases h2 : pyGet s "frac" with
  | error e => rw [h2] at h; exact absurd h (errNeOk _ _)
  | ok v2 =>
  rw [h2, exc_bind_ok] at h
  try dsimp only [] at h
  cases h3 : pyGet s "random_state" with
  | error e => rw [h3] at h; exact absurd h (errNeOk _ _)
  | ok v3 =>
  rw [h3, exc_bind_ok] at h
  repeat split at h
  all_goals first
    | (rw [ok_pair_eq h]; exact Or.inl rfl)
    | (rw [ok_pair_eq h]; exact Or.inr ⟨_, rfl, ne_trim1 _ _ (by decide) (by decide)⟩)
    | (rw [ok_pair_eq h]; exact Or.inr ⟨_, rfl, ne_trim2 _ _ _ (by decide) (by decide)⟩)
    | (rw [ok_pair_eq h]; exact Or.inr ⟨_, rfl, ne_trim3 _ _ _ _ (by decide) (by decide)⟩)
    | (rw [ok_pair_eq h]; exact Or.inr ⟨_, rfl, ne_trim4 _ _ _ _ _ (by decide) (by decide)⟩)
    | (rw [ok_pair_eq h]; exact Or.inr ⟨_, rfl, ne_trim5 _ _ _ _ _ _ (by decide) (by decide)⟩)
    | (rw [ok_pair_eq h]; exact Or.inr ⟨_, rfl, by decide⟩)

theorem applyStep_logs (t : Table) (s : PyVal) (r : Table × List String)
    (h : applyStep t s = .ok r) :
    r.2 = [] ∨ ∃ m, r.2 = [m] ∧ m ≠ trimMsg := by
  unfold applyStep at h
  try dsimp only [] at h
  cases h0 : pyGetD s "op" (.str "") with
  | error e => rw [h0] at h; exact absurd h (errNeOk _ _)
  | ok opV =>
  rw [h0, exc_bind_ok] at h
  unfold applyStepTag at h
  by_cases c1 : pyLower (pyStr opV) = "filter"
  · rw [if_pos c1] at h; exact applyFilter_logs t s r h
  rw [if_neg c1] at h
  by_cases c2 : pyLower (pyStr opV) = "select"
  · rw [if_pos c2] at h; exact applySelect_logs t s r h
  rw [if_neg c2] at h
  by_cases c3 : pyLower (pyStr opV) = "compute"
  · rw [if_pos c3] at h; exact applyCompute_logs t s r h
  rw [if_neg c3] at h
  by_cases c4 : pyLower (pyStr opV) = "groupby_agg"
  · rw [if_pos c4] at h; exact applyGroupby_logs t s r h
  rw [if_neg c4] at h
  by_cases c5 : pyLower (pyStr opV) = "sort"
  · rw [if_pos c5] at h; exact applySort_logs t s r h
  rw [if_neg c5] at h
  by_cases c6 : pyLower (pyStr opV) = "topk"
  · rw [if_pos c6] at h; exact applyTopk_logs t s r h
  rw [if_neg c6] at h
  by_cases c7 : pyLower (pyStr opV) = "rename"
  · rw [if_pos c7] at h; exact applyRename_logs t s r h
  rw [if_neg c7] at h
  by_cases c8 : pyLower (pyStr opV) = "pivot"
  · rw [if_pos c8] at h; exact applyPivot_logs t s r h
  rw [if_neg c8] at h
  by_cases c9 : pyLower (pyStr opV) = "limit"
  · rw [if_pos c9] at h; exact applyLimit_logs t s r h
  rw [if_neg c9] at h
  by_cases c10 : pyLower (pyStr opV) = "dropna"
  · rw [if_pos c10] at h; exact applyDropna_logs t s r h
  rw [if_neg c10] at h
  by_cases c11 : pyLower (pyStr opV) = "fillna"
  · rw [if_pos c11] at h; exact applyFillna_logs t s r h
  rw [if_neg c11] at h
  by_cases c12 : pyLower (pyStr opV) = "cast"
  · rw [if_pos c12] at h; exact applyCast_logs t s r h
  rw [if_neg c12] at h
  by_cases c13 : pyLower (pyStr opV) = "date_parse"
  · rw [if_pos c13] at h; exact applyDateParse_logs t s r h
  rw [if_neg c13] at h
  by_cases c14 : pyLower (pyStr opV) = "date_trunc"
  · rw [if_pos c14] at h; exact applyDateTrunc_logs t s r h
  rw [if_neg c14] at h
  by_cases c15 : pyLower (pyStr opV) = "window_rank"
  · rw [if_pos c15] at h; exact applyWindowRank_logs t s r h
  rw [if_neg c15] at h
  by_cases c16 : pyLower (pyStr opV) = "cumsum"
  · rw [if_pos c16] at h; exact applyCumsum_logs t s r h
  rw [if_neg c16] at h
  by_cases c17 : pyLower (pyStr opV) = "pct_change"
  · rw [if_pos c17] at h; exact applyPctChange_logs t s r h
  rw [if_neg c17] at h
  by_cases c18 : pyLower (pyStr opV) = "value_counts"
  · rw [if_pos c18] at h; exact applyValueCounts_logs t s r h
  rw [if_neg c18] at h
  by_cases c19 : pyLower (pyStr opV) = "dedupe"
  · rw [if_pos c19] at h; exact applyDedupe_logs t s r h
  rw [if_neg c19] at h
  by_cases c20 : pyLower (pyStr opV) = "sample"
  · rw [if_pos c20] at h; exact applySample_logs t s r h
  rw [if_neg c20] at h
  rw [ok_pair_eq h]
  exact Or.inl rfl

/-- Folding one step never puts the finalize trim message into the log:
the step's own messages are all distinct from it. -/
theorem stepFold_no_trim (p : Table × List String) (s : PyVal)
    (r : Table × List String) (h : stepFold p s = .ok r)
    (hp : trimMsg ∉ p.2) : trimMsg ∉ r.2 := by
  unfold stepFold at h
  cases h1 : applyStep p.1 s with
  | error e => rw [h1] at h; exact absurd h (errNeOk _ _)
  | ok q =>
  rw [h1, exc_bind_ok] at h
  obtain ⟨t2, ls⟩ := q
  dsimp only [] at h
  have h2 : r.2 = p.2 ++ ls := ok_pair_eq h
  rcases applyStep_logs p.1 s (t2, ls) h1 with h3 | ⟨m, h3, h4⟩ <;>
    dsimp only [] at h3
  · rw [h2, h3, List.append_nil]; exact hp
  · rw [h2, h3]
    intro hmem
    rcases List.mem_append.mp hmem with hl | hr
    · exact hp hl
    · rcases List.mem_singleton.mp hr with h5
      exact h4 h5.symm

/-- The steps fold, started from a trim-free log, ends with a trim-free
log. -/
theorem foldl_no_trim (steps : List PyVal) :
    ∀ (p r : Table × List String), List.foldlM stepFold p steps = .ok r →
      trimMsg ∉ p.2 → trimMsg ∉ r.2 := by
  induction steps with
  | nil =>
      intro p r h hp
      simp only [List.foldlM_nil] at h
      injection h with h2
      rw [← h2]
      exact hp
  | cons s ss ih =>
      intro p r h hp
      rw [List.foldlM_cons] at h
      cases h1 : stepFold p s with
      | error e => rw [h1] at h; exact absurd h (errNeOk _ _)
      | ok q =>
          rw [h1, exc_bind_ok] at h
          exact ih q r h (stepFold_no_trim p s q h1 hp)

/-- The steps loop never emits the trim message; only finalize does. -/
theorem runSteps_no_trim (start : Table) (steps : List PyVal) (t : Table)
    (logs : List String) (h : runSteps start steps = .ok (t, logs)) :
    trimMsg ∉ logs := by
  unfold runSteps at h
  have h2 := foldl_no_trim steps (start, []) (t, logs) h (by simp)
  exact h2

/-- C5.  Finalize width cap: when the table after the last operation has
more than 50 columns, the plan returns its first 50 columns (exactly 50)
and the log gains the truncation entry; when it has at most 50 columns the
table and log are returned unchanged and the log holds no truncation
entry. -/
theorem C5_width_cap (df : Table) (steps : List PyVal) (w : Table)
    (logs : List String)
    (h : runSteps (smart_coerce_dataframe df) steps = .ok (w, logs)) :
    (w.header.length > 50 →
        execute_analysis_plan df (planOf steps) =
          .ok (truncCols w, logs ++ [trimMsg]) ∧
        (truncCols w).header.length = 50 ∧
        (truncCols w).header = w.header.take 50 ∧
        trimMsg ∈ logs ++ [trimMsg]) ∧
    (w.header.length ≤ 50 →
        execute_analysis_plan df (planOf steps) = .ok (w, logs) ∧
        trimMsg ∉ logs) := by
  constructor
  · intro hgt
    refine ⟨?_, ?_, rfl, by simp⟩
    · rw [execute_eq_runSteps, h]
      show (if w.header.length > 50 then
              pure (truncCols w, logs ++ [trimMsg]) else pure (w, logs)) = _
      rw [if_pos hgt]
      rfl
    · show (w.header.take 50).length = 50
      rw [List.length_take]
      omega
  · intro hle
    constructor
    · rw [execute_eq_runSteps, h]
      show (if w.header.length > 50 then
              pure (truncCols w, logs ++ [trimMsg]) else pure (w, logs)) = _
      rw [if_neg (by omega)]
      rfl
    · exact runSteps_no_trim _ _ _ _ h

/-- Witness for C5 on a concrete table and the empty plan. -/
theorem C5_width_cap_witness :
    execute_analysis_plan exNum (planOf []) =
      .ok (smart_coerce_dataframe exNum, ([] : List String)) ∧
    trimMsg ∉ ([] : List String) :=
  (C5_width_cap exNum [] (smart_coerce_dataframe exNum) [] rfl).2 (by decide)

/-- C7 (amended).  Each step appends at most one log entry, and a step
with an unrecognised op tag appends none; a log entry does not certify
that the step altered the table (the date_parse and sample branches can
log while returning the table unchanged). -/
theorem C7_at_most_one_log :
    (∀ (t : Table) (s : PyVal) (r : Table × List String),
        applyStep t s = .ok r → r.2.length ≤ 1) ∧
    (∀ (t : Table) (kvs : List (String × PyVal)),
        recognizedOp (stepTag (.dict kvs)) = false →
        applyStep t (.dict kvs) = .ok (t, [])) := by
  constructor
  · intro t s r h
    rcases applyStep_logs t s r h with h1 | ⟨m, h1, _⟩ <;> rw [h1] <;>
      simp [List.length_singleton]
  · intro t kvs h
    exact applyStep_unknown_noop t kvs h

/-- Witness for C7: a date_parse step whose column misses still logs once;
an unrecognised tag logs nothing. -/
theorem C7_at_most_one_log_witness :
    (["date_parse [" ++ sq ++ "zzz" ++ sq ++ "]"] : List String).length ≤ 1 ∧
    applyStep exNum (.dict [("op", .str "frobnicate2")]) = .ok (exNum, []) :=
  ⟨C7_at_most_one_log.1 exNum dateParseMissStep
      (exNum, ["date_parse [" ++ sq ++ "zzz" ++ sq ++ "]"]) rfl,
   C7_at_most_one_log.2 exNum [("op", .str "frobnicate2")] (by decide)⟩

/-- Zipping a row list with its all-true mask filters nothing. -/
theorem zip_true_filter (l : List (List Cell)) :
    (((l.zip (l.map (fun _ => true))).filter (fun p => p.2)).map (fun p => p.1)) = l := by
  induction l with
  | nil => rfl
  | cons a as ih =>
      simp only [List.map_cons, List.zip_cons_cons, List.filter_cons_of_pos, List.map_cons]
      rw [ih]

/-- df of an all-true mask is df. -/
theorem filterRows_all_true (t : Table) :
    filterRows t (t.rows.map (fun _ => true)) = t := by
  unfold filterRows
  cases t with
  | mk header rows =>
      rw [Table.mk.injEq]
      exact ⟨rfl, zip_true_filter rows⟩

/-- An unresolvable condition is dropped: the conditions loop continues
with the mask unchanged. -/
theorem filterCondFold_skip (working : Table) (mask : List Bool)
    (kvs : List (String × PyVal))
    (h : condUnresolvable working (.dict kvs) = true) :
    filterCondFold working mask (.dict kvs) = .ok mask := by
  unfold filterCondFold
  simp only [pyGet_dict, pyGetD_dict, exc_bind_ok]
  try dsimp only []
  have hc : ¬ (optTruthy (resolve_column working (pyStr (fieldOf (.dict kvs) "column"))) = true ∧
      ((colNames working).contains
        ((resolve_column working (pyStr (fieldOf (.dict kvs) "column"))).getD "")) = true) := by
    intro hc
    rw [condUnresolvable] at h
    rw [hc.1, hc.2] at h
    simp at h
  rw [if_pos hc]
  rfl

/-- Conditions that all fail to resolve leave any mask alone. -/
theorem condFold_all_skip (working : Table) (cs : List PyVal)
    (h : cs.all (fun c => isDictV c && condUnresolvable working c) = true) :
    ∀ mask, cs.foldlM (filterCondFold working) mask = .ok mask := by
  induction cs with
  | nil => intro mask; rfl
  | cons c cs ih =>
      intro mask
      rw [List.all_cons, Bool.and_eq_true] at h
      obtain ⟨h1, h2⟩ := h
      rw [Bool.and_eq_true] at h1
      obtain ⟨hd, hu⟩ := h1
      cases c
      case dict kvs =>
        rw [List.foldlM_cons, filterCondFold_skip working mask kvs hu, exc_bind_ok]
        exact ih h2 mask
      all_goals exact Bool.noConfusion hd

/-- pyIter after the `or []` default on a list field yields the list. -/
theorem pyIter_orDefault_list (cs : List PyVal) :
    pyIter (orDefault (.list cs) (.list [])) = .ok cs := by
  unfold orDefault
  by_cases hcs : pyTruthy (.list cs) = true
  · rw [if_pos hcs]; rfl
  · rw [if_neg hcs]
    have hnil : cs = [] := by
      simp [pyTruthy, List.isEmpty_iff] at hcs
      exact hcs
    rw [hnil]
    rfl

/-- C6 (amended).  A filter condition on an unresolvable column is dropped
(its mask contribution is all-True), so a filter whose conditions all fail
to resolve returns the table unchanged; but a sort whose keys all fail to
resolve does not keep the row order: the branch falls back to sorting by
every column of the table. -/
theorem C6_unresolved_column_skips :
    (∀ (working : Table) (mask : List Bool) (kvs : List (String × PyVal)),
        condUnresolvable working (.dict kvs) = true →
        filterCondFold working mask (.dict kvs) = .ok mask) ∧
    (∀ (working : Table) (kvs : List (String × PyVal)) (cs : List PyVal),
        fieldOf (.dict kvs) "conditions" = .list cs →
        cs.all (fun c => isDictV c && condUnresolvable working c) = true →
        applyFilter working (.dict kvs) =
          .ok (working,
            ["filter rows -> " ++ toString working.rows.length ++ " rows"])) ∧
    (∀ (working : Table) (kvs : List (String × PyVal)) (bs : List PyVal),
        fieldOf (.dict kvs) "by" = .list bs →
        fieldOfD (.dict kvs) "ascending" (.bool false) = .bool false →
        bs.all (fun c => !(optTruthy (resolve_column working (pyStr c)))) = true →
        applySort working (.dict kvs) =
          (match sortValues working (colNames working) (.bool false) with
           | .ok sorted => .ok (sorted,
               ["sort by " ++ pyRepr (.list ((colNames working).map PyVal.str)) ++
                " asc=" ++ pyStr (.bool false)])
           | .error _ => .ok (working, []))) := by
  refine ⟨filterCondFold_skip, ?_, ?_⟩
  · intro working kvs cs hf hall
    unfold applyFilter
    rw [pyGet_dict, exc_bind_ok, hf]
    rw [pyIter_orDefault_list, exc_bind_ok]
    try dsimp only []
    rw [condFold_all_skip working cs hall, exc_bind_ok]
    try dsimp only []
    rw [filterRows_all_true]
    rfl
  · intro working kvs bs hf hasc hall
    unfold applySort
    rw [pyGet_dict, exc_bind_ok, hf]
    rw [pyIter_orDefault_list, exc_bind_ok]
    try dsimp only []
    rw [pyGetD_dict, hasc, exc_bind_ok]
    try dsimp only []
    have hkept : bs.filter (fun c => optTruthy (resolve_column working (pyStr c))) = [] := by
      rw [List.filter_eq_nil_iff]
      intro a ha
      have h2 := List.all_eq_true.mp hall a ha
      simp only [Bool.not_eq_true'] at h2
      simp [h2]
    rw [hkept]
    simp only [List.map_nil, List.filterMap_nil, List.isEmpty_nil, if_true]
    rfl

/-- The nlargest fold of get_close_matches returns the seed or a member of
the list. -/
theorem foldBest_mem (word : String) (l : List String) :
    ∀ (acc : Option String) (b : String),
      (l.foldl (fun best x =>
        match best with
        | some bb =>
            if seqRatio word x > seqRatio word bb ∨
               (seqRatio word x = seqRatio word bb ∧ strGtPy x bb) then some x else some bb
        | Option.none => some x) acc) = some b →
      (acc = some b ∨ b ∈ l) := by
  induction l with
  | nil => intro acc b h; exact Or.inl h
  | cons x xs ih =>
      intro acc b h
      rw [List.foldl_cons] at h
      rcases ih _ b h with h2 | h2
      · cases acc with
        | none =>
            injection h2 with h3
            exact Or.inr (h3 ▸ List.mem_cons_self x xs)
        | some bb =>
            dsimp only [] at h2
            split at h2
            · injection h2 with h3
              exact Or.inr (h3 ▸ List.mem_cons_self x xs)
            · injection h2 with h3
              exact Or.inl (by rw [h3])
      · exact Or.inr (List.mem_cons_of_mem x h2)

/-- get_close_matches(n=1) only returns a candidate at or above the
cutoff. -/
theorem getCloseMatches1_sound (word : String) (poss : List String) (cutoff : Rat)
    (m : String) (h : getCloseMatches1 word poss cutoff = some m) :
    m ∈ poss ∧ cutoff ≤ seqRatio word m := by
  unfold getCloseMatches1 at h
  try dsimp only [] at h
  rcases foldBest_mem word _ Option.none m h with h2 | h2
  · exact absurd h2 (by simp)
  · rcases List.mem_filter.mp h2 with ⟨hmem, hcut⟩
    exact ⟨hmem, of_decide_eq_true hcut⟩

/-- list.index after lowercasing maps a lowered match back to a candidate
with that lowercase form. -/
theorem firstIdx_map_lower (cands : List String) (m : String)
    (h : m ∈ cands.map pyLower) :
    ∃ c, cands.get? (firstIdx (cands.map pyLower) m) = some c ∧ pyLower c = m := by
  induction cands with
  | nil => exact absurd h (by simp)
  | cons c cs ih =>
      rw [List.map_cons] at h
      by_cases hc : pyLower c = m
      · refine ⟨c, ?_, hc⟩
        show (c :: cs).get? (if pyLower c = m then 0 else firstIdx (cs.map pyLower) m + 1) = some c
        rw [if_pos hc]
        rfl
      · have hm : m ∈ cs.map pyLower := by
          rcases List.mem_cons.mp h with h3 | h3
          · exact absurd h3.symm hc
          · exact h3
        obtain ⟨c2, hget, hlow⟩ := ih hm
        refine ⟨c2, ?_, hlow⟩
        show (c :: cs).get? (if pyLower c = m then 0 else firstIdx (cs.map pyLower) m + 1) = some c2
        rw [if_neg hc]
        exact hget

/-- The fuzzy tier only answers with a real column whose lowered form is
within the 0.8 cutoff of the lowered request. -/
theorem fuzzyResolve_bound (t : Table) (name c : String)
    (h : fuzzyResolve t name = some c) :
    c ∈ colNames t ∧ 4 / 5 ≤ seqRatio (pyLower name) (pyLower c) := by
  unfold fuzzyResolve at h
  try dsimp only [] at h
  cases hm : getCloseMatches1 (pyLower name) ((colNames t).map pyLower) (4 / 5) with
  | none => rw [hm] at h; exact absurd h (by simp)
  | some m =>
      rw [hm] at h
      dsimp only [] at h
      obtain ⟨hmem, hrat⟩ := getCloseMatches1_sound _ _ _ _ hm
      obtain ⟨c2, hget, hlow⟩ := firstIdx_map_lower (colNames t) m hmem
      rw [hget] at h
      injection h with h3
      subst h3
      exact ⟨List.get?_mem hget, by rw [hlow]; exact hrat⟩

/-- dictUpsert preserves a per-entry invariant that the inserted pair
satisfies. -/
theorem dictUpsert_inv (P : String × String → Prop) (m : List (String × String))
    (k v : String) (hm : ∀ p ∈ m, P p) (hkv : P (k, v)) :
    ∀ p ∈ dictUpsert m k v, P p := by
  intro p hp
  unfold dictUpsert at hp
  split at hp
  · rcases List.mem_map.mp hp with ⟨q, hq, he⟩
    by_cases hqk : q.1 = k
    · rw [if_pos hqk] at he; rw [← he]; exact hkv
    · rw [if_neg hqk] at he; rw [← he]; exact hm q hq
  · rcases List.mem_append.mp hp with h | h
    · exact hm p h
    · rw [List.mem_singleton.mp h]
      exact hkv

/-- Every entry of the lowercase dict maps the lowered form of a real
column to that column. -/
theorem lowerDict_inv (cands0 : List String) (cands : List String)
    (hc : ∀ c ∈ cands, c ∈ cands0) :
    ∀ (m : List (String × String)),
      (∀ p ∈ m, pyLower p.2 = p.1 ∧ p.2 ∈ cands0) →
      ∀ p ∈ cands.foldl (fun m c => dictUpsert m (pyLower c) c) m,
        pyLower p.2 = p.1 ∧ p.2 ∈ cands0 := by
  induction cands with
  | nil => intro m hm p hp; exact hm p hp
  | cons c cs ih =>
      intro m hm p hp
      rw [List.foldl_cons] at hp
      refine ih (fun x hx => hc x (List.mem_cons_of_mem c hx)) _ ?_ p hp
      exact dictUpsert_inv _ m (pyLower c) c hm ⟨rfl, hc c (List.mem_cons_self c cs)⟩

/-- What the case-insensitive tier can answer: a real column whose lowered
form is the lowered request. -/
theorem ciLookup_sound (t : Table) (name ci : String)
    (h : ciLookup t name = some ci) :
    ci ∈ colNames t ∧ pyLower ci = pyLower name := by
  unfold ciLookup at h
  cases hf : ((colNames t).foldl (fun m c => dictUpsert m (pyLower c) c) []).find?
      (fun p => p.1 = (pyLower name)) with
  | none => rw [hf] at h; exact absurd h (by simp)
  | some p =>
      rw [hf] at h
      injection h with h2
      dsimp only [] at h2
      have hmem := List.mem_of_find?_eq_some hf
      have hpred := List.find?_some hf
      have hinv := lowerDict_inv (colNames t) (colNames t) (fun _ hx => hx) []
        (by intro q hq; exact absurd hq (by simp)) p hmem
      rw [h2] at hinv
      refine ⟨hinv.2, ?_⟩
      rw [hinv.1]
      exact of_decide_eq_true hpred

/-- C2.  Column resolution tiers in order: an exact name wins immediately;
otherwise a non-empty case-insensitive dict hit wins; otherwise the fuzzy
tier decides.  Every resolved name is a real column, and a non-exact
resolution is either a case-insensitive hit or a fuzzy hit whose similarity
ratio on lowered names is at least 0.8.  Concretely, "Reveneu" resolves to
"Revenue" but finds nothing next to "Region" alone. -/
theorem C2_resolve_column_tiers :
    (∀ (t : Table) (name : String), name ∈ colNames t →
        resolve_column t name = some name) ∧
    (∀ (t : Table) (name ci : String), name ∉ colNames t →
        ciLookup t name = some ci → ci ≠ "" →
        resolve_column t name = some ci) ∧
    (∀ (t : Table) (name : String), name ∉ colNames t →
        (ciLookup t name = Option.none ∨ ciLookup t name = some "") →
        resolve_column t name = fuzzyResolve t name) ∧
    (∀ (t : Table) (name c : String), resolve_column t name = some c →
        c ∈ colNames t ∧
        (name ∉ colNames t →
          pyLower c = pyLower name ∨
          4 / 5 ≤ seqRatio (pyLower name) (pyLower c))) ∧
    resolve_column exRevenue "Reveneu" = some "Revenue" ∧
    resolve_column exRegion "Reveneu" = Option.none := by
  have hdispatch : ∀ (t : Table) (name : String), name ∉ colNames t →
      resolve_column t name =
        (match ciLookup t name with
         | some ci => if ci ≠ "" then some ci else fuzzyResolve t name
         | Option.none => fuzzyResolve t name) := by
    intro t name hnot
    unfold resolve_column
    rw [if_neg hnot]
    rfl
  refine ⟨?_, ?_, ?_, ?_, by decide, by decide⟩
  · intro t name hmem
    unfold resolve_column
    rw [if_pos hmem]
  · intro t name ci hnot hci hne
    rw [hdispatch t name hnot, hci]
    dsimp only []
    rw [if_pos hne]
  · intro t name hnot hci
    rw [hdispatch t name hnot]
    rcases hci with h | h
    · rw [h]
    · rw [h]
      dsimp only []
      rw [if_neg (by simp)]
  · intro t name c h
    by_cases hnot : name ∈ colNames t
    · unfold resolve_column at h
      rw [if_pos hnot] at h
      injection h with h2
      exact ⟨h2 ▸ hnot, fun hn => absurd hnot hn⟩
    · rw [hdispatch t name hnot] at h
      cases hci : ciLookup t name with
      | some ci =>
          rw [hci] at h
          dsimp only [] at h
          by_cases hne : ci ≠ ""
          · rw [if_pos hne] at h
            injection h with h2
            subst h2
            obtain ⟨hmem, hlow⟩ := ciLookup_sound t name ci hci
            exact ⟨hmem, fun _ => Or.inl hlow⟩
          · rw [if_neg hne] at h
            obtain ⟨hmem, hrat⟩ := fuzzyResolve_bound t name c h
            exact ⟨hmem, fun _ => Or.inr hrat⟩
      | none =>
          rw [hci] at h
          dsimp only [] at h
          obtain ⟨hmem, hrat⟩ := fuzzyResolve_bound t name c h
          exact ⟨hmem, fun _ => Or.inr hrat⟩

/-- Witness for C2, exercising the exact and case-insensitive tiers on
concrete tables. -/
theorem C2_resolve_column_tiers_witness :
    resolve_column exRevenue "Revenue" = some "Revenue" ∧
    resolve_column exRevenue "revenue" = some "Revenue" :=
  ⟨C2_resolve_column_tiers.1 exRevenue "Revenue" (by decide),
   C2_resolve_column_tiers.2.1 exRevenue "revenue" "Revenue" (by decide)
     (by decide) (by decide)⟩

/-- getD at a just-set index (the index is in range). -/
theorem getD_set_self {α : Type} (l : List α) (i : Nat) (a d : α) (h : i < l.length) :
    (l.set i a).getD i d = a := by
  induction l generalizing i with
  | nil => simp at h
  | cons x xs ih =>
      cases i with
      | zero => rfl
      | succ i2 => exact ih i2 (by simpa using h)

/-- Setting column i leaves the cells read at another index j alone. -/
theorem rows_set_ne (rows : List (List Cell)) (cells : List Cell) (i j : Nat)
    (hne : j ≠ i) (hlen : cells.length = rows.length) :
    ((rows.zip cells).map (fun p => p.1.set i p.2)).map (fun r => r.getD j .na) =
      rows.map (fun r => r.getD j .na) := by
  induction rows generalizing cells with
  | nil => rfl
  | cons r rs ih =>
      cases cells with
      | nil => simp at hlen
      | cons c cs =>
          simp only [List.zip_cons_cons, List.map_cons]
          rw [getD_set_ne _ _ _ _ _ (Ne.symm hne)]
          rw [ih cs (by simpa using hlen)]

/-- Reading back the column just written (rows wide enough). -/
theorem rows_set_self (rows : List (List Cell)) (cells : List Cell) (i : Nat)
    (hlen : cells.length = rows.length) (hwf : ∀ r ∈ rows, i < r.length) :
    ((rows.zip cells).map (fun p => p.1.set i p.2)).map (fun r => r.getD i .na) =
      cells := by
  induction rows generalizing cells with
  | nil =>
      cases cells with
      | nil => rfl
      | cons c cs => simp at hlen
  | cons r rs ih =>
      cases cells with
      | nil => simp at hlen
      | cons c cs =>
          simp only [List.zip_cons_cons, List.map_cons]
          rw [getD_set_self _ _ _ _ (hwf r (List.mem_cons_self r rs))]
          rw [ih cs (by simpa using hlen) (fun x hx => hwf x (List.mem_cons_of_mem r hx))]

/-- setCol keeps the header width. -/
theorem setCol_header_length (t : Table) (i : Nat) (dt : Dtype) (cells : List Cell) :
    (setCol t i dt cells).header.length = t.header.length := by
  simp [setCol]

/-- setCol keeps the well-formedness of rows. -/
theorem setCol_rowsWF (t : Table) (i : Nat) (dt : Dtype) (cells : List Cell)
    (h : rowsWF t = true) : rowsWF (setCol t i dt cells) = true := by
  rw [rowsWF, List.all_eq_true] at h ⊢
  intro r hr
  simp only [setCol, List.mem_map] at hr
  obtain ⟨⟨p1, p2⟩, hp, he⟩ := hr
  have h1 := (List.mem_zip hp).1
  have h2 := of_decide_eq_true (h p1 h1)
  apply decide_eq_true
  rw [← he]
  show (p1.set i p2).length = (setCol t i dt cells).header.length
  rw [List.length_set, setCol_header_length]
  exact h2

/-- setCol does not change any other column's observable content. -/
theorem setCol_frame (t : Table) (i j : Nat) (dt : Dtype) (cells : List Cell)
    (hne : j ≠ i) (hlen : cells.length = t.rows.length) :
    colTriple (setCol t i dt cells) j = colTriple t j := by
  unfold colTriple colDtype colCells setCol
  rw [getD_set_ne _ _ _ _ _ (Ne.symm hne), rows_set_ne t.rows cells i j hne hlen]

/-- setCol at i writes exactly (old name, new dtype, new cells) there. -/
theorem setCol_self (t : Table) (i : Nat) (dt : Dtype) (cells : List Cell)
    (hi : i < t.header.length) (hwf : rowsWF t = true)
    (hlen : cells.length = t.rows.length) :
    colTriple (setCol t i dt cells) i = ((t.header.getD i ("", .obj)).1, dt, cells) := by
  have hwf2 : ∀ r ∈ t.rows, i < r.length := by
    intro r hr
    have h2 := of_decide_eq_true ((List.all_eq_true.mp hwf) r hr)
    omega
  unfold colTriple colDtype colCells setCol
  rw [getD_set_self _ _ _ _ hi, rows_set_self t.rows cells i hlen hwf2]

/-- The length facts feeding setCol's hypotheses. -/
theorem numericReplacement_length (s : List Cell) :
    (numericReplacement s).2.length = s.length := by
  unfold numericReplacement cleanedOf
  try dsimp only []
  split <;> simp

/-- Column read has one cell per row. -/
theorem colCells_length (t : Table) (i : Nat) : (colCells t i).length = t.rows.length := by
  simp [colCells]

/-- One coercion-loop iteration leaves every other column alone. -/
theorem coerceStep_frame (w : Table) (i j : Nat) (hne : j ≠ i) :
    colTriple (coerceStep w i) j = colTriple w j := by
  unfold coerceStep
  try dsimp only []
  split
  · split
    · exact setCol_frame w i j _ _ hne
        (by rw [numericReplacement_length, colCells_length])
    · split
      · exact setCol_frame w i j _ _ hne (by simp [colCells_length])
      · rfl
  · rfl

/-- One coercion-loop iteration keeps the header width. -/
theorem coerceStep_header_length (w : Table) (i : Nat) :
    (coerceStep w i).header.length = w.header.length := by
  unfold coerceStep
  try dsimp only []
  split
  · split
    · exact setCol_header_length _ _ _ _
    · split
      · exact setCol_header_length _ _ _ _
      · rfl
  · rfl

/-- One coercion-loop iteration keeps rows well-formed. -/
theorem coerceStep_rowsWF (w : Table) (i : Nat) (h : rowsWF w = true) :
    rowsWF (coerceStep w i) = true := by
  unfold coerceStep
  try dsimp only []
  split
  · split
    · exact setCol_rowsWF _ _ _ _ h
    · split
      · exact setCol_rowsWF _ _ _ _ h
      · exact h
  · exact h

/-- One coercion-loop iteration on column i realises the per-column
contract there. -/
theorem coerceStep_self (w : Table) (i : Nat) (hi : i < w.header.length)
    (hwf : rowsWF w = true) :
    colTriple (coerceStep w i) i = coerceSpec (colTriple w i) := by
  unfold coerceStep coerceSpec colTriple colDtype
  try dsimp only []
  split
  · split
    · exact setCol_self w i _ _ hi hwf
        (by rw [numericReplacement_length, colCells_length])
    · split
      · exact setCol_self w i _ _ hi hwf (by simp [colCells_length])
      · rfl
  · rfl

/-- Folding the loop over indices that avoid i leaves column i alone. -/
theorem foldSteps_frame (L : List Nat) (i : Nat) (hL : i ∉ L) :
    ∀ w : Table, colTriple (L.foldl coerceStep w) i = colTriple w i := by
  induction L with
  | nil => intro w; rfl
  | cons a as ih =>
      intro w
      have hL2 : i ∉ as := fun h => hL (List.mem_cons_of_mem a h)
      have hia : i ≠ a := fun h => hL (h ▸ List.mem_cons_self a as)
      rw [List.foldl_cons, ih hL2 (coerceStep w a)]
      exact coerceStep_frame w a i hia

/-- Folding the loop keeps the header width. -/
theorem foldSteps_headerlen (L : List Nat) :
    ∀ w : Table, (L.foldl coerceStep w).header.length = w.header.length := by
  induction L with
  | nil => intro w; rfl
  | cons a as ih =>
      intro w
      rw [List.foldl_cons, ih (coerceStep w a), coerceStep_header_length]

/-- Folding the loop keeps rows well-formed. -/
theorem foldSteps_wf (L : List Nat) :
    ∀ w : Table, rowsWF w = true → rowsWF (L.foldl coerceStep w) = true := by
  induction L with
  | nil => intro w h; exact h
  | cons a as ih =>
      intro w h
      rw [List.foldl_cons]
      exact ih (coerceStep w a) (coerceStep_rowsWF w a h)

/-- C3.  The coercion pass acts on each column independently and on column
i realises exactly the per-column contract: clean and numeric-parse a
text-like column, replace it when more than 0.6 of the values parse (and
skip date parsing), otherwise parse it as timestamps exactly when its name
contains date, time or timestamp case-insensitively; all other columns are
untouched. -/
theorem C3_coercion_per_column (t : Table) (i : Nat) (hi : i < t.header.length)
    (hwf : rowsWF t = true) :
    colTriple (smart_coerce_dataframe t) i = coerceSpec (colTriple t i) := by
  unfold smart_coerce_dataframe
  have hsplit : List.range t.header.length =
      (List.range' 0 i ++ [i]) ++ List.range' (i + 1) (t.header.length - i - 1) := by
    rw [List.range_eq_range']
    have h1 : List.range' 0 i ++ List.range' i (t.header.length - i) =
        List.range' 0 t.header.length := by
      have h2 := List.range'_append 0 i (t.header.length - i) 1
      simp only [Nat.one_mul, Nat.zero_add] at h2
      rw [h2]
      congr 1
      omega
    have h3 : List.range' i (t.header.length - i) =
        i :: List.range' (i + 1) (t.header.length - i - 1) := by
      have h4 : t.header.length - i = (t.header.length - i - 1) + 1 := by omega
      rw [h4, List.range'_succ, Nat.add_sub_cancel]
    rw [← h1, h3]
    simp
  rw [hsplit, List.foldl_append, List.foldl_append]
  have hnotin2 : i ∉ List.range' (i + 1) (t.header.length - i - 1) := by
    intro hmem
    have := List.mem_range'_1.mp hmem
    omega
  have hnotin1 : i ∉ List.range' 0 i := by
    intro hmem
    have := List.mem_range'_1.mp hmem
    omega
  rw [foldSteps_frame _ i hnotin2]
  simp only [List.foldl_cons, List.foldl_nil]
  have hwf1 : rowsWF ((List.range' 0 i).foldl coerceStep t) = true :=
    foldSteps_wf _ t hwf
  have hi1 : i < ((List.range' 0 i).foldl coerceStep t).header.length := by
    rw [foldSteps_headerlen]
    exact hi
  rw [coerceStep_self _ i hi1 hwf1, foldSteps_frame _ i hnotin1]

/-- Witness for C3 on the dirty mixed column (60% of two values are not
numeric, the name has no date hint: the column stays as it was). -/
theorem C3_coercion_per_column_witness :
    colTriple (smart_coerce_dataframe exMixed) 0 = coerceSpec (colTriple exMixed 0) :=
  C3_coercion_per_column exMixed 0 (by decide) (by decide)

/-- Witness for C6: a filter whose only condition names a missing column
passes the table through. -/
theorem C6_unresolved_column_skips_witness :
    applyFilter exNum (.dict [("op", .str "filter"), ("conditions", .list
        [.dict [("column", .str "zzz"), ("operator", .str ">"), ("value", .int 0)]])]) =
      .ok (exNum, ["filter rows -> 2 rows"]) :=
  C6_unresolved_column_skips.2.1 exNum
    [("op", .str "filter"), ("conditions", .list
        [.dict [("column", .str "zzz"), ("operator", .str ">"), ("value", .int 0)]])]
    [.dict [("column", .str "zzz"), ("operator", .str ">"), ("value", .int 0)]]
    rfl (by decide)

/-- A successful elementwise run certifies each element. -/
theorem mapM_elem_ok {α β : Type} (f : α → Except String β) :
    ∀ (l : List α) (m : List β), l.mapM f = .ok m → ∀ x ∈ l, ∃ b, f x = .ok b := by
  intro l
  induction l with
  | nil => intro m h x hx; exact absurd hx (by simp)
  | cons a as ih =>
      intro m h x hx
      rw [List.mapM_cons] at h
      cases hfa : f a with
      | error e => rw [hfa] at h; exact absurd h (errNeOk _ _)
      | ok b =>
          rw [hfa, exc_bind_ok] at h
          cases hms : as.mapM f with
          | error e => rw [hms] at h; exact absurd h (errNeOk _ _)
          | ok bs =>
              rcases List.mem_cons.mp hx with h2 | h2
              · exact ⟨b, h2 ▸ hfa⟩
              · exact ih bs hms x h2

/-- Elementwise success assembles to a successful run. -/
theorem mapM_ok_of_elems {α β : Type} (f : α → Except String β) :
    ∀ (l : List α), (∀ x ∈ l, ∃ b, f x = .ok b) → ∃ m, l.mapM f = .ok m := by
  intro l
  induction l with
  | nil => intro _; exact ⟨[], by rw [List.mapM_nil]; rfl⟩
  | cons a as ih =>
      intro h
      obtain ⟨b, hb⟩ := h a (List.mem_cons_self a as)
      obtain ⟨bs, hbs⟩ := ih (fun x hx => h x (List.mem_cons_of_mem a hx))
      exact ⟨b :: bs, by rw [List.mapM_cons, hb, exc_bind_ok, hbs, exc_bind_ok]; rfl⟩

/-- A successful elementwise run computes the pointwise function. -/
theorem mapM_eq_map {α β : Type} (f : α → Except String β) (g : α → β)
    (hg : ∀ x b, f x = .ok b → g x = b) :
    ∀ (l : List α) (m : List β), l.mapM f = .ok m → m = l.map g := by
  intro l
  induction l with
  | nil =>
      intro m h
      rw [List.mapM_nil] at h
      injection h with h2
      rw [← h2]
      rfl
  | cons a as ih =>
      intro m h
      rw [List.mapM_cons] at h
      cases hfa : f a with
      | error e => rw [hfa] at h; exact absurd h (errNeOk _ _)
      | ok b =>
          rw [hfa, exc_bind_ok] at h
          cases hms : as.mapM f with
          | error e => rw [hms] at h; exact absurd h (errNeOk _ _)
          | ok bs =>
              rw [hms, exc_bind_ok] at h
              injection h with h2
              rw [← h2, List.map_cons, hg a b hfa, ih bs hms]

/-- AND-ing a mask with all-true entries changes nothing. -/
theorem zipWith_and_trues {α : Type} (mask : List Bool) (rows : List α)
    (h : mask.length = rows.length) :
    List.zipWith (fun a b => a && b) mask (rows.map (fun _ => true)) = mask := by
  induction mask generalizing rows with
  | nil => rfl
  | cons a as ih =>
      cases rows with
      | nil => simp at h
      | cons r rs =>
          simp only [List.map_cons, List.zipWith_cons_cons, Bool.and_true]
          rw [ih rs (by simpa using h)]

/-- AND of an all-true mask with a pointwise mask is the pointwise mask. -/
theorem trues_and_zipWith {α : Type} (rows : List α) (P : α → Bool) :
    List.zipWith (fun a b => a && b) (rows.map (fun _ => true)) (rows.map P) =
      rows.map P := by
  induction rows with
  | nil => rfl
  | cons r rs ih =>
      simp only [List.map_cons, List.zipWith_cons_cons, Bool.true_and]
      rw [ih]

/-- Associating two pointwise masks into one. -/
theorem zipWith_and_map2 {α : Type} (mask : List Bool) (rows : List α)
    (P1 P2 : α → Bool) :
    List.zipWith (fun a b => a && b)
        (List.zipWith (fun a b => a && b) mask (rows.map P1)) (rows.map P2) =
      List.zipWith (fun a b => a && b) mask (rows.map (fun r => P1 r && P2 r)) := by
  induction mask generalizing rows with
  | nil => rfl
  | cons a as ih =>
      cases rows with
      | nil => rfl
      | cons r rs =>
          simp only [List.map_cons, List.zipWith_cons_cons]
          rw [Bool.and_assoc, ih rs]

/-- Zipping two pointwise maps of one list is the pointwise map of the
pair. -/
theorem zipWith_map_same {α β : Type} (f : β → β → β) (l : List α) (g1 g2 : α → β) :
    List.zipWith f (l.map g1) (l.map g2) = l.map (fun x => f (g1 x) (g2 x)) := by
  induction l with
  | nil => rfl
  | cons a as ih =>
      simp only [List.map_cons, List.zipWith_cons_cons]
      rw [ih]

/-- The not_in flip commutes with the elementwise map. -/
theorem notin_flip {α : Type} (c : Prop) [Decidable c] (l : List α) (base : α → Bool) :
    (if c then (l.map base).map (fun b => !b) else l.map base) =
      l.map (fun x => if c then !(base x) else base x) := by
  by_cases hc : c
  · rw [if_pos hc, List.map_map]
    congr 1
    funext x
    simp only [Function.comp]
    rw [if_pos hc]
  · rw [if_neg hc]
    congr 1
    funext x
    rw [if_neg hc]

/-- A successful column comparison against a scalar (non-list) right
operand is the pointwise comparison, and it stays successful (and
pointwise) on any column whose cells come from the original one.  (A list
right operand is compared positionally, so the mask is not pointwise.) -/
theorem seriesCompare_sub (dt : Dtype) (optr : String) (rv : PyVal)
    (series seriesT : List Cell) (m : List Bool)
    (hnl : listOperand rv = Option.none)
    (hsub : ∀ x ∈ seriesT, x ∈ series)
    (h : seriesCompare dt series optr rv = .ok m) :
    m = series.map (fun x =>
        match cmpCellPy optr x rv with | .ok b => b | .error _ => false) ∧
    seriesCompare dt seriesT optr rv =
      .ok (seriesT.map (fun x =>
        match cmpCellPy optr x rv with | .ok b => b | .error _ => false)) := by
  unfold seriesCompare at h
  rw [hnl] at h
  try dsimp only [] at h
  split at h
  next hc1 => exact absurd h (errNeOk _ _)
  next hc1 =>
    split at h
    next hc2 => exact absurd h (errNeOk _ _)
    next hc2 =>
      have hg : ∀ x b, cmpCellPy optr x rv = .ok b →
          (fun x => (match cmpCellPy optr x rv with | .ok b => b | .error _ => false)) x
            = b := by
        intro x b hb
        simp only [hb]
      refine ⟨mapM_eq_map _ _ hg series m h, ?_⟩
      unfold seriesCompare
      rw [hnl]
      try dsimp only []
      rw [if_neg hc1, if_neg hc2]
      have helems : ∀ x ∈ seriesT, ∃ b, cmpCellPy optr x rv = .ok b := by
        intro x hx
        exact mapM_elem_ok _ series m h x (hsub x hx)
      obtain ⟨m2, hm2⟩ := mapM_ok_of_elems _ seriesT helems
      rw [hm2, mapM_eq_map _ _ hg seriesT m2 hm2]

/-- A successful condition mask is either a skipped unknown operator (on
any sub-column too) or the pointwise predicate of the condition (on any
sub-column too).  For the six comparisons the native comparison is assumed
successful, so the string-equality fallback is not taken. -/
theorem condExprMask_both (dt : Dtype) (optr : String) (val valuesV : PyVal) (ci : Bool)
    (series seriesT : List Cell) (r : Option (List Bool))
    (hsub : ∀ x ∈ seriesT, x ∈ series)
    (hvl : isCmpSix optr = true → listOperand (as_number val) = Option.none)
    (hnative : isCmpSix optr = true →
        ∃ mm, seriesCompare dt series optr (as_number val) = .ok mm)
    (hbl : optr = "between" → ∀ a ∈ (match valuesV with
        | PyVal.list xs => xs
        | _ => [PyVal.none, PyVal.none]), listOperand (as_number a) = Option.none)
    (h : condExprMask dt series optr val valuesV ci = .ok r) :
    (r = Option.none ∧
      condExprMask dt seriesT optr val valuesV ci = .ok Option.none) ∨
    (r = some (series.map (cellPred optr val valuesV ci)) ∧
      condExprMask dt seriesT optr val valuesV ci =
        .ok (some (seriesT.map (cellPred optr val valuesV ci)))) := by
  unfold condExprMask at h
  by_cases hcmp : isCmpSix optr = true
  · rw [if_pos hcmp] at h
    try dsimp only [] at h
    obtain ⟨mm, hmm⟩ := hnative hcmp
    rw [hmm] at h
    injection h with h2
    obtain ⟨hm_eq, hT⟩ := seriesCompare_sub dt optr (as_number val) series seriesT mm
      (hvl hcmp) hsub hmm
    have hfun : (fun x =>
        (match cmpCellPy optr x (as_number val) with | .ok b => b | .error _ => false)) =
        cellPred optr val valuesV ci := by
      funext x
      simp only [cellPred]
      rw [if_pos hcmp]
    right
    constructor
    · rw [← h2, hm_eq, hfun]
    · unfold condExprMask
      rw [if_pos hcmp]
      try dsimp only []
      rw [hT, hfun]
  · rw [if_neg hcmp] at h
    by_cases hcon : optr = "contains"
    · rw [if_pos hcon] at h
      by_cases hmf : regexMetaFree (pyStr val) = true
      · rw [if_pos hmf] at h
        injection h with h2
        have hfun : (fun x => containsCase (pyStrCell x) (pyStr val) ci) =
            cellPred optr val valuesV ci := by
          funext x
          simp only [cellPred]
          rw [if_neg hcmp, if_pos hcon]
        right
        constructor
        · rw [← h2, hfun]
        · unfold condExprMask
          rw [if_neg hcmp, if_pos hcon, if_pos hmf, hfun]
      · rw [if_neg hmf] at h
        exact absurd h (errNeOk _ _)
    · rw [if_neg hcon] at h
      by_cases hin : (optr = "in" ∨ optr = "not_in")
      · rw [if_pos hin] at h
        try dsimp only [] at h
        by_cases hh : ((match valuesV with | PyVal.list xs => xs | _ => [val]).map
            as_number).any isUnhashable = true
        · rw [if_pos hh] at h
          exact absurd h (errNeOk _ _)
        rw [if_neg hh] at h
        try dsimp only [] at h
        injection h with h2
        rw [notin_flip] at h2
        have hfun : (fun x => if optr = "not_in"
              then !(((match valuesV with | .list xs => xs | _ => [val]).map
                  as_number).any (cellEqPy x))
              else ((match valuesV with | .list xs => xs | _ => [val]).map
                  as_number).any (cellEqPy x)) =
            cellPred optr val valuesV ci := by
          funext x
          simp only [cellPred]
          rw [if_neg hcmp, if_neg hcon, if_pos hin]
        right
        constructor
        · rw [← h2, hfun]
        · unfold condExprMask
          rw [if_neg hcmp, if_neg hcon, if_pos hin]
          try dsimp only []
          rw [if_neg hh]
          try dsimp only []
          rw [notin_flip, hfun]
      · rw [if_neg hin] at h
        by_cases hbet : optr = "between"
        · rw [if_pos hbet] at h
          try dsimp only [] at h
          cases h0 : (match valuesV with
              | PyVal.list xs => xs
              | _ => [PyVal.none, PyVal.none]).get? 0 with
          | none => rw [h0] at h; exact absurd h (errNeOk _ _)
          | some a0 =>
          rw [h0] at h
          cases h1 : (match valuesV with
              | PyVal.list xs => xs
              | _ => [PyVal.none, PyVal.none]).get? 1 with
          | none => rw [h1] at h; exact absurd h (errNeOk _ _)
          | some a1 =>
          rw [h1] at h
          try dsimp only [] at h
          cases hge : seriesCompare dt series ">=" (as_number a0) with
          | error e => rw [hge] at h; exact absurd h (errNeOk _ _)
          | ok ge =>
          rw [hge] at h
          try dsimp only [] at h
          cases hle : seriesCompare dt series "<=" (as_number a1) with
          | error e => rw [hle] at h; exact absurd h (errNeOk _ _)
          | ok le =>
          rw [hle] at h
          try dsimp only [] at h
          injection h with h2
          have hnl0 : listOperand (as_number a0) = Option.none :=
            hbl hbet a0 (List.get?_mem h0)
          have hnl1 : listOperand (as_number a1) = Option.none :=
            hbl hbet a1 (List.get?_mem h1)
          obtain ⟨hge_eq, hgeT⟩ := seriesCompare_sub dt ">=" (as_number a0)
            series seriesT ge hnl0 hsub hge
          obtain ⟨hle_eq, hleT⟩ := seriesCompare_sub dt "<=" (as_number a1)
            series seriesT le hnl1 hsub hle
          have hfun : (fun x =>
              (match cmpCellPy ">=" x (as_number a0) with | .ok b => b | .error _ => false) &&
              (match cmpCellPy "<=" x (as_number a1) with | .ok b => b | .error _ => false)) =
              cellPred optr val valuesV ci := by
            funext x
            simp only [cellPred]
            rw [if_neg hcmp, if_neg hcon, if_neg hin, if_pos hbet]
            try dsimp only []
            rw [h0, h1]
          right
          constructor
          · rw [← h2, hge_eq, hle_eq, zipWith_map_same, hfun]
          · unfold condExprMask
            rw [if_neg hcmp, if_neg hcon, if_neg hin, if_pos hbet]
            try dsimp only []
            rw [h0, h1]
            try dsimp only []
            rw [hgeT]
            try dsimp only []
            rw [hleT]
            try dsimp only []
            rw [zipWith_map_same, hfun]
        · rw [if_neg hbet] at h
          injection h with h2
          left
          constructor
          · exact h2.symm
          · unfold condExprMask
            rw [if_neg hcmp, if_neg hcon, if_neg hin, if_neg hbet]

/-- Fuzzy resolution only reads the column names. -/
theorem fuzzyResolve_congr (T W : Table) (hcn : colNames T = colNames W) (n : String) :
    fuzzyResolve T n = fuzzyResolve W n := by
  unfold fuzzyResolve
  rw [hcn]

/-- Column resolution only reads the column names. -/
theorem resolve_congr (T W : Table) (hcn : colNames T = colNames W) (n : String) :
    resolve_column T n = resolve_column W n := by
  unfold resolve_column
  rw [hcn, fuzzyResolve_congr T W hcn]

/-- Rows of a filtered table come from the original table. -/
theorem filterRows_sub (t : Table) (m : List Bool) :
    ∀ r ∈ (filterRows t m).rows, r ∈ t.rows := by
  intro r hr
  unfold filterRows at hr
  simp only [List.mem_map, List.mem_filter] at hr
  obtain ⟨⟨p1, p2⟩, ⟨hp, _⟩, he⟩ := hr
  rw [← he]
  exact (List.mem_zip hp).1

/-- Filtering by a pointwise mask is List.filter. -/
theorem zip_pred_filter (l : List (List Cell)) (P : List Cell → Bool) :
    (((l.zip (l.map P)).filter (fun p => p.2)).map (fun p => p.1)) = l.filter P := by
  induction l with
  | nil => rfl
  | cons a as ih =>
      simp only [List.map_cons, List.zip_cons_cons, List.filter_cons]
      by_cases ha : P a = true
      · rw [if_pos ha, if_pos ha, List.map_cons, ih]
      · rw [if_neg ha, if_neg ha, ih]

/-- Table-level version of the pointwise filter. -/
theorem filterRows_map_pred (t : Table) (P : List Cell → Bool) :
    filterRows t (t.rows.map P) = { header := t.header, rows := t.rows.filter P } := by
  unfold filterRows
  rw [Table.mk.injEq]
  exact ⟨rfl, zip_pred_filter t.rows P⟩

/-- One filter condition behaves pointwise on the table and on any
header-identical table of a subset of its rows, given that its native
comparison (if it is one of the six) succeeds. -/
theorem filterCond_both (working T : Table) (kvs : List (String × PyVal))
    (mask maskT res : List Bool)
    (hhdr : T.header = working.header)
    (hsub : ∀ r ∈ T.rows, r ∈ working.rows)
    (hnat : condNativeOk working (.dict kvs) = true)
    (hm : mask.length = working.rows.length)
    (hmT : maskT.length = T.rows.length)
    (h : filterCondFold working mask (.dict kvs) = .ok res) :
    ∃ P : List Cell → Bool,
      res = List.zipWith (fun a b => a && b) mask (working.rows.map P) ∧
      filterCondFold T maskT (.dict kvs) =
        .ok (List.zipWith (fun a b => a && b) maskT (T.rows.map P)) := by
  have hcn : colNames T = colNames working := by unfold colNames; rw [hhdr]
  have hres : resolve_column T (pyStr (fieldOf (PyVal.dict kvs) "column")) =
      resolve_column working (pyStr (fieldOf (PyVal.dict kvs) "column")) :=
    resolve_congr T working hcn _
  have hnat2 := hnat
  simp only [condNativeOk] at hnat2
  try dsimp only [] at hnat2
  unfold filterCondFold at h
  simp only [pyGet_dict, pyGetD_dict, exc_bind_ok] at h
  try dsimp only [] at h
  unfold filterCondFold
  simp only [pyGet_dict, pyGetD_dict, exc_bind_ok]
  try dsimp only []
  rw [hres, hcn]
  split at h
  next hskip =>
    injection h with h2
    refine ⟨fun _ => true, ?_, ?_⟩
    · rw [← h2, zipWith_and_trues mask working.rows hm]
    · rw [if_pos hskip, zipWith_and_trues maskT T.rows hmT]
      rfl
  next hskip =>
    rw [if_neg hskip]
    rw [if_neg hskip] at hnat2
    have hnative : isCmpSix (pyLower (pyStr (fieldOfD (PyVal.dict kvs) "operator"
          (.str "==")))) = true →
        ∃ mm, seriesCompare
          (dtypeByName working ((resolve_column working (pyStr
            (fieldOf (PyVal.dict kvs) "column"))).getD ""))
          (colByName working ((resolve_column working (pyStr
            (fieldOf (PyVal.dict kvs) "column"))).getD ""))
          (pyLower (pyStr (fieldOfD (PyVal.dict kvs) "operator" (.str "=="))))
          (as_number (fieldOf (PyVal.dict kvs) "value")) = .ok mm := by
      intro hc
      rw [if_pos hc, Bool.and_eq_true] at hnat2
      have hnat3 := hnat2.2
      cases hsc : seriesCompare
          (dtypeByName working ((resolve_column working (pyStr
            (fieldOf (PyVal.dict kvs) "column"))).getD ""))
          (colByName working ((resolve_column working (pyStr
            (fieldOf (PyVal.dict kvs) "column"))).getD ""))
          (pyLower (pyStr (fieldOfD (PyVal.dict kvs) "operator" (.str "=="))))
          (as_number (fieldOf (PyVal.dict kvs) "value")) with
      | ok mm => exact ⟨mm, rfl⟩
      | error e =>
          rw [hsc] at hnat3
          exact Bool.noConfusion hnat3
    have hvl : isCmpSix (pyLower (pyStr (fieldOfD (PyVal.dict kvs) "operator"
          (.str "==")))) = true →
        listOperand (as_number (fieldOf (PyVal.dict kvs) "value")) = Option.none := by
      intro hc
      rw [if_pos hc, Bool.and_eq_true] at hnat2
      exact Option.isNone_iff_eq_none.mp hnat2.1
    have hbl : (pyLower (pyStr (fieldOfD (PyVal.dict kvs) "operator" (.str "==")))) =
        "between" →
        ∀ a ∈ (match fieldOf (PyVal.dict kvs) "values" with
          | PyVal.list xs => xs
          | _ => [PyVal.none, PyVal.none]), listOperand (as_number a) = Option.none := by
      intro hb a ha
      have hnc : ¬ (isCmpSix (pyLower (pyStr (fieldOfD (PyVal.dict kvs) "operator"
          (.str "==")))) = true) := by
        rw [hb]
        decide
      rw [if_neg hnc, if_pos hb] at hnat2
      exact Option.isNone_iff_eq_none.mp (List.all_eq_true.mp hnat2 a ha)
    have hdt2 : dtypeByName T ((resolve_column working (pyStr
          (fieldOf (PyVal.dict kvs) "column"))).getD "") =
        dtypeByName working ((resolve_column working (pyStr
          (fieldOf (PyVal.dict kvs) "column"))).getD "") := by
      unfold dtypeByName colDtype colIdxOf
      rw [hcn, hhdr]
    rw [hdt2]
    have hidx : colIdxOf T ((resolve_column working (pyStr
          (fieldOf (PyVal.dict kvs) "column"))).getD "") =
        colIdxOf working ((resolve_column working (pyStr
          (fieldOf (PyVal.dict kvs) "column"))).getD "") := by
      unfold colIdxOf
      rw [hcn]
    have hsubser : ∀ x ∈ colByName T ((resolve_column working (pyStr
          (fieldOf (PyVal.dict kvs) "column"))).getD ""),
        x ∈ colByName working ((resolve_column working (pyStr
          (fieldOf (PyVal.dict kvs) "column"))).getD "") := by
      intro x hx
      unfold colByName colCells at hx ⊢
      rw [hidx] at hx
      rcases List.mem_map.mp hx with ⟨rr, hrr, he⟩
      exact List.mem_map.mpr ⟨rr, hsub rr hrr, he⟩
    cases hcm : condExprMask
        (dtypeByName working ((resolve_column working (pyStr
          (fieldOf (PyVal.dict kvs) "column"))).getD ""))
        (colByName working ((resolve_column working (pyStr
          (fieldOf (PyVal.dict kvs) "column"))).getD ""))
        (pyLower (pyStr (fieldOfD (PyVal.dict kvs) "operator" (.str "=="))))
        (fieldOf (PyVal.dict kvs) "value") (fieldOf (PyVal.dict kvs) "values")
        (pyTruthy (fieldOfD (PyVal.dict kvs) "case_insensitive" (.bool true))) with
    | error e => rw [hcm] at h; exact absurd h (errNeOk _ _)
    | ok r =>
    rw [hcm, exc_bind_ok] at h
    rcases condExprMask_both _ _ _ _ _ _ _ r hsubser hvl hnative hbl hcm with
      ⟨hrn, hTn⟩ | ⟨hrs, hTs⟩
    · rw [hrn] at h
      try dsimp only [] at h
      injection h with h2
      refine ⟨fun _ => true, ?_, ?_⟩
      · rw [← h2, zipWith_and_trues mask working.rows hm]
      · rw [hTn, exc_bind_ok]
        try dsimp only []
        rw [zipWith_and_trues maskT T.rows hmT]
        rfl
    · rw [hrs] at h
      try dsimp only [] at h
      injection h with h2
      refine ⟨fun rrow => cellPred
          (pyLower (pyStr (fieldOfD (PyVal.dict kvs) "operator" (.str "=="))))
          (fieldOf (PyVal.dict kvs) "value") (fieldOf (PyVal.dict kvs) "values")
          (pyTruthy (fieldOfD (PyVal.dict kvs) "case_insensitive" (.bool true)))
          (rrow.getD (colIdxOf working ((resolve_column working (pyStr
            (fieldOf (PyVal.dict kvs) "column"))).getD "")) .na), ?_, ?_⟩
      · rw [← h2]
        have hmapW : (colByName working ((resolve_column working (pyStr
              (fieldOf (PyVal.dict kvs) "column"))).getD "")).map (cellPred
              (pyLower (pyStr (fieldOfD (PyVal.dict kvs) "operator" (.str "=="))))
              (fieldOf (PyVal.dict kvs) "value") (fieldOf (PyVal.dict kvs) "values")
              (pyTruthy (fieldOfD (PyVal.dict kvs) "case_insensitive" (.bool true)))) =
            working.rows.map (fun rrow => cellPred
              (pyLower (pyStr (fieldOfD (PyVal.dict kvs) "operator" (.str "=="))))
              (fieldOf (PyVal.dict kvs) "value") (fieldOf (PyVal.dict kvs) "values")
              (pyTruthy (fieldOfD (PyVal.dict kvs) "case_insensitive" (.bool true)))
              (rrow.getD (colIdxOf working ((resolve_column working (pyStr
                (fieldOf (PyVal.dict kvs) "column"))).getD "")) .na)) := by
          unfold colByName colCells
          rw [List.map_map]
          rfl
        rw [hmapW]
      · rw [hTs, exc_bind_ok]
        try dsimp only []
        have hmapT : (colByName T ((resolve_column working (pyStr
              (fieldOf (PyVal.dict kvs) "column"))).getD "")).map (cellPred
              (pyLower (pyStr (fieldOfD (PyVal.dict kvs) "operator" (.str "=="))))
              (fieldOf (PyVal.dict kvs) "value") (fieldOf (PyVal.dict kvs) "values")
              (pyTruthy (fieldOfD (PyVal.dict kvs) "case_insensitive" (.bool true)))) =
            T.rows.map (fun rrow => cellPred
              (pyLower (pyStr (fieldOfD (PyVal.dict kvs) "operator" (.str "=="))))
              (fieldOf (PyVal.dict kvs) "value") (fieldOf (PyVal.dict kvs) "values")
              (pyTruthy (fieldOfD (PyVal.dict kvs) "case_insensitive" (.bool true)))
              (rrow.getD (colIdxOf working ((resolve_column working (pyStr
                (fieldOf (PyVal.dict kvs) "column"))).getD "")) .na)) := by
          unfold colByName colCells
          rw [hidx, List.map_map]
          rfl
        rw [hmapT]
        rfl

/-- The whole conditions loop behaves pointwise on the table and on any
header-identical table of a subset of its rows. -/
theorem condsFold_both (working T : Table) (conds : List PyVal) :
    ∀ (mask maskT res : List Bool),
      T.header = working.header →
      (∀ r ∈ T.rows, r ∈ working.rows) →
      (∀ c ∈ conds, condNativeOk working c = true) →
      mask.length = working.rows.length →
      maskT.length = T.rows.length →
      conds.foldlM (filterCondFold working) mask = .ok res →
      ∃ P : List Cell → Bool,
        res = List.zipWith (fun a b => a && b) mask (working.rows.map P) ∧
        conds.foldlM (filterCondFold T) maskT =
          .ok (List.zipWith (fun a b => a && b) maskT (T.rows.map P)) := by
  induction conds with
  | nil =>
      intro mask maskT res hhdr hsub hnat hm hmT h
      simp only [List.foldlM_nil] at h
      injection h with h2
      refine ⟨fun _ => true, ?_, ?_⟩
      · rw [← h2, zipWith_and_trues mask working.rows hm]
      · simp only [List.foldlM_nil]
        rw [zipWith_and_trues maskT T.rows hmT]
        rfl
  | cons c cs ih =>
      intro mask maskT res hhdr hsub hnat hm hmT h
      rw [List.foldlM_cons] at h
      cases h1 : filterCondFold working mask c with
      | error e => rw [h1] at h; exact absurd h (errNeOk _ _)
      | ok res1 =>
      rw [h1, exc_bind_ok] at h
      cases c with
      | dict kvs =>
          obtain ⟨P1, hres1, hT1⟩ := filterCond_both working T kvs mask maskT res1
            hhdr hsub (hnat _ (List.mem_cons_self _ _)) hm hmT h1
          have hlen1 : res1.length = working.rows.length := by
            rw [hres1, List.length_zipWith, List.length_map, hm]
            exact Nat.min_self _
          have hlenT1 : (List.zipWith (fun a b => a && b) maskT
              (T.rows.map P1)).length = T.rows.length := by
            rw [List.length_zipWith, List.length_map, hmT]
            exact Nat.min_self _
          obtain ⟨P2, hres2, hT2⟩ := ih res1 _ res hhdr hsub
            (fun x hx => hnat x (List.mem_cons_of_mem _ hx)) hlen1 hlenT1 h
          refine ⟨fun r => P1 r && P2 r, ?_, ?_⟩
          · rw [hres2, hres1, zipWith_and_map2]
          · rw [List.foldlM_cons, hT1, exc_bind_ok, hT2, zipWith_and_map2]
      | none => exact absurd h1 (errNeOk _ _)
      | bool b => exact absurd h1 (errNeOk _ _)
      | int n => exact absurd h1 (errNeOk _ _)
      | float q => exact absurd h1 (errNeOk _ _)
      | str s => exact absurd h1 (errNeOk _ _)
      | list xs => exact absurd h1 (errNeOk _ _)

/-- C9 (amended).  When every condition of a filter step compares its
(resolvable) column natively without raising, the filter is idempotent:
applying it to its own output returns that output unchanged, with the same
log line.  (Without that proviso filter is not idempotent: the fallback
string-equality path taken on a raising mixed column can keep rows that
the second, native run then drops.) -/
theorem C9_filter_idempotent_native (working : Table) (step : PyVal)
    (condsV : PyVal) (conds : List PyVal) (t1 : Table) (l1 : List String)
    (hget : pyGet step "conditions" = .ok condsV)
    (hiter : pyIter (orDefault condsV (.list [])) = .ok conds)
    (hnat : ∀ c ∈ conds, condNativeOk working c = true)
    (h : applyFilter working step = .ok (t1, l1)) :
    applyFilter t1 step = .ok (t1, l1) := by
  unfold applyFilter at h ⊢
  rw [hget, exc_bind_ok, hiter, exc_bind_ok] at h ⊢
  try dsimp only [] at h ⊢
  cases hf : conds.foldlM (filterCondFold working)
      (working.rows.map fun _ => true) with
  | error e => rw [hf] at h; exact absurd h (errNeOk _ _)
  | ok maskFull =>
  rw [hf, exc_bind_ok] at h
  try dsimp only [] at h
  injection h with h2
  rw [Prod.mk.injEq] at h2
  obtain ⟨ht1, hl1⟩ := h2
  have hhdr : t1.header = working.header := by rw [← ht1]; rfl
  have hsub : ∀ r ∈ t1.rows, r ∈ working.rows := by
    intro r hr
    rw [← ht1] at hr
    exact filterRows_sub working maskFull r hr
  obtain ⟨P, hP, hT⟩ := condsFold_both working t1 conds
    (working.rows.map fun _ => true) (t1.rows.map fun _ => true) maskFull
    hhdr hsub hnat (by rw [List.length_map]) (by rw [List.length_map]) hf
  rw [trues_and_zipWith] at hP hT
  have ht1' : filterRows working (working.rows.map P) = t1 := by
    rw [← hP]
    exact ht1
  have hPtrue : t1.rows.map P = t1.rows.map (fun _ => true) := by
    apply List.map_congr_left
    intro r hr
    rw [← ht1', filterRows_map_pred] at hr
    dsimp only [] at hr
    exact (List.mem_filter.mp hr).2
  rw [hPtrue] at hT
  rw [hT, exc_bind_ok]
  try dsimp only []
  rw [filterRows_all_true]
  rw [ht1] at hl1
  rw [← hl1]
  rfl

/-- Witness for C9: a natively comparable filter applied to its own output
returns it unchanged. -/
theorem C9_filter_idempotent_native_witness :
    applyFilter (⟨[("c", Dtype.int64)], [[Cell.int 2]]⟩ : Table)
        (.dict [("op", .str "filter"), ("conditions", .list
          [.dict [("column", .str "c"), ("operator", .str ">"), ("value", .int 1)]])]) =
      .ok ((⟨[("c", Dtype.int64)], [[Cell.int 2]]⟩ : Table),
        ["filter rows -> 1 rows"]) :=
  C9_filter_idempotent_native exNum
    (.dict [("op", .str "filter"), ("conditions", .list
      [.dict [("column", .str "c"), ("operator", .str ">"), ("value", .int 1)]])])
    (.list [.dict [("column", .str "c"), ("operator", .str ">"), ("value", .int 1)]])
    [.dict [("column", .str "c"), ("operator", .str ">"), ("value", .int 1)]]
    (⟨[("c", Dtype.int64)], [[Cell.int 2]]⟩ : Table) ["filter rows -> 1 rows"]
    rfl rfl (by decide) rfl

/-- int(v) succeeds on an int-convertible field. -/
theorem pyInt_of_intConvertible (v : PyVal) (h : intConvertible v = true) :
    ∃ n, pyInt v = .ok n := by
  unfold intConvertible at h
  cases hc : pyInt v with
  | ok n => exact ⟨n, rfl⟩
  | error e => rw [hc] at h; exact Bool.noConfusion h

/-- Iterating an iteration-safe field (after its `or []` default) succeeds. -/
theorem pyIter_of_iterSafe (v : PyVal) (h : iterSafeField v = true) :
    ∃ xs, pyIter (orDefault v (.list [])) = .ok xs := by
  unfold iterSafeField at h
  cases hc : orDefault v (.list []) <;> rw [hc] at h
  case list xs => exact ⟨xs, rfl⟩
  case str s => exact ⟨_, rfl⟩
  case dict kvs => exact ⟨_, rfl⟩
  all_goals exact Bool.noConfusion h

/-- A dict-or-falsy field is a dict after its `or {}` default. -/
theorem dict_of_dictOrFalsy (v : PyVal) (h : dictOrFalsy v = true) :
    ∃ kvs2, orDefault v (.dict []) = .dict kvs2 := by
  unfold dictOrFalsy at h
  cases hc : orDefault v (.dict []) <;> rw [hc] at h
  case dict kvs2 => exact ⟨kvs2, rfl⟩
  all_goals exact Bool.noConfusion h

/-- A condition mask never raises when its shape is safe: not `between`,
a literal pattern for `contains`, hashable members for `in`/`not_in`. -/
theorem condExprMask_shapeSafe (dt : Dtype) (series : List Cell) (optr : String)
    (val valuesV : PyVal) (ci : Bool) (h : optr ≠ "between")
    (hmf : optr = "contains" → regexMetaFree (pyStr val) = true)
    (hhash : (optr = "in" ∨ optr = "not_in") →
      ((match valuesV with | PyVal.list xs => xs | _ => [val]).map as_number).all
        (fun v => !isUnhashable v) = true) :
    ∃ r, condExprMask dt series optr val valuesV ci = .ok r := by
  unfold condExprMask
  by_cases h1 : isCmpSix optr = true
  · rw [if_pos h1]
    try dsimp only []
    cases hsc : seriesCompare dt series optr (as_number val) with
    | ok m => exact ⟨_, rfl⟩
    | error e => exact ⟨_, rfl⟩
  · rw [if_neg h1]
    by_cases h2 : optr = "contains"
    · rw [if_pos h2, if_pos (hmf h2)]
      exact ⟨_, rfl⟩
    · rw [if_neg h2]
      by_cases h3 : (optr = "in" ∨ optr = "not_in")
      · rw [if_pos h3]
        try dsimp only []
        have hany : ((match valuesV with | PyVal.list xs => xs | _ => [val]).map
            as_number).any isUnhashable = false := by
          rw [Bool.eq_false_iff]
          intro hq
          rcases List.any_eq_true.mp hq with ⟨x, hx, hux⟩
          have hax := List.all_eq_true.mp (hhash h3) x hx
          rw [hux] at hax
          exact Bool.noConfusion hax
        rw [if_neg (by rw [hany]; decide)]
        exact ⟨_, rfl⟩
      · rw [if_neg h3, if_neg h]
        exact ⟨_, rfl⟩

/-- One shape-safe filter condition never raises. -/
theorem filterCondFold_safe (w : Table) (mask : List Bool) (kvs : List (String × PyVal))
    (h : condShapeSafe (.dict kvs) = true) :
    ∃ m2, filterCondFold w mask (.dict kvs) = .ok m2 := by
  simp only [condShapeSafe] at h
  try dsimp only [] at h
  rw [Bool.and_eq_true, Bool.and_eq_true] at h
  obtain ⟨⟨hbet, hcon⟩, hhash⟩ := h
  unfold filterCondFold
  simp only [pyGet_dict, pyGetD_dict, exc_bind_ok]
  try dsimp only []
  split
  · exact ⟨mask, rfl⟩
  · obtain ⟨r, hr⟩ := condExprMask_shapeSafe
      (dtypeByName w ((resolve_column w (pyStr (fieldOf (PyVal.dict kvs) "column"))).getD ""))
      (colByName w ((resolve_column w (pyStr (fieldOf (PyVal.dict kvs) "column"))).getD ""))
      (pyLower (pyStr (fieldOfD (PyVal.dict kvs) "operator" (.str "=="))))
      (fieldOf (PyVal.dict kvs) "value") (fieldOf (PyVal.dict kvs) "values")
      (pyTruthy (fieldOfD (PyVal.dict kvs) "case_insensitive" (.bool true)))
      (of_decide_eq_true hbet)
      (fun hc => by rw [if_pos hc] at hcon; exact hcon)
      (fun hc => by rw [if_pos hc] at hhash; exact hhash)
    rw [hr, exc_bind_ok]
    cases r with
    | some m => exact ⟨_, rfl⟩
    | none => exact ⟨mask, rfl⟩

/-- A conditions loop of shape-safe conditions never raises. -/
theorem condsFold_safe (w : Table) (cs : List PyVal)
    (h : cs.all condShapeSafe = true) :
    ∀ mask, ∃ m2, cs.foldlM (filterCondFold w) mask = .ok m2 := by
  induction cs with
  | nil => intro mask; exact ⟨mask, rfl⟩
  | cons c cs2 ih =>
      intro mask
      rw [List.all_cons, Bool.and_eq_true] at h
      obtain ⟨h1, h2⟩ := h
      cases c with
      | dict kvs =>
          obtain ⟨m1, hm1⟩ := filterCondFold_safe w mask kvs h1
          obtain ⟨m2, hm2⟩ := ih h2 m1
          exact ⟨m2, by rw [List.foldlM_cons, hm1, exc_bind_ok, hm2]⟩
      | none => exact Bool.noConfusion h1
      | bool b => exact Bool.noConfusion h1
      | int n => exact Bool.noConfusion h1
      | float q => exact Bool.noConfusion h1
      | str s => exact Bool.noConfusion h1
      | list xs => exact Bool.noConfusion h1

/-- Safe filter steps never raise. -/
theorem applyFilter_safe (w : Table) (kvs : List (String × PyVal))
    (h : (match orDefault (fieldOf (PyVal.dict kvs) "conditions") (.list []) with
          | PyVal.list cs => cs.all condShapeSafe
          | _ => false) = true) :
    ∃ r, applyFilter w (.dict kvs) = .ok r := by
  unfold applyFilter
  simp only [pyGet_dict, exc_bind_ok]
  try dsimp only []
  cases hc : orDefault (fieldOf (PyVal.dict kvs) "conditions") (.list []) <;>
    rw [hc] at h
  case list cs =>
    dsimp only [] at h
    rw [show pyIter (PyVal.list cs) = Except.ok cs from rfl, exc_bind_ok]
    try dsimp only []
    obtain ⟨m, hm⟩ := condsFold_safe w cs h (w.rows.map fun _ => true)
    rw [hm, exc_bind_ok]
    exact ⟨_, rfl⟩
  all_goals exact absurd h (by simp)

/-- Safe select steps never raise. -/
theorem applySelect_safe (w : Table) (kvs : List (String × PyVal))
    (h : iterSafeField (fieldOf (PyVal.dict kvs) "columns") = true) :
    ∃ r, applySelect w (.dict kvs) = .ok r := by
  unfold applySelect
  simp only [pyGet_dict, exc_bind_ok]
  try dsimp only []
  obtain ⟨xs, hxs⟩ := pyIter_of_iterSafe _ h
  rw [hxs, exc_bind_ok]
  repeat first
  | exact ⟨_, rfl⟩
  | split

/-- Safe compute steps never raise. -/
theorem applyCompute_safe (w : Table) (kvs : List (String × PyVal))
    (hl : dictOrFalsy (fieldOf (PyVal.dict kvs) "left") = true)
    (hr : dictOrFalsy (fieldOf (PyVal.dict kvs) "right") = true) :
    ∃ r, applyCompute w (.dict kvs) = .ok r := by
  unfold applyCompute
  simp only [pyGet_dict, exc_bind_ok]
  try dsimp only []
  obtain ⟨kl, hkl⟩ := dict_of_dictOrFalsy _ hl
  obtain ⟨kr, hkr⟩ := dict_of_dictOrFalsy _ hr
  rw [hkl, hkr]
  simp only [pyGet_dict, exc_bind_ok]
  repeat first
  | exact ⟨_, rfl⟩
  | split

/-- Safe sort steps never raise. -/
theorem applySort_safe (w : Table) (kvs : List (String × PyVal))
    (h : iterSafeField (fieldOf (PyVal.dict kvs) "by") = true) :
    ∃ r, applySort w (.dict kvs) = .ok r := by
  unfold applySort
  simp only [pyGet_dict, pyGetD_dict, exc_bind_ok]
  try dsimp only []
  obtain ⟨xs, hxs⟩ := pyIter_of_iterSafe _ h
  rw [hxs, exc_bind_ok]
  repeat first
  | exact ⟨_, rfl⟩
  | split

/-- Safe topk steps never raise. -/
theorem applyTopk_safe (w : Table) (kvs : List (String × PyVal))
    (h : intConvertible (fieldOfD (PyVal.dict kvs) "k" (.int 5)) = true) :
    ∃ r, applyTopk w (.dict kvs) = .ok r := by
  unfold applyTopk
  simp only [pyGet_dict, pyGetD_dict, exc_bind_ok]
  try dsimp only []
  obtain ⟨n, hn⟩ := pyInt_of_intConvertible _ h
  rw [hn, exc_bind_ok]
  repeat first
  | exact ⟨_, rfl⟩
  | split

/-- Safe rename steps never raise. -/
theorem applyRename_safe (w : Table) (kvs : List (String × PyVal))
    (h : dictOrFalsy (fieldOf (PyVal.dict kvs) "mapping") = true) :
    ∃ r, applyRename w (.dict kvs) = .ok r := by
  unfold applyRename
  simp only [pyGet_dict, exc_bind_ok]
  try dsimp only []
  obtain ⟨km, hkm⟩ := dict_of_dictOrFalsy _ h
  rw [hkm]
  rw [show pyItems (PyVal.dict km) = Except.ok km from rfl, exc_bind_ok]
  repeat first
  | exact ⟨_, rfl⟩
  | split

/-- Pivot steps never raise (the pivot call is fully guarded). -/
theorem applyPivot_safe (w : Table) (kvs : List (String × PyVal)) :
    ∃ r, applyPivot w (.dict kvs) = .ok r := by
  unfold applyPivot
  simp only [pyGet_dict, pyGetD_dict, exc_bind_ok]
  repeat first
  | exact ⟨_, rfl⟩
  | split

/-- Safe limit steps never raise. -/
theorem applyLimit_safe (w : Table) (kvs : List (String × PyVal))
    (h : intConvertible (fieldOfD (PyVal.dict kvs) "n" (.int 10)) = true) :
    ∃ r, applyLimit w (.dict kvs) = .ok r := by
  unfold applyLimit
  simp only [pyGetD_dict, exc_bind_ok]
  try dsimp only []
  obtain ⟨n, hn⟩ := pyInt_of_intConvertible _ h
  rw [hn, exc_bind_ok]
  exact ⟨_, rfl⟩

/-- Dropna steps never raise (fully guarded). -/
theorem applyDropna_safe (w : Table) (kvs : List (String × PyVal)) :
    ∃ r, applyDropna w (.dict kvs) = .ok r := by
  unfold applyDropna
  simp only [pyGet_dict, pyGetD_dict, exc_bind_ok]
  repeat first
  | exact ⟨_, rfl⟩
  | split

/-- Fillna steps never raise (fully guarded). -/
theorem applyFillna_safe (w : Table) (kvs : List (String × PyVal)) :
    ∃ r, applyFillna w (.dict kvs) = .ok r := by
  unfold applyFillna
  simp only [pyGet_dict, exc_bind_ok]
  repeat first
  | exact ⟨_, rfl⟩
  | split

/-- Cast steps never raise (a non-dict types field is silently skipped). -/
theorem applyCast_safe (w : Table) (kvs : List (String × PyVal)) :
    ∃ r, applyCast w (.dict kvs) = .ok r := by
  unfold applyCast
  simp only [pyGet_dict, exc_bind_ok]
  repeat first
  | exact ⟨_, rfl⟩
  | split

/-- Safe date_parse steps never raise. -/
theorem applyDateParse_safe (w : Table) (kvs : List (String × PyVal))
    (h : iterSafeField (fieldOf (PyVal.dict kvs) "columns") = true) :
    ∃ r, applyDateParse w (.dict kvs) = .ok r := by
  unfold applyDateParse
  simp only [pyGet_dict, exc_bind_ok]
  try dsimp only []
  obtain ⟨xs, hxs⟩ := pyIter_of_iterSafe _ h
  rw [hxs, exc_bind_ok]
  exact ⟨_, rfl⟩

/-- Date_trunc steps never raise. -/
theorem applyDateTrunc_safe (w : Table) (kvs : List (String × PyVal)) :
    ∃ r, applyDateTrunc w (.dict kvs) = .ok r := by
  unfold applyDateTrunc
  simp only [pyGet_dict, pyGetD_dict, exc_bind_ok]
  repeat first
  | exact ⟨_, rfl⟩
  | split

/-- Safe window_rank steps never raise. -/
theorem applyWindowRank_safe (w : Table) (kvs : List (String × PyVal))
    (h : iterSafeField (wrapStr (fieldOf (PyVal.dict kvs) "partition_by")) = true) :
    ∃ r, applyWindowRank w (.dict kvs) = .ok r := by
  unfold applyWindowRank
  simp only [pyGet_dict, pyGetD_dict, exc_bind_ok]
  try dsimp only []
  obtain ⟨xs, hxs⟩ := pyIter_of_iterSafe _ h
  rw [hxs, exc_bind_ok]
  repeat first
  | exact ⟨_, rfl⟩
  | split

/-- Safe cumsum steps never raise. -/
theorem applyCumsum_safe (w : Table) (kvs : List (String × PyVal))
    (h : iterSafeField (wrapStr (fieldOf (PyVal.dict kvs) "by")) = true) :
    ∃ r, applyCumsum w (.dict kvs) = .ok r := by
  unfold applyCumsum
  simp only [pyGet_dict, exc_bind_ok]
  try dsimp only []
  obtain ⟨xs, hxs⟩ := pyIter_of_iterSafe _ h
  rw [hxs, exc_bind_ok]
  repeat first
  | exact ⟨_, rfl⟩
  | split

/-- Safe pct_change steps never raise. -/
theorem applyPctChange_safe (w : Table) (kvs : List (String × PyVal))
    (h1 : intConvertible (fieldOfD (PyVal.dict kvs) "periods" (.int 1)) = true)
    (h2 : iterSafeField (wrapStr (fieldOf (PyVal.dict kvs) "by")) = true) :
    ∃ r, applyPctChange w (.dict kvs) = .ok r := by
  unfold applyPctChange
  simp only [pyGet_dict, pyGetD_dict, exc_bind_ok]
  try dsimp only []
  obtain ⟨n, hn⟩ := pyInt_of_intConvertible _ h1
  rw [hn, exc_bind_ok]
  try dsimp only []
  obtain ⟨xs, hxs⟩ := pyIter_of_iterSafe _ h2
  rw [hxs, exc_bind_ok]
  repeat first
  | exact ⟨_, rfl⟩
  | split

/-- Safe value_counts steps never raise. -/
theorem applyValueCounts_safe (w : Table) (kvs : List (String × PyVal))
    (h : intConvertible (fieldOfD (PyVal.dict kvs) "k" (.int 20)) = true) :
    ∃ r, applyValueCounts w (.dict kvs) = .ok r := by
  unfold applyValueCounts
  simp only [pyGet_dict, pyGetD_dict, exc_bind_ok]
  try dsimp only []
  obtain ⟨n, hn⟩ := pyInt_of_intConvertible _ h
  rw [hn, exc_bind_ok]
  repeat first
  | exact ⟨_, rfl⟩
  | split

/-- Dedupe steps never raise (fully guarded). -/
theorem applyDedupe_safe (w : Table) (kvs : List (String × PyVal)) :
    ∃ r, applyDedupe w (.dict kvs) = .ok r := by
  unfold applyDedupe
  simp only [pyGet_dict, pyGetD_dict, exc_bind_ok]
  repeat first
  | exact ⟨_, rfl⟩
  | split

/-- Sample steps never raise (fully guarded). -/
theorem applySample_safe (w : Table) (kvs : List (String × PyVal)) :
    ∃ r, applySample w (.dict kvs) = .ok r := by
  unfold applySample
  simp only [pyGet_dict, exc_bind_ok]
  repeat first
  | exact ⟨_, rfl⟩
  | split

/-- A shape-safe step never raises, whatever the table. -/
theorem applyStep_safe (w : Table) (step : PyVal) (h : stepSafe step = true) :
    ∃ r, applyStep w step = .ok r := by
  cases step with
  | dict kvs =>
      simp only [stepSafe] at h
      try dsimp only [] at h
      simp only [stepTag] at h
      unfold applyStep
      rw [pyGetD_dict, exc_bind_ok]
      unfold applyStepTag
      by_cases c1 : pyLower (pyStr (fieldOfD (PyVal.dict kvs) "op" (.str ""))) = "filter"
      · rw [if_pos c1]
        rw [if_pos c1] at h
        exact applyFilter_safe w kvs h
      rw [if_neg c1]
      rw [if_neg c1] at h
      by_cases c2 : pyLower (pyStr (fieldOfD (PyVal.dict kvs) "op" (.str ""))) = "select"
      · rw [if_pos c2]
        rw [if_pos c2] at h
        exact applySelect_safe w kvs h
      rw [if_neg c2]
      rw [if_neg c2] at h
      by_cases c3 : pyLower (pyStr (fieldOfD (PyVal.dict kvs) "op" (.str ""))) = "compute"
      · rw [if_pos c3]
        rw [if_pos c3] at h
        rw [Bool.and_eq_true] at h
        exact applyCompute_safe w kvs h.1 h.2
      rw [if_neg c3]
      rw [if_neg c3] at h
      by_cases c4 : pyLower (pyStr (fieldOfD (PyVal.dict kvs) "op" (.str ""))) = "groupby_agg"
      · rw [if_pos c4]
        rw [if_pos c4] at h
        exact absurd h (by decide)
      rw [if_neg c4]
      rw [if_neg c4] at h
      by_cases c5 : pyLower (pyStr (fieldOfD (PyVal.dict kvs) "op" (.str ""))) = "sort"
      · rw [if_pos c5]
        rw [if_pos c5] at h
        exact applySort_safe w kvs h
      rw [if_neg c5]
      rw [if_neg c5] at h
      by_cases c6 : pyLower (pyStr (fieldOfD (PyVal.dict kvs) "op" (.str ""))) = "topk"
      · rw [if_pos c6]
        rw [if_pos c6] at h
        exact applyTopk_safe w kvs h
      rw [if_neg c6]
      rw [if_neg c6] at h
      by_cases c7 : pyLower (pyStr (fieldOfD (PyVal.dict kvs) "op" (.str ""))) = "rename"
      · rw [if_pos c7]
        rw [if_pos c7] at h
        exact applyRename_safe w kvs h
      rw [if_neg c7]
      rw [if_neg c7] at h
      by_cases c8 : pyLower (pyStr (fieldOfD (PyVal.dict kvs) "op" (.str ""))) = "pivot"
      · rw [if_pos c8]
        exact applyPivot_safe w kvs
      rw [if_neg c8]
      by_cases c9 : pyLower (pyStr (fieldOfD (PyVal.dict kvs) "op" (.str ""))) = "limit"
      · rw [if_pos c9]
        rw [if_pos c9] at h
        exact applyLimit_safe w kvs h
      rw [if_neg c9]
      rw [if_neg c9] at h
      by_cases c10 : pyLower (pyStr (fieldOfD (PyVal.dict kvs) "op" (.str ""))) = "dropna"
      · rw [if_pos c10]
        exact applyDropna_safe w kvs
      rw [if_neg c10]
      by_cases c11 : pyLower (pyStr (fieldOfD (PyVal.dict kvs) "op" (.str ""))) = "fillna"
      · rw [if_pos c11]
        exact applyFillna_safe w kvs
      rw [if_neg c11]
      by_cases c12 : pyLower (pyStr (fieldOfD (PyVal.dict kvs) "op" (.str ""))) = "cast"
      · rw [if_pos c12]
        exact applyCast_safe w kvs
      rw [if_neg c12]
      by_cases c13 : pyLower (pyStr (fieldOfD (PyVal.dict kvs) "op" (.str ""))) = "date_parse"
      · rw [if_pos c13]
        rw [if_pos c13] at h
        exact applyDateParse_safe w kvs h
      rw [if_neg c13]
      rw [if_neg c13] at h
      by_cases c14 : pyLower (pyStr (fieldOfD (PyVal.dict kvs) "op" (.str ""))) = "date_trunc"
      · rw [if_pos c14]
        exact applyDateTrunc_safe w kvs
      rw [if_neg c14]
      by_cases c15 : pyLower (pyStr (fieldOfD (PyVal.dict kvs) "op" (.str ""))) = "window_rank"
      · rw [if_pos c15]
        rw [if_pos c15] at h
        exact applyWindowRank_safe w kvs h
      rw [if_neg c15]
      rw [if_neg c15] at h
      by_cases c16 : pyLower (pyStr (fieldOfD (PyVal.dict kvs) "op" (.str ""))) = "cumsum"
      · rw [if_pos c16]
        rw [if_pos c16] at h
        exact applyCumsum_safe w kvs h
      rw [if_neg c16]
      rw [if_neg c16] at h
      by_cases c17 : pyLower (pyStr (fieldOfD (PyVal.dict kvs) "op" (.str ""))) = "pct_change"
      · rw [if_pos c17]
        rw [if_pos c17] at h
        rw [Bool.and_eq_true] at h
        exact applyPctChange_safe w kvs h.1 h.2
      rw [if_neg c17]
      rw [if_neg c17] at h
      by_cases c18 : pyLower (pyStr (fieldOfD (PyVal.dict kvs) "op" (.str ""))) = "value_counts"
      · rw [if_pos c18]
        rw [if_pos c18] at h
        exact applyValueCounts_safe w kvs h
      rw [if_neg c18]
      rw [if_neg c18] at h
      by_cases c19 : pyLower (pyStr (fieldOfD (PyVal.dict kvs) "op" (.str ""))) = "dedupe"
      · rw [if_pos c19]
        exact applyDedupe_safe w kvs
      rw [if_neg c19]
      by_cases c20 : pyLower (pyStr (fieldOfD (PyVal.dict kvs) "op" (.str ""))) = "sample"
      · rw [if_pos c20]
        exact applySample_safe w kvs
      rw [if_neg c20]
      exact ⟨_, rfl⟩
  | none => exact Bool.noConfusion h
  | bool b => exact Bool.noConfusion h
  | int n => exact Bool.noConfusion h
  | float q => exact Bool.noConfusion h
  | str s => exact Bool.noConfusion h
  | list xs => exact Bool.noConfusion h

/-- A fold of shape-safe steps never raises. -/
theorem runStepsFold_safe (steps : List PyVal) :
    ∀ (p : Table × List String), steps.all stepSafe = true →
      ∃ q, steps.foldlM stepFold p = .ok q := by
  induction steps with
  | nil => intro p _; exact ⟨p, rfl⟩
  | cons s ss ih =>
      intro p h
      rw [List.all_cons, Bool.and_eq_true] at h
      obtain ⟨r, hr⟩ := applyStep_safe p.1 s h.1
      obtain ⟨t2, ls⟩ := r
      obtain ⟨q2, hq2⟩ := ih (t2, p.2 ++ ls) h.2
      refine ⟨q2, ?_⟩
      rw [List.foldlM_cons]
      rw [show stepFold p s = Except.ok (t2, p.2 ++ ls) from by
        unfold stepFold; rw [hr, exc_bind_ok]; rfl]
      rw [exc_bind_ok]
      exact hq2

/-- C1 (amended).  A plan whose every step is shape-safe (dict-shaped with
int-convertible n/k/periods fields, iterable iterated fields, dict-shaped
condition and operand objects, no filter `between` and no groupby_agg)
executes to a (table, log) pair: no exception escapes the executor.  (The
original claim fails: int(), iteration and .get run outside every try in
several branches, so a malformed field raises out of
_execute_analysis_plan, as the counterexample shows.) -/
theorem C1_safe_plans_never_raise (df : Table) (steps : List PyVal)
    (h : steps.all stepSafe = true) :
    ∃ t logs, execute_analysis_plan df (planOf steps) = .ok (t, logs) := by
  obtain ⟨⟨t0, logs0⟩, hq⟩ := runStepsFold_safe steps (smart_coerce_dataframe df, []) h
  rw [execute_eq_runSteps]
  rw [show runSteps (smart_coerce_dataframe df) steps = Except.ok (t0, logs0) from hq]
  show ∃ t logs, (if t0.header.length > 50 then pure (truncCols t0, logs0 ++ [trimMsg])
      else pure (t0, logs0)) = (Except.ok (t, logs) : Except String (Table × List String))
  split
  · exact ⟨_, _, rfl⟩
  · exact ⟨_, _, rfl⟩

/-- Witness for C1: a safe limit plan returns a pair. -/
theorem C1_safe_plans_never_raise_witness :
    ∃ t logs, execute_analysis_plan exNum
      (planOf [.dict [("op", .str "limit"), ("n", .int 1)]]) = .ok (t, logs) :=
  C1_safe_plans_never_raise exNum [.dict [("op", .str "limit"), ("n", .int 1)]]
    (by decide)

end PlanEngine
